import Mathlib

/-!
Verification development for the fantasy-league history statistics engine.

The repository contains two statistics components:

* `AdvancedAnalytics` (advanced-analytics module): parses raw season payloads
  into matchups / weekly scores and computes luck, consistency, clutch and
  strength-of-schedule metrics.
* `StatsEngine` (statistics engine): normalizes seasons (champion resolution,
  regular/playoff split), aggregates career records, head-to-head records,
  high scores, streaks, leaderboards and the record book.

This file gives a shallow embedding of both components.  JavaScript numbers
are modelled as exact rationals (`ℚ`); `Math.sqrt` (used only for the
consistency metric's standard deviation) is modelled as an explicit function
parameter, since the floating-point square root has no exact rational
counterpart.  JavaScript `Map`s and objects are modelled as association
lists: `Map`s iterate in insertion order, while objects with integer-like
keys iterate in ascending numeric key order, and the embedding keeps those
orders.  `undefined` string/number fields are modelled as `Option` or as a
zero/empty sentinel whenever the source only consumes the field through
truthiness tests (noted at each such field).
-/

/-- Insertion-ordered association-list upsert, the semantics of
`Map.prototype.set` composed with a read of the previous value: if the key is
present its value is replaced in place, otherwise the pair is appended. -/
def upsertWith {κ α : Type} [BEq κ] : List (κ × α) → κ → (Option α → α) → List (κ × α)
  | [], k, f => [(k, f none)]
  | (a, b) :: t, k, f =>
    if k == a then (a, f (some b)) :: t else (a, b) :: upsertWith t k f

/-- Ascending-key association-list upsert, the semantics of assigning to an
integer-keyed property of a JavaScript object (such objects iterate their
integer-like keys in ascending numeric order). -/
def upsertNum {α : Type} : List (Nat × α) → Nat → α → List (Nat × α)
  | [], k, v => [(k, v)]
  | (a, b) :: t, k, v =>
    if k < a then (k, v) :: (a, b) :: t
    else if k = a then (k, v) :: t
    else (a, b) :: upsertNum t k v

/-- Set insertion in insertion order, the semantics of `Set.prototype.add`. -/
def setInsert {α : Type} [BEq α] (l : List α) (x : α) : List α :=
  if l.contains x then l else l ++ [x]

/-- Rounding of a rational to `d` decimal places, the idealized decimal
semantics of `parseFloat(x.toFixed(d))` in the source (the binary double
rounding of `toFixed` is not modelled; no verified claim depends on the
rounding boundary). -/
def toFixedQ (d : Nat) (q : ℚ) : ℚ :=
  (round (q * (10 : ℚ) ^ d) : ℤ) / (10 : ℚ) ^ d

/-- Maximum of a score list with JavaScript `Math.max(...scores)` semantics
on a nonempty list (the source only applies it to nonempty lists). -/
def listMaxQ : List ℚ → ℚ
  | [] => 0
  | h :: t => t.foldl max h

/-- Minimum of a score list, `Math.min(...scores)` on a nonempty list. -/
def listMinQ : List ℚ → ℚ
  | [] => 0
  | h :: t => t.foldl min h

namespace AdvancedAnalytics

/-- One side (`matchup.home` / `matchup.away`) of a raw schedule entry;
`totalPoints` is `none` when the provider left the field `undefined`. -/
structure ScheduleSide where
  teamId : Nat
  totalPoints : Option ℚ
deriving DecidableEq, Repr

/-- One raw schedule entry of a season payload.  A side is `none` when the
provider payload lacks the corresponding object. -/
structure ScheduleEntry where
  matchupPeriodId : Nat
  playoffTierType : Option String
  home : Option ScheduleSide
  away : Option ScheduleSide
deriving DecidableEq, Repr

/-- Raw league member (owner roster entry) of a season payload. -/
structure PMember where
  id : String
  firstName : String
  lastName : String
deriving DecidableEq, Repr

/-- Raw team of a season payload.  String fields use `""` for `undefined`
since the source consumes them only through truthiness and concatenation;
the source field `abbrev` is spelled `abbrev_` (Lean keyword). -/
structure PTeam where
  id : Nat
  name : String
  abbrev_ : String
  owners : List String
deriving DecidableEq, Repr

/-- One season payload: either an error marker or team/schedule/member data. -/
structure SeasonPayload where
  error : Bool
  teams : List PTeam
  schedule : List ScheduleEntry
  members : List PMember
deriving DecidableEq, Repr

/-- The whole raw input, `rawData.seasons`: year-keyed payloads, listed in
ascending year order, the iteration order of the integer-keyed object. -/
structure LeagueData where
  seasons : List (Nat × SeasonPayload)
deriving DecidableEq, Repr

/-- The analytics engine instance: raw data plus configuration.  The co-owner
mapping and display override are configuration constants in the source; they
are carried as fields so that theorems quantify over them. -/
structure Analytics where
  raw : LeagueData
  minYear : Nat
  coOwnerMappings : List (String × String)
  coOwnerDisplayName : List (String × String)
deriving DecidableEq, Repr

/-- Guard of the matchup-parsing loop in `parseData`: both sides present and
both `totalPoints` defined (`matchup.away && matchup.home &&
matchup.away.totalPoints !== undefined && matchup.home.totalPoints !==
undefined`; objects are always truthy). -/
def entryComplete (e : ScheduleEntry) : Bool :=
  match e.home, e.away with
  | some h, some a => h.totalPoints.isSome && a.totalPoints.isSome
  | _, _ => false

/-- Playoff test of `parseData`: `matchup.playoffTierType !== undefined &&
matchup.playoffTierType !== 'NONE'`. -/
def entryIsPlayoff (e : ScheduleEntry) : Bool :=
  match e.playoffTierType with
  | none => false
  | some s => s ≠ "NONE"

/-- Parsed matchup record (`matchupData` in `parseData`).  On equal scores the
source's conditional `home.totalPoints > away.totalPoints ? home : away`
makes the away side the winner and the home side the loser. -/
structure Matchup where
  year : Nat
  week : Nat
  isPlayoff : Bool
  homeTeamId : Nat
  awayTeamId : Nat
  homeScore : ℚ
  awayScore : ℚ
  margin : ℚ
  winnerId : Nat
  loserId : Nat
deriving DecidableEq, Repr

/-- Translation of one guarded schedule entry into `matchupData`; `none` when
the guard fails and the entry is skipped. -/
def parseEntry (year : Nat) (e : ScheduleEntry) : Option Matchup :=
  match e.home, e.away with
  | some h, some a =>
    match h.totalPoints, a.totalPoints with
    | some hp, some ap =>
      some { year := year
             week := e.matchupPeriodId
             isPlayoff := entryIsPlayoff e
             homeTeamId := h.teamId
             awayTeamId := a.teamId
             homeScore := hp
             awayScore := ap
             margin := |hp - ap|
             winnerId := if hp > ap then h.teamId else a.teamId
             loserId := if hp > ap then a.teamId else h.teamId }
    | _, _ => none
  | _, _ => none

/-- Seasons surviving the `parseData` loop guards: not an error payload and
not before `minYear`. -/
def includedSeasons (a : Analytics) : List (Nat × SeasonPayload) :=
  a.raw.seasons.filter (fun p => !p.2.error && decide (a.minYear ≤ p.1))

/-- Matchups of one season (`seasonMatchups`), in schedule order. -/
def seasonMatchups (year : Nat) (sched : List ScheduleEntry) : List Matchup :=
  sched.filterMap (parseEntry year)

/-- All matchups pushed to `this.allMatchups`: seasons in ascending year
order, schedule order within a season. -/
def allMatchups (a : Analytics) : List Matchup :=
  (includedSeasons a).flatMap (fun p => seasonMatchups p.1 p.2.schedule)

/-- Weekly score object of one season and week
(`this.weeklyScores[year][week]`), built by assigning home then away score of
every guarded schedule entry of that week; integer keys iterate ascending. -/
def weekScores (sched : List ScheduleEntry) (w : Nat) : List (Nat × ℚ) :=
  sched.foldl
    (fun acc e =>
      match e.home, e.away with
      | some h, some a =>
        match h.totalPoints, a.totalPoints with
        | some hp, some ap =>
          if e.matchupPeriodId = w then
            upsertNum (upsertNum acc h.teamId hp) a.teamId ap
          else acc
        | _, _ => acc
      | _, _ => acc)
    []

/-- Week keys present in `this.weeklyScores[year]`, in ascending order (the
iteration order of the integer-keyed object). -/
def scoreWeeks (sched : List ScheduleEntry) : List Nat :=
  (((sched.filter entryComplete).map (fun e => e.matchupPeriodId)).dedup).mergeSort
    (fun x y => decide (x ≤ y))

/-- Membership view of `this.regularSeasonWeeks[year]` (a `Set` consumed only
through `.has`): weeks of guarded non-playoff schedule entries. -/
def regularWeeks (sched : List ScheduleEntry) : List Nat :=
  ((sched.filter (fun e => entryComplete e && !entryIsPlayoff e)).map
    (fun e => e.matchupPeriodId))

/-- First truthy owner id of a team (`team.owners[0] || null`; an empty
string is falsy). -/
def primaryOwnerOf (t : PTeam) : Option String :=
  match t.owners.head? with
  | some s => if s = "" then none else some s
  | none => none

/-- Value of `this.teamToOwner` at key `year-teamId`: later registrations of
a duplicate team id overwrite earlier ones, and registration only happens
for a truthy primary owner. -/
def teamOwnerIn (teams : List PTeam) (tid : Nat) : Option String :=
  ((teams.filter (fun t => t.id = tid && (primaryOwnerOf t).isSome)).getLast?).bind
    primaryOwnerOf

/-- Canonical owner id (`getCanonicalOwnerId`):
`this.coOwnerMappings[ownerId] || ownerId`. -/
def getCanonicalOwnerId (a : Analytics) (oid : String) : String :=
  match a.coOwnerMappings.lookup oid with
  | some c => if c = "" then oid else c
  | none => oid

/-- Primary owner id of a team in a year (`getOwnerId`), already mapped to
its canonical co-owner id; `none` when the season is missing or the team has
no registered owner. -/
def getOwnerId (a : Analytics) (tid : Nat) (year : Nat) : Option String :=
  match (includedSeasons a).lookup year with
  | none => none
  | some sd =>
    match teamOwnerIn sd.teams tid with
    | some oid => some (getCanonicalOwnerId a oid)
    | none => none

/-- Current owner ids (`identifyCurrentOwners`): canonical owner ids of every
team of the most recent included season that has at least one team. -/
def currentOwnerIds (a : Analytics) : List String :=
  let yearsDesc :=
    ((includedSeasons a).map Prod.fst).mergeSort (fun x y => decide (y ≤ x))
  match yearsDesc.find? (fun y =>
      match (includedSeasons a).lookup y with
      | some sd => !sd.teams.isEmpty
      | none => false) with
  | none => []
  | some y =>
    match (includedSeasons a).lookup y with
    | none => []
    | some sd =>
      sd.teams.foldl
        (fun acc t =>
          t.owners.foldl (fun acc2 oid => setInsert acc2 (getCanonicalOwnerId a oid)) acc)
        []

/-- Current-owner test on a canonical-or-raw owner id (`isCurrentOwner`). -/
def isCurrentOwner (a : Analytics) (oid : String) : Bool :=
  (currentOwnerIds a).contains (getCanonicalOwnerId a oid)

end AdvancedAnalytics

/-- JavaScript string-or (`a || b`) on strings: the empty string is falsy. -/
def jsOrS (s t : String) : String := if s = "" then t else s

/-- JavaScript UTF-16 lexicographic string comparison, on char lists. -/
def jsStrLtAux : List Char → List Char → Bool
  | [], [] => false
  | [], _ :: _ => true
  | _ :: _, [] => false
  | a :: as, b :: bs =>
    if a.toNat < b.toNat then true
    else if b.toNat < a.toNat then false
    else jsStrLtAux as bs

/-- JavaScript string `<`, used by the default `Array.prototype.sort`. -/
def jsStrLt (a b : String) : Bool := jsStrLtAux a.data b.data

namespace AdvancedAnalytics

/-- Capitalization helper of `formatOwnerName`: first char upper-cased, rest
lower-cased; falsy (empty) input gives the empty string. -/
def capitalizeJS (s : String) : String :=
  match s.data with
  | [] => ""
  | c :: rest => String.mk (c.toUpper :: rest.map Char.toLower)

/-- Owner display-name format (`formatOwnerName`): capitalized first name
plus last initial and a dot, trimmed. -/
def formatOwnerName (firstName lastName : String) : String :=
  let first := capitalizeJS firstName
  let lastInitial :=
    match lastName.data with
    | [] => ""
    | c :: _ => String.mk [c.toUpper] ++ "."
  (first ++ " " ++ lastInitial).trim

/-- Global owner-name registry (`this.ownerNames`): first-seen member name
per owner id, seasons in ascending year order. -/
def ownerNames (a : Analytics) : List (String × String) :=
  (includedSeasons a).foldl
    (fun acc p =>
      p.2.members.foldl
        (fun acc2 m =>
          if (acc2.lookup m.id).isSome then acc2
          else acc2 ++ [(m.id, formatOwnerName m.firstName m.lastName)])
        acc)
    []

/-- Per-season member lookup (`memberLookup.get(ownerId)`): a duplicate
member id keeps the last registration. -/
def memberNameIn (members : List PMember) (oid : String) : Option String :=
  ((members.filter (fun m => m.id = oid)).getLast?).map
    (fun m => formatOwnerName m.firstName m.lastName)

/-- Entry of `this.teamRegistry` (keyed by `year-teamId`). -/
structure TeamInfo where
  id : Nat
  year : Nat
  name : String
  abbrev_ : String
  ownerId : Option String
  ownerName : String
deriving DecidableEq, Repr

/-- Display name of a raw team (`team.name || team.location + ' ' +
team.nickname || Team N`); with `undefined` modelled as `""` the middle
alternative is never empty, as in the source where it is never `undefined`
as a concatenation result. -/
def rawTeamName (t : PTeam) : String :=
  jsOrS t.name (jsOrS " " ("Team " ++ toString t.id))

/-- Team registry (`this.teamRegistry`), keyed by `(year, teamId)`; a later
duplicate key overwrites in place. -/
def teamRegistry (a : Analytics) : List ((Nat × Nat) × TeamInfo) :=
  (includedSeasons a).foldl
    (fun acc p =>
      p.2.teams.foldl
        (fun acc2 t =>
          let teamName := rawTeamName t
          let info : TeamInfo :=
            { id := t.id
              year := p.1
              name := teamName
              abbrev_ := jsOrS t.abbrev_ ((teamName.take 4).toUpper)
              ownerId := primaryOwnerOf t
              ownerName :=
                match primaryOwnerOf t with
                | some oid => (memberNameIn p.2.members oid).getD "Unknown Owner"
                | none => "Unknown Owner" }
          upsertWith acc2 (p.1, t.id) (fun _ => info))
        acc)
    []

/-- Team display name (`getTeamName`): year-scoped registry hit gives
`name (ownerName)`, otherwise the first registry entry with this team id,
otherwise `Team N`. -/
def getTeamName (a : Analytics) (tid : Nat) (yearOpt : Option Nat) : String :=
  let fallback :=
    match (teamRegistry a).find? (fun kv => kv.2.id = tid) with
    | some kv => kv.2.name
    | none => "Team " ++ toString tid
  match yearOpt with
  | some y =>
    match (teamRegistry a).lookup (y, tid) with
    | some team => team.name ++ " (" ++ team.ownerName ++ ")"
    | none => fallback
  | none => fallback

/-- Owner display name by owner id (`getOwnerNameById`): co-owner display
override, then first-seen roster name, then `Unknown Owner`. -/
def getOwnerNameById (a : Analytics) (oid : String) : String :=
  let canonicalId := getCanonicalOwnerId a oid
  jsOrS ((a.coOwnerDisplayName.lookup canonicalId).getD "")
    (jsOrS (((ownerNames a).lookup canonicalId).getD "") "Unknown Owner")

/-- Aggregation key of the metric maps: a team id (single-year mode) or an
owner-id-or-`team-N` string (all-time mode), mirroring the JavaScript
number-or-string keys. -/
inductive JSKey where
  | num (n : Nat)
  | str (s : String)
deriving DecidableEq, Repr

/-- Metric aggregation key:
`year ? teamId : (this.getOwnerId(teamId, yr) || 'team-' + teamId)`. -/
def metricKey (a : Analytics) (yearOpt : Option Nat) (tid : Nat) (yr : Nat) : JSKey :=
  match yearOpt with
  | some _ => JSKey.num tid
  | none =>
    match getOwnerId a tid yr with
    | some o => if o = "" then JSKey.str ("team-" ++ toString tid) else JSKey.str o
    | none => JSKey.str ("team-" ++ toString tid)

/-- Current-owner test on a metric key (`isCurrentOwner(key)`).  A numeric
key (unreachable in the filtered, all-time mode) canonicalizes through the
string-coercing object lookup and can never be member of the string set of
current owner ids unless the co-owner table maps its decimal string. -/
def isCurrentOwnerKey (a : Analytics) (k : JSKey) : Bool :=
  match k with
  | JSKey.str s => isCurrentOwner a s
  | JSKey.num n =>
    match a.coOwnerMappings.lookup (toString n) with
    | some c => if c = "" then false else (currentOwnerIds a).contains c
    | none => false

/-- Display-name block shared by the four metric result builders.  The
single-year branch with a string key and the all-time branch with a numeric
key are unreachable; they follow the JavaScript result on those inputs
(`getTeamName` with a string key misses the registry, `getOwnerNameById`
with a number misses both string-keyed maps). -/
def displayNameForKey (a : Analytics) (yearOpt : Option Nat) (k : JSKey) : String :=
  match yearOpt with
  | some y =>
    match k with
    | JSKey.num tid => getTeamName a tid (some y)
    | JSKey.str _ => "Team undefined"
  | none =>
    match k with
    | JSKey.str s =>
      if s.startsWith "team-" then getTeamName a ((s.drop 5).toNat?.getD 0) none
      else getOwnerNameById a s
    | JSKey.num _ => "Unknown Owner"

/-- Accumulated all-play record of one aggregation key
(`results.get(key)` in `calculateAllPlayRecord`); the JavaScript `Set`
fields are insertion-ordered duplicate-free lists. -/
structure APRecord where
  expectedWins : ℚ
  actualWins : Nat
  totalWeeks : Nat
  allPlayWins : Nat
  allPlayLosses : Nat
  seasons : List Nat
  teamIds : List Nat
  years : List Nat
deriving DecidableEq, Repr

/-- Fresh all-play record inserted on first sight of a key. -/
def freshAP : APRecord :=
  { expectedWins := 0, actualWins := 0, totalWeeks := 0, allPlayWins := 0
    allPlayLosses := 0, seasons := [], teamIds := [], years := [] }

/-- Processing of one regular-season week of scores inside
`calculateAllPlayRecord`: skipped entirely with fewer than two teams,
otherwise each team accrues its all-play wins/losses and weekly expected
wins `winsThisWeek / (numTeams - 1)`. -/
def apAddWeek (a : Analytics) (yearOpt : Option Nat) (yr : Nat)
    (scores : List (Nat × ℚ)) (res : List (JSKey × APRecord)) :
    List (JSKey × APRecord) :=
  let n := scores.length
  if n < 2 then res
  else
    scores.foldl
      (fun acc p =>
        let tid := p.1
        let myScore := p.2
        let winsThisWeek := (scores.filter (fun q => decide (q.1 ≠ tid ∧ myScore > q.2))).length
        let expectedThisWeek : ℚ := (winsThisWeek : ℚ) / ((n : ℚ) - 1)
        let key := metricKey a yearOpt tid yr
        upsertWith acc key
          (fun old =>
            let r := old.getD freshAP
            { r with
              expectedWins := r.expectedWins + expectedThisWeek
              allPlayWins := r.allPlayWins + winsThisWeek
              allPlayLosses := r.allPlayLosses + (n - 1 - winsThisWeek)
              totalWeeks := r.totalWeeks + 1
              seasons := setInsert r.seasons yr
              teamIds := setInsert r.teamIds tid
              years := setInsert r.years yr }))
      res

/-- Translation of `calculateAllPlayRecord`: expected wins accumulate over
every regular-season week of the processed years, then actual wins accumulate
over the non-playoff matchups, credited to each matchup's `winnerId` when its
key is already present. -/
def calculateAllPlayRecord (a : Analytics) (yearOpt : Option Nat) :
    List (JSKey × APRecord) :=
  let yearsToProcess :=
    match yearOpt with
    | some y => [y]
    | none => (includedSeasons a).map Prod.fst
  let base :=
    yearsToProcess.foldl
      (fun res yr =>
        match (includedSeasons a).lookup yr with
        | none => res
        | some sd =>
          (scoreWeeks sd.schedule).foldl
            (fun res2 w =>
              if (regularWeeks sd.schedule).contains w then
                apAddWeek a yearOpt yr (weekScores sd.schedule w) res2
              else res2)
            res)
      []
  let matchupsToUse : List Matchup :=
    match yearOpt with
    | some y => (allMatchups a).filter (fun m => decide (m.year = y) && !m.isPlayoff)
    | none => (allMatchups a).filter (fun m => !m.isPlayoff)
  matchupsToUse.foldl
    (fun res m =>
      let key := metricKey a yearOpt m.winnerId m.year
      if (res.lookup key).isSome then
        upsertWith res key
          (fun old =>
            let r := old.getD freshAP
            { r with actualWins := r.actualWins + 1 })
      else res)
    base

/-- Result row of `calculateLuckScores`. -/
structure LuckEntry where
  key : JSKey
  displayName : String
  actualWins : Nat
  expectedWins : ℚ
  luckScore : ℚ
  luckPerSeason : ℚ
  allPlayRecord : String
  allPlayWinPct : ℚ
  seasonsPlayed : Nat
deriving DecidableEq, Repr

/-- Construction of one luck result row from an accumulated record. -/
def mkLuckEntry (a : Analytics) (yearOpt : Option Nat) (k : JSKey)
    (r : APRecord) : LuckEntry :=
  let luck := (r.actualWins : ℚ) - r.expectedWins
  { key := k
    displayName := displayNameForKey a yearOpt k
    actualWins := r.actualWins
    expectedWins := toFixedQ 2 r.expectedWins
    luckScore := toFixedQ 2 luck
    luckPerSeason := toFixedQ 2 (luck / (r.seasons.length : ℚ))
    allPlayRecord := toString r.allPlayWins ++ "-" ++ toString r.allPlayLosses
    allPlayWinPct :=
      toFixedQ 1 ((r.allPlayWins : ℚ) / ((r.allPlayWins : ℚ) + (r.allPlayLosses : ℚ)) * 100)
    seasonsPlayed := r.seasons.length }

/-- Translation of `calculateLuckScores`: rows for the accumulated all-play
records, skipping non-current owners in all-time mode, sorted by luck score
ascending. -/
def calculateLuckScores (a : Analytics) (yearOpt : Option Nat) : List LuckEntry :=
  let records := calculateAllPlayRecord a yearOpt
  let entries :=
    records.foldl
      (fun acc p =>
        if yearOpt.isNone && !isCurrentOwnerKey a p.1 then acc
        else acc ++ [mkLuckEntry a yearOpt p.1 p.2])
      []
  entries.mergeSort (fun x y => decide (x.luckScore ≤ y.luckScore))

/-- Modelled from the spec (§4.6 shared policy) for the refinement
comparison of claim C3: the luck result rows of the full, unfiltered
population of identities — the same computation as `calculateLuckScores`
with the current-owner display filter removed. -/
def calculateLuckScoresUnfiltered (a : Analytics) (yearOpt : Option Nat) :
    List LuckEntry :=
  let records := calculateAllPlayRecord a yearOpt
  ((records.map (fun p => mkLuckEntry a yearOpt p.1 p.2))).mergeSort
    (fun x y => decide (x.luckScore ≤ y.luckScore))

end AdvancedAnalytics

namespace AdvancedAnalytics

/-- Non-playoff matchups feeding a metric
(`year ? allMatchups.filter(year && !playoff) : allMatchups.filter(!playoff)`). -/
def metricMatchups (a : Analytics) (yearOpt : Option Nat) : List Matchup :=
  match yearOpt with
  | some y => (allMatchups a).filter (fun m => decide (m.year = y) && !m.isPlayoff)
  | none => (allMatchups a).filter (fun m => !m.isPlayoff)

/-- Accumulated clutch statistics of one key
(`stats.get(key)` in `calculateCloseGamePerformance`). -/
structure CGRecord where
  closeWins : Nat
  closeLosses : Nat
  blowoutWins : Nat
  blowoutLosses : Nat
  totalCloseGames : Nat
  avgMarginInWins : List ℚ
  avgMarginInLosses : List ℚ
  years : List Nat
deriving DecidableEq, Repr

/-- Fresh clutch record inserted on first sight of a key. -/
def freshCG : CGRecord :=
  { closeWins := 0, closeLosses := 0, blowoutWins := 0, blowoutLosses := 0
    totalCloseGames := 0, avgMarginInWins := [], avgMarginInLosses := [], years := [] }

/-- Processing of one matchup in `calculateCloseGamePerformance`.  The
winner and loser records are updated sequentially, which reproduces the
JavaScript aliasing when both map to the same key. -/
def cgStep (a : Analytics) (yearOpt : Option Nat) (closeThreshold blowoutThreshold : ℚ)
    (stats : List (JSKey × CGRecord)) (m : Matchup) : List (JSKey × CGRecord) :=
  let isCloseGame := decide (m.margin ≤ closeThreshold)
  let isBlowout := decide (m.margin > blowoutThreshold)
  let winnerKey := metricKey a yearOpt m.winnerId m.year
  let loserKey := metricKey a yearOpt m.loserId m.year
  let s1 := upsertWith stats winnerKey
    (fun old => let r := old.getD freshCG; { r with years := setInsert r.years m.year })
  let s2 := upsertWith s1 loserKey
    (fun old => let r := old.getD freshCG; { r with years := setInsert r.years m.year })
  let s3 :=
    if isCloseGame then
      upsertWith s2 winnerKey
        (fun old => let r := old.getD freshCG
          { r with closeWins := r.closeWins + 1, totalCloseGames := r.totalCloseGames + 1 })
    else s2
  let s4 :=
    if isCloseGame then
      upsertWith s3 loserKey
        (fun old => let r := old.getD freshCG
          { r with closeLosses := r.closeLosses + 1, totalCloseGames := r.totalCloseGames + 1 })
    else s3
  let s5 :=
    if isBlowout then
      upsertWith s4 winnerKey
        (fun old => let r := old.getD freshCG; { r with blowoutWins := r.blowoutWins + 1 })
    else s4
  let s6 :=
    if isBlowout then
      upsertWith s5 loserKey
        (fun old => let r := old.getD freshCG; { r with blowoutLosses := r.blowoutLosses + 1 })
    else s5
  let s7 := upsertWith s6 winnerKey
    (fun old => let r := old.getD freshCG
      { r with avgMarginInWins := r.avgMarginInWins ++ [m.margin] })
  upsertWith s7 loserKey
    (fun old => let r := old.getD freshCG
      { r with avgMarginInLosses := r.avgMarginInLosses ++ [m.margin] })

/-- Result row of `calculateCloseGamePerformance`. -/
structure CGEntry where
  key : JSKey
  displayName : String
  closeWins : Nat
  closeLosses : Nat
  closeGameWinPct : ℚ
  blowoutWins : Nat
  blowoutLosses : Nat
  totalCloseGames : Nat
  overallWinPct : ℚ
  clutchFactor : ℚ
  avgWinMargin : ℚ
  avgLossMargin : ℚ
  seasonsPlayed : Nat
deriving DecidableEq, Repr

/-- Construction of one clutch result row from an accumulated record (a
`0/0` win-percentage, `NaN` in JavaScript, is modelled as `0`). -/
def mkCGEntry (a : Analytics) (yearOpt : Option Nat) (k : JSKey) (d : CGRecord) : CGEntry :=
  let closeWinPct : ℚ :=
    if d.totalCloseGames > 0 then (d.closeWins : ℚ) / (d.totalCloseGames : ℚ) * 100 else 0
  let avgWinMargin : ℚ :=
    if d.avgMarginInWins.length > 0 then
      d.avgMarginInWins.sum / (d.avgMarginInWins.length : ℚ)
    else 0
  let avgLossMargin : ℚ :=
    if d.avgMarginInLosses.length > 0 then
      d.avgMarginInLosses.sum / (d.avgMarginInLosses.length : ℚ)
    else 0
  let totalWins := d.closeWins + d.blowoutWins
  let totalLosses := d.closeLosses + d.blowoutLosses
  let overallWinPct : ℚ := (totalWins : ℚ) / ((totalWins : ℚ) + (totalLosses : ℚ)) * 100
  let clutchFactor := closeWinPct - overallWinPct
  { key := k
    displayName := displayNameForKey a yearOpt k
    closeWins := d.closeWins
    closeLosses := d.closeLosses
    closeGameWinPct := toFixedQ 1 closeWinPct
    blowoutWins := d.blowoutWins
    blowoutLosses := d.blowoutLosses
    totalCloseGames := d.totalCloseGames
    overallWinPct := toFixedQ 1 overallWinPct
    clutchFactor := toFixedQ 1 clutchFactor
    avgWinMargin := toFixedQ 2 avgWinMargin
    avgLossMargin := toFixedQ 2 avgLossMargin
    seasonsPlayed := d.years.length }

/-- Translation of `calculateCloseGamePerformance`: clutch statistics over
the non-playoff matchups, rows skipped for non-current owners in all-time
mode, sorted by clutch factor descending. -/
def calculateCloseGamePerformance (a : Analytics)
    (closeThreshold blowoutThreshold : ℚ) (yearOpt : Option Nat) : List CGEntry :=
  let stats :=
    (metricMatchups a yearOpt).foldl (cgStep a yearOpt closeThreshold blowoutThreshold) []
  let results :=
    stats.foldl
      (fun acc p =>
        if yearOpt.isNone && !isCurrentOwnerKey a p.1 then acc
        else acc ++ [mkCGEntry a yearOpt p.1 p.2])
      []
  results.mergeSort (fun x y => decide (y.clutchFactor ≤ x.clutchFactor))

/-- Modelled from the spec (§4.6 shared policy) for the refinement
comparison of claim C3: the clutch result rows of the full population —
`calculateCloseGamePerformance` with the current-owner display filter
removed. -/
def calculateCloseGamePerformanceUnfiltered (a : Analytics)
    (closeThreshold blowoutThreshold : ℚ) (yearOpt : Option Nat) : List CGEntry :=
  let stats :=
    (metricMatchups a yearOpt).foldl (cgStep a yearOpt closeThreshold blowoutThreshold) []
  (stats.map (fun p => mkCGEntry a yearOpt p.1 p.2)).mergeSort
    (fun x y => decide (y.clutchFactor ≤ x.clutchFactor))

/-- Accumulated score list of one key in `calculateConsistencyMetrics`. -/
structure ConsRecord where
  scores : List ℚ
  years : List Nat
deriving DecidableEq, Repr

/-- Score collection of `calculateConsistencyMetrics`: every weekly score of
every processed year (all weeks, playoffs included). -/
def consistencyScores (a : Analytics) (yearOpt : Option Nat) :
    List (JSKey × ConsRecord) :=
  let yearsToProcess :=
    match yearOpt with
    | some y => [y]
    | none => (includedSeasons a).map Prod.fst
  yearsToProcess.foldl
    (fun res yr =>
      match (includedSeasons a).lookup yr with
      | none => res
      | some sd =>
        (scoreWeeks sd.schedule).foldl
          (fun res2 w =>
            (weekScores sd.schedule w).foldl
              (fun res3 p =>
                upsertWith res3 (metricKey a yearOpt p.1 yr)
                  (fun old =>
                    let r := old.getD { scores := [], years := [] }
                    { scores := r.scores ++ [p.2], years := setInsert r.years yr }))
              res2)
          res)
    []

/-- Result row of `calculateConsistencyMetrics`. -/
structure ConsEntry where
  key : JSKey
  displayName : String
  gamesPlayed : Nat
  avgScore : ℚ
  stdDev : ℚ
  coefficientOfVariation : ℚ
  floor : ℚ
  ceiling : ℚ
  range : ℚ
  boomGames : Nat
  bustGames : Nat
  boomRate : ℚ
  bustRate : ℚ
  highScore : ℚ
  lowScore : ℚ
  seasonsPlayed : Nat
deriving DecidableEq, Repr

/-- Construction of one consistency result row.  `fsqrt` is the
floating-point `Math.sqrt` of the source, carried as an explicit parameter
because the exact square root of a rational is in general irrational; the
float literals `0.1`, `0.9`, `1.2`, `0.8` are idealized to the decimal
rationals they denote. -/
def mkConsEntry (fsqrt : ℚ → ℚ) (a : Analytics) (yearOpt : Option Nat)
    (k : JSKey) (d : ConsRecord) : ConsEntry :=
  let scores := d.scores
  let sorted := scores.mergeSort (fun x y => decide (x ≤ y))
  let avg := scores.sum / (scores.length : ℚ)
  let variance := (scores.map (fun s => (s - avg) ^ 2)).sum / (scores.length : ℚ)
  let stdDev := fsqrt variance
  let coefficientOfVariation := stdDev / avg * 100
  let floorIndex := scores.length / 10
  let ceilingIndex := scores.length * 9 / 10
  let floorScore := sorted.getD floorIndex 0
  let ceilingScore := sorted.getD ceilingIndex 0
  let booms := (scores.filter (fun s => decide (s ≥ avg * (6 / 5)))).length
  let busts := (scores.filter (fun s => decide (s ≤ avg * (4 / 5)))).length
  { key := k
    displayName := displayNameForKey a yearOpt k
    gamesPlayed := scores.length
    avgScore := toFixedQ 2 avg
    stdDev := toFixedQ 2 stdDev
    coefficientOfVariation := toFixedQ 1 coefficientOfVariation
    floor := toFixedQ 2 floorScore
    ceiling := toFixedQ 2 ceilingScore
    range := toFixedQ 2 (ceilingScore - floorScore)
    boomGames := booms
    bustGames := busts
    boomRate := toFixedQ 1 ((booms : ℚ) / (scores.length : ℚ) * 100)
    bustRate := toFixedQ 1 ((busts : ℚ) / (scores.length : ℚ) * 100)
    highScore := listMaxQ scores
    lowScore := listMinQ scores
    seasonsPlayed := d.years.length }

/-- Translation of `calculateConsistencyMetrics`: one row per key with at
least three scores, non-current owners skipped in all-time mode, sorted by
coefficient of variation ascending. -/
def calculateConsistencyMetrics (fsqrt : ℚ → ℚ) (a : Analytics)
    (yearOpt : Option Nat) : List ConsEntry :=
  let teamScores := consistencyScores a yearOpt
  let metrics :=
    teamScores.foldl
      (fun acc p =>
        if yearOpt.isNone && !isCurrentOwnerKey a p.1 then acc
        else if p.2.scores.length < 3 then acc
        else acc ++ [mkConsEntry fsqrt a yearOpt p.1 p.2])
      []
  metrics.mergeSort
    (fun x y => decide (x.coefficientOfVariation ≤ y.coefficientOfVariation))

/-- Modelled from the spec (§4.6 shared policy) for the refinement
comparison of claim C3: consistency rows of the full population — the same
computation with the current-owner display filter removed (the minimum
sample-size rule is kept: it is not a display filter). -/
def calculateConsistencyMetricsUnfiltered (fsqrt : ℚ → ℚ) (a : Analytics)
    (yearOpt : Option Nat) : List ConsEntry :=
  let teamScores := consistencyScores a yearOpt
  let metrics :=
    teamScores.foldl
      (fun acc p =>
        if p.2.scores.length < 3 then acc
        else acc ++ [mkConsEntry fsqrt a yearOpt p.1 p.2])
      []
  metrics.mergeSort
    (fun x y => decide (x.coefficientOfVariation ≤ y.coefficientOfVariation))

/-- Accumulated scoring average data of one key in
`calculateStrengthOfSchedule` (`teamAvgScores`). -/
structure SOSAvg where
  scores : List ℚ
  years : List Nat
deriving DecidableEq, Repr

/-- Accumulated win/loss record of one key in
`calculateStrengthOfSchedule` (`teamRecords`). -/
structure SOSRec where
  wins : Nat
  losses : Nat
deriving DecidableEq, Repr

/-- Accumulated opponent data of one key in `calculateStrengthOfSchedule`
(`sosData`). -/
structure SOSOpp where
  opponentScores : List ℚ
  opponentKeys : List JSKey
  years : List Nat
deriving DecidableEq, Repr

/-- First pass of `calculateStrengthOfSchedule`: per-key score lists and
win/loss records over both sides of every metric matchup (home side first,
a tie counts as a loss for both sides since `won` is a strict
comparison). -/
def sosPhase1 (a : Analytics) (yearOpt : Option Nat) :
    List (JSKey × SOSAvg) × List (JSKey × SOSRec) :=
  (metricMatchups a yearOpt).foldl
    (fun maps m =>
      let sides : List (Nat × ℚ × Bool) :=
        [(m.homeTeamId, m.homeScore, decide (m.homeScore > m.awayScore)),
         (m.awayTeamId, m.awayScore, decide (m.awayScore > m.homeScore))]
      sides.foldl
        (fun maps2 side =>
          let key := metricKey a yearOpt side.1 m.year
          let avgMap := upsertWith maps2.1 key
            (fun old =>
              let r := old.getD { scores := [], years := [] }
              { scores := r.scores ++ [side.2.1], years := setInsert r.years m.year })
          let recMap := upsertWith maps2.2 key
            (fun old =>
              let r := old.getD { wins := 0, losses := 0 }
              if side.2.2 then { r with wins := r.wins + 1 }
              else { r with losses := r.losses + 1 })
          (avgMap, recMap))
        maps)
    ([], [])

/-- Second pass of `calculateStrengthOfSchedule`: per-key opponent scores
and opponent keys over both perspectives of every metric matchup. -/
def sosPhase2 (a : Analytics) (yearOpt : Option Nat) : List (JSKey × SOSOpp) :=
  (metricMatchups a yearOpt).foldl
    (fun sos m =>
      let persp : List (Nat × Nat × ℚ) :=
        [(m.homeTeamId, m.awayTeamId, m.awayScore),
         (m.awayTeamId, m.homeTeamId, m.homeScore)]
      persp.foldl
        (fun sos2 pr =>
          let key := metricKey a yearOpt pr.1 m.year
          let oppKey := metricKey a yearOpt pr.2.1 m.year
          upsertWith sos2 key
            (fun old =>
              let r := old.getD { opponentScores := [], opponentKeys := [], years := [] }
              { opponentScores := r.opponentScores ++ [pr.2.2]
                opponentKeys := r.opponentKeys ++ [oppKey]
                years := setInsert r.years m.year }))
        sos)
    []

/-- Result row of `calculateStrengthOfSchedule`. -/
structure SOSEntry where
  key : JSKey
  displayName : String
  avgOpponentScore : ℚ
  avgOpponentWinPct : ℚ
  sosIndex : ℚ
  leagueAvgScore : ℚ
  gamesPlayed : Nat
  teamWinPct : ℚ
  adjustedWinPct : ℚ
  seasonsPlayed : Nat
deriving DecidableEq, Repr

/-- Construction of one strength-of-schedule result row. -/
def mkSOSEntry (a : Analytics) (yearOpt : Option Nat)
    (recMap : List (JSKey × SOSRec)) (leagueAvg : ℚ) (k : JSKey) (d : SOSOpp) :
    SOSEntry :=
  let avgOppScore := d.opponentScores.sum / (d.opponentScores.length : ℚ)
  let oppWinPcts := d.opponentKeys.map
    (fun ok =>
      match recMap.lookup ok with
      | some rec => (rec.wins : ℚ) / ((rec.wins : ℚ) + (rec.losses : ℚ))
      | none => 1 / 2)
  let avgOppWinPct := oppWinPcts.sum / (oppWinPcts.length : ℚ)
  let sosIndex := avgOppScore / leagueAvg * 100
  let myWinPct : ℚ :=
    match recMap.lookup k with
    | some r => (r.wins : ℚ) / ((r.wins : ℚ) + (r.losses : ℚ))
    | none => 0
  { key := k
    displayName := displayNameForKey a yearOpt k
    avgOpponentScore := toFixedQ 2 avgOppScore
    avgOpponentWinPct := toFixedQ 1 (avgOppWinPct * 100)
    sosIndex := toFixedQ 1 sosIndex
    leagueAvgScore := toFixedQ 2 leagueAvg
    gamesPlayed := d.opponentScores.length
    teamWinPct := toFixedQ 1 (myWinPct * 100)
    adjustedWinPct := toFixedQ 1 (myWinPct * 100 + (sosIndex - 100) * (1 / 2))
    seasonsPlayed := d.years.length }

/-- Translation of `calculateStrengthOfSchedule`: league average over every
collected score, rows skipped for non-current owners in all-time mode,
sorted by SOS index descending. -/
def calculateStrengthOfSchedule (a : Analytics) (yearOpt : Option Nat) :
    List SOSEntry :=
  let maps := sosPhase1 a yearOpt
  let allScores := (maps.1.map (fun p => p.2.scores)).flatten
  let leagueAvg := allScores.sum / (allScores.length : ℚ)
  let sos := sosPhase2 a yearOpt
  let results :=
    sos.foldl
      (fun acc p =>
        if yearOpt.isNone && !isCurrentOwnerKey a p.1 then acc
        else acc ++ [mkSOSEntry a yearOpt maps.2 leagueAvg p.1 p.2])
      []
  results.mergeSort (fun x y => decide (y.sosIndex ≤ x.sosIndex))

/-- Modelled from the spec (§4.6 shared policy) for the refinement
comparison of claim C3: strength-of-schedule rows of the full population —
the same computation with the current-owner display filter removed. -/
def calculateStrengthOfScheduleUnfiltered (a : Analytics) (yearOpt : Option Nat) :
    List SOSEntry :=
  let maps := sosPhase1 a yearOpt
  let allScores := (maps.1.map (fun p => p.2.scores)).flatten
  let leagueAvg := allScores.sum / (allScores.length : ℚ)
  let sos := sosPhase2 a yearOpt
  (sos.map (fun p => mkSOSEntry a yearOpt maps.2 leagueAvg p.1 p.2)).mergeSort
    (fun x y => decide (y.sosIndex ≤ x.sosIndex))

/-- Result of `getHighestSingleGameScore`. -/
structure HighestGame where
  score : ℚ
  displayName : String
  year : Option Nat
  week : Option Nat
deriving DecidableEq, Repr

/-- Inner score step of `getHighestSingleGameScore`: a current-owner score
above the running maximum replaces it. -/
def highScoreScoreStep (a : Analytics) (yr w : Nat) (h2 : HighestGame)
    (q : Nat × ℚ) : HighestGame :=
  match getOwnerId a q.1 yr with
  | none => h2
  | some oid =>
    if oid = "" then h2
    else if !(isCurrentOwner a oid) then h2
    else if q.2 > h2.score then
      { score := q.2, displayName := getOwnerNameById a oid
        year := some yr, week := some w }
    else h2

/-- Week step of `getHighestSingleGameScore`: non-regular weeks are skipped,
and weeks beyond 12 are skipped for seasons up to and including 2017. -/
def highScoreWeekStep (a : Analytics) (yr : Nat) (sched : List ScheduleEntry)
    (h : HighestGame) (w : Nat) : HighestGame :=
  if !((regularWeeks sched).contains w) then h
  else if decide (yr ≤ 2017) && decide (12 < w) then h
  else (weekScores sched w).foldl (highScoreScoreStep a yr w) h

/-- Translation of `getHighestSingleGameScore`: maximum current-owner score
over regular-season weeks, with weeks beyond 12 skipped for seasons up to
and including 2017 (cutoff year 2017, unlike the record book's 2015). -/
def getHighestSingleGameScore (a : Analytics) : HighestGame :=
  (includedSeasons a).foldl
    (fun highest p =>
      (scoreWeeks p.2.schedule).foldl (highScoreWeekStep a p.1 p.2.schedule) highest)
    { score := 0, displayName := "", year := none, week := none }

end AdvancedAnalytics

namespace StatsEngine

/-- Parsed team record consumed by `processSeasonData` (output of the
external provider adapter `espnAPI.parseTeams`).  `rankCalculatedFinal` and
`playoffSeed` use `0` for `undefined`, faithful because the source reads
them only through `=== 1` / `=== 2` equality and truthiness plus numeric
comparison, under which `0` and `undefined` behave alike. -/
structure ETeam where
  id : Nat
  name : String
  rankCalculatedFinal : Nat
  playoffSeed : Nat
  wins : Nat
  losses : Nat
  ties : Nat
  pointsFor : ℚ
  pointsAgainst : ℚ
deriving DecidableEq, Repr

/-- Parsed matchup consumed by `processSeasonData` (output of
`espnAPI.parseMatchups`); `playoffTierType` is `none` for `undefined`. -/
structure EMatchup where
  matchupPeriodId : Nat
  playoffTierType : Option String
  homeTeamId : Nat
  awayTeamId : Nat
  homeScore : ℚ
  awayScore : ℚ
deriving DecidableEq, Repr

/-- Season settings consumed by `processSeasonData`; `0` models an absent
(falsy) value. -/
structure ESettings where
  regularSeasonMatchupPeriods : Nat
  playoffTeamCount : Nat
deriving DecidableEq, Repr

/-- JavaScript truthiness of an optional string
(`if (m.playoffTierType) ...`): present and nonempty. -/
def tierTruthy : Option String → Bool
  | none => false
  | some s => s ≠ ""

/-- Regular-season length: the settings value when truthy, otherwise the
era default (13 weeks up to 2020, 14 after). -/
def regularSeasonWeekCount (year : Nat) (settings : ESettings) : Nat :=
  if settings.regularSeasonMatchupPeriods ≠ 0 then settings.regularSeasonMatchupPeriods
  else if year ≤ 2020 then 13 else 14

/-- Regular-season matchups of `processSeasonData`: a truthy playoff tier is
trusted, otherwise the week number decides. -/
def regularMatchupsOf (ms : List EMatchup) (rsw : Nat) : List EMatchup :=
  ms.filter (fun m => !tierTruthy m.playoffTierType && decide (m.matchupPeriodId ≤ rsw))

/-- Playoff matchups of `processSeasonData` (complement of the regular
filter). -/
def playoffMatchupsOf (ms : List EMatchup) (rsw : Nat) : List EMatchup :=
  ms.filter (fun m => tierTruthy m.playoffTierType || decide (rsw < m.matchupPeriodId))

/-- Champion method 1: the first team whose final rank equals 1. -/
def champByRank (teams : List ETeam) : Option Nat :=
  (teams.find? (fun t => t.rankCalculatedFinal = 1)).map (fun t => t.id)

/-- Winners-bracket games among the playoff matchups. -/
def championshipGames (pms : List EMatchup) : List EMatchup :=
  pms.filter (fun m => m.playoffTierType = some "WINNERS_BRACKET")

/-- Week of the winners-bracket final, `Math.max(...)` over the bracket. -/
def lastBracketWeek (gs : List EMatchup) : Nat :=
  (gs.map (fun m => m.matchupPeriodId)).foldl max 0

/-- The championship game used by method 2: the first winners-bracket game
of the highest winners-bracket week, when any exists. -/
def championshipGame (pms : List EMatchup) : Option EMatchup :=
  let gs := championshipGames pms
  if gs.isEmpty then none
  else gs.find? (fun m => m.matchupPeriodId = lastBracketWeek gs)

/-- Method-3 fallback comparator as a sort precondition (`comparator ≤ 0`):
playoff seed ascending when both teams carry a truthy seed, otherwise
wins-minus-losses descending. -/
def fallbackLe (a b : ETeam) : Bool :=
  if a.playoffSeed ≠ 0 ∧ b.playoffSeed ≠ 0 then decide (a.playoffSeed ≤ b.playoffSeed)
  else decide (((b.wins : ℤ) - (b.losses : ℤ)) ≤ ((a.wins : ℤ) - (a.losses : ℤ)))

/-- Standings comparator of `processSeasonData` (`comparator ≤ 0`): win
percentage descending (a `0/0` win percentage, guarded by `|| 0` in the
source, is `0` in exact arithmetic), then points-for descending. -/
def standingsLe (a b : ETeam) : Bool :=
  let aPct : ℚ := (a.wins : ℚ) / ((a.wins : ℚ) + (a.losses : ℚ))
  let bPct : ℚ := (b.wins : ℚ) / ((b.wins : ℚ) + (b.losses : ℚ))
  if bPct = aPct then decide (b.pointsFor ≤ a.pointsFor) else decide (bPct ≤ aPct)

/-- Result of `processSeasonData`. -/
structure SeasonStats where
  year : Nat
  teams : List ETeam
  matchups : List EMatchup
  playoffMatchups : List EMatchup
  settings : ESettings
  champion : Option Nat
  championshipParticipants : List Nat
deriving DecidableEq, Repr

/-- Translation of `processSeasonData` on provider-parsed records: the
regular/playoff split and the three-step champion fallback.  The returned
`teams` list is the standings-sorted array (the source's final
`teams.sort(...)` mutates the array shared by both the `teams` and
`standings` fields). -/
def processSeasonData (year : Nat) (teams : List ETeam) (matchups : List EMatchup)
    (settings : ESettings) : SeasonStats :=
  let rsw := regularSeasonWeekCount year settings
  let regular := regularMatchupsOf matchups rsw
  let playoff := playoffMatchupsOf matchups rsw
  let c1 := champByRank teams
  let champGame := championshipGame playoff
  let participants1 : List Nat :=
    match champGame with
    | some g => [g.homeTeamId, g.awayTeamId]
    | none => []
  let c2 : Option Nat :=
    match c1 with
    | some c => some c
    | none =>
      match champGame with
      | some g =>
        if g.homeScore ≠ g.awayScore then
          some (if g.homeScore > g.awayScore then g.homeTeamId else g.awayTeamId)
        else none
      | none => none
  let participants : List Nat :=
    match c2, participants1 with
    | some c, [] =>
      match teams.find? (fun t => t.rankCalculatedFinal = 2) with
      | some ru => [c, ru.id]
      | none => [c]
    | _, _ => participants1
  let c3 : Option Nat :=
    match c2 with
    | some c => some c
    | none => ((teams.mergeSort fallbackLe).head?).map (fun t => t.id)
  { year := year
    teams := teams.mergeSort standingsLe
    matchups := regular
    playoffMatchups := playoff
    settings := settings
    champion := c3
    championshipParticipants := participants }

/-- One entry of `aggregate.highScores` (team display names, produced by the
engine's name resolver, are fixed by the `nameOf` parameter of the fold). -/
structure HighScoreEntry where
  teamId : Nat
  teamName : String
  score : ℚ
  opponent : String
  opponentScore : ℚ
  year : Nat
  week : Nat
  isPlayoff : Bool
deriving DecidableEq, Repr

/-- One stored head-to-head matchup of an `aggregate.h2hRecords` bucket. -/
structure H2HGame where
  year : Nat
  week : Nat
  team1Score : ℚ
  team2Score : ℚ
  isPlayoff : Bool
deriving DecidableEq, Repr

/-- One bucket of `aggregate.h2hRecords`. -/
structure H2HRecord where
  team1 : Nat
  team2 : Nat
  team1Wins : Nat
  team2Wins : Nat
  ties : Nat
  matchups : List H2HGame
deriving DecidableEq, Repr

/-- Canonical head-to-head key
(`[homeTeamId, awayTeamId].sort().join('-')`): the two decimal ids ordered
by the default string sort and joined with a dash. -/
def h2hKey (x y : Nat) : String :=
  let sx := toString x
  let sy := toString y
  if jsStrLt sy sx then sy ++ "-" ++ sx else sx ++ "-" ++ sy

/-- Fresh head-to-head bucket for a matchup's canonical pair. -/
def h2hFresh (m : EMatchup) : H2HRecord :=
  { team1 := min m.homeTeamId m.awayTeamId
    team2 := max m.homeTeamId m.awayTeamId
    team1Wins := 0, team2Wins := 0, ties := 0, matchups := [] }

/-- Update of one head-to-head bucket by one matchup (`mergeSeasonStats`):
exactly one of ties / team1Wins / team2Wins is incremented and the
normalized game is appended. -/
def h2hUpdate (year : Nat) (mp : EMatchup × Bool) (r : H2HRecord) : H2HRecord :=
  let m := mp.1
  let winner := if m.homeScore > m.awayScore then m.homeTeamId else m.awayTeamId
  let r2 :=
    if m.homeScore = m.awayScore then { r with ties := r.ties + 1 }
    else if winner = r.team1 then { r with team1Wins := r.team1Wins + 1 }
    else { r with team2Wins := r.team2Wins + 1 }
  { r2 with
    matchups := r2.matchups ++
      [{ year := year
         week := m.matchupPeriodId
         team1Score := if m.homeTeamId = r2.team1 then m.homeScore else m.awayScore
         team2Score := if m.homeTeamId = r2.team2 then m.homeScore else m.awayScore
         isPlayoff := mp.2 }] }

/-- Update of the head-to-head map by one matchup of one season
(`mergeSeasonStats`): the bucket is created with the numeric min/max ids
when absent, then updated. -/
def h2hStep (year : Nat) (h2h : List (String × H2HRecord)) (mp : EMatchup × Bool) :
    List (String × H2HRecord) :=
  upsertWith h2h (h2hKey mp.1.homeTeamId mp.1.awayTeamId)
    (fun old => h2hUpdate year mp (old.getD (h2hFresh mp.1)))

/-- Merged matchup list of one season as consumed by the aggregate folds:
regular matchups (isPlayoffGame false) followed by playoff matchups
(isPlayoffGame true), the order of `[...matchups, ...playoffMatchups]`. -/
def seasonMergedMatchups (ss : SeasonStats) : List (EMatchup × Bool) :=
  ss.matchups.map (fun m => (m, false)) ++ ss.playoffMatchups.map (fun m => (m, true))

/-- Head-to-head record map accumulated over a list of season results, in
order (`aggregateAllStats` merging each season via `mergeSeasonStats`). -/
def h2hRecords (seasons : List SeasonStats) : List (String × H2HRecord) :=
  seasons.foldl
    (fun acc ss => (seasonMergedMatchups ss).foldl (h2hStep ss.year) acc)
    []

/-- High-score entries of one season (`mergeSeasonStats` pushes a home and
an away entry per merged matchup); `nameOf` is the engine's display-name
resolver `getTeamName`, a parameter here because name resolution is
irrelevant to the verified record-book properties. -/
def seasonHighScores (nameOf : Nat → String) (ss : SeasonStats) : List HighScoreEntry :=
  (seasonMergedMatchups ss).flatMap
    (fun mp =>
      [{ teamId := mp.1.homeTeamId
         teamName := nameOf mp.1.homeTeamId
         score := mp.1.homeScore
         opponent := nameOf mp.1.awayTeamId
         opponentScore := mp.1.awayScore
         year := ss.year
         week := mp.1.matchupPeriodId
         isPlayoff := mp.2 },
       { teamId := mp.1.awayTeamId
         teamName := nameOf mp.1.awayTeamId
         score := mp.1.awayScore
         opponent := nameOf mp.1.homeTeamId
         opponentScore := mp.1.homeScore
         year := ss.year
         week := mp.1.matchupPeriodId
         isPlayoff := mp.2 }])

/-- All high-score entries accumulated over the processed seasons. -/
def highScores (nameOf : Nat → String) (seasons : List SeasonStats) :
    List HighScoreEntry :=
  seasons.flatMap (seasonHighScores nameOf)

/-- Era eligibility filter of `calculateRecordBook`: seasons up to and
including 2015 keep only weeks up to 12, later seasons keep every week. -/
def recordBookEligible (s : HighScoreEntry) : Bool :=
  if s.year ≤ 2015 then decide (s.week ≤ 12) else true

/-- The filtered high-score population of `calculateRecordBook`. -/
def filteredHighScores (l : List HighScoreEntry) : List HighScoreEntry :=
  l.filter recordBookEligible

/-- Top-ten highest single-game scores of the record book. -/
def recordBookHighestScore (l : List HighScoreEntry) : List HighScoreEntry :=
  ((filteredHighScores l).mergeSort (fun a b => decide (b.score ≤ a.score))).take 10

/-- Top-ten lowest single-game scores of the record book. -/
def recordBookLowestScore (l : List HighScoreEntry) : List HighScoreEntry :=
  ((filteredHighScores l).mergeSort (fun a b => decide (a.score ≤ b.score))).take 10

end StatsEngine

namespace StatsEngine

/-- One entry of `aggregate.careerRecords` (the per-team career totals). -/
structure CareerRecord where
  teamId : Nat
  teamName : String
  wins : Nat
  losses : Nat
  ties : Nat
  pointsFor : ℚ
  pointsAgainst : ℚ
  championships : Nat
  championshipAppearances : Nat
  playoffAppearances : Nat
  seasonsPlayed : Nat
deriving DecidableEq, Repr

/-- Entry of the `mostWins` list: the career record spread together with the
added `winPct` field (`{...r, winPct}`), modelled as a pair. -/
structure WinsEntry where
  record : CareerRecord
  winPct : ℚ
deriving DecidableEq, Repr

/-- Entry of the `avgPointsPerGame` list: the career record together with
the added `avgPPG` field. -/
structure PPGEntry where
  record : CareerRecord
  avgPPG : ℚ
deriving DecidableEq, Repr

/-- Result of `calculateCareerLeaders`. -/
structure CareerLeaders where
  mostWins : List WinsEntry
  mostChampionships : List CareerRecord
  mostChampionshipAppearances : List CareerRecord
  mostPlayoffs : List CareerRecord
  mostPointsFor : List CareerRecord
  avgPointsPerGame : List PPGEntry
deriving DecidableEq, Repr

/-- Construction of one `mostWins` entry (`{...r, winPct}`). -/
def mkWinsEntry (r : CareerRecord) : WinsEntry :=
  { record := r, winPct := (r.wins : ℚ) / ((r.wins : ℚ) + (r.losses : ℚ) + (r.ties : ℚ)) }

/-- Construction of one `avgPointsPerGame` entry (`{...r, avgPPG}`). -/
def mkPPGEntry (r : CareerRecord) : PPGEntry :=
  { record := r, avgPPG := r.pointsFor / (((r.wins + r.losses + r.ties : Nat)) : ℚ) }

/-- Translation of `calculateCareerLeaders` on the career-record values of
the aggregate map: each list sorts the population by its key and is then
truncated by `.slice(0, 12)` or `.slice(0, 10)`; `avgPointsPerGame` first
drops teams with fewer than ten decided career games.  A `0/0` win
percentage (`|| 0` in the source) is `0` in exact arithmetic. -/
def calculateCareerLeaders (records : List CareerRecord) : CareerLeaders :=
  { mostWins :=
      ((records.map mkWinsEntry).mergeSort
        (fun a b => decide (b.record.wins ≤ a.record.wins))).take 12
    mostChampionships :=
      (records.mergeSort (fun a b => decide (b.championships ≤ a.championships))).take 12
    mostChampionshipAppearances :=
      (records.mergeSort
        (fun a b => decide (b.championshipAppearances ≤ a.championshipAppearances))).take 12
    mostPlayoffs :=
      (records.mergeSort
        (fun a b => decide (b.playoffAppearances ≤ a.playoffAppearances))).take 12
    mostPointsFor :=
      (records.mergeSort (fun a b => decide (b.pointsFor ≤ a.pointsFor))).take 10
    avgPointsPerGame :=
      (((records.filter (fun r => decide (10 ≤ r.wins + r.losses))).map
          mkPPGEntry).mergeSort
        (fun a b => decide (b.avgPPG ≤ a.avgPPG))).take 10 }

/-- One entry of `aggregate.allMatchups` as consumed by `calculateStreaks`
(the stored entry also carries tier and display-name fields that the streak
scan never reads). -/
structure AggMatchup where
  year : Nat
  matchupPeriodId : Nat
  homeTeamId : Nat
  awayTeamId : Nat
  homeScore : ℚ
  awayScore : ℚ
deriving DecidableEq, Repr

/-- Per-team view of one matchup pushed by `calculateStreaks` (`won` is the
strict comparison `myScore > theirScore`, so a tie is recorded as a
non-win). -/
structure TeamMatch where
  year : Nat
  week : Nat
  won : Bool
  score : ℚ
  opponentScore : ℚ
deriving DecidableEq, Repr

/-- The per-team entry of one matchup (`isHome` decides the perspective;
when home and away id coincide both pushed entries take the home
perspective, as in the source). -/
def teamMatchEntry (m : AggMatchup) (tid : Nat) : TeamMatch :=
  let isHome := tid = m.homeTeamId
  { year := m.year
    week := m.matchupPeriodId
    won := if isHome then decide (m.homeScore > m.awayScore)
           else decide (m.awayScore > m.homeScore)
    score := if isHome then m.homeScore else m.awayScore
    opponentScore := if isHome then m.awayScore else m.homeScore }

/-- Grouping of matchups by team (`teamMatchups` map of
`calculateStreaks`), in matchup order per team. -/
def teamMatchups (ms : List AggMatchup) : List (Nat × List TeamMatch) :=
  ms.foldl
    (fun acc m =>
      [m.homeTeamId, m.awayTeamId].foldl
        (fun acc2 tid =>
          upsertWith acc2 tid (fun old => (old.getD []) ++ [teamMatchEntry m tid]))
        acc)
    []

/-- Chronological comparator of the per-team match sort
(`a.year - b.year || a.week - b.week`, as a `≤ 0` precondition). -/
def matchSortLe (a b : TeamMatch) : Bool :=
  if a.year = b.year then decide (a.week ≤ b.week) else decide (a.year < b.year)

/-- Best-streak record of one type (`maxWinStreak` / `maxLossStreak`); the
source field `end` is spelled `end_` (Lean keyword). -/
structure StreakInfo where
  length : Nat
  start : Option (Nat × Nat)
  end_ : Option (Nat × Nat)
deriving DecidableEq, Repr

/-- Scan state of the streak walk. -/
structure ScanState where
  currentWinStreak : Nat
  currentLossStreak : Nat
  maxWin : StreakInfo
  maxLoss : StreakInfo
  streakStart : Option (Nat × Nat)
deriving DecidableEq, Repr

/-- Initial scan state. -/
def initScan : ScanState :=
  { currentWinStreak := 0, currentLossStreak := 0
    maxWin := { length := 0, start := none, end_ := none }
    maxLoss := { length := 0, start := none, end_ := none }
    streakStart := none }

/-- One step of the streak scan: a won game extends the win streak and
resets the loss streak, any other game (loss or tie) extends the loss
streak and resets the win streak; a new best run overwrites the stored
maximum with its start and most recent game. -/
def streakStep (s : ScanState) (m : TeamMatch) : ScanState :=
  if m.won then
    let start := if s.currentWinStreak = 0 then some (m.year, m.week) else s.streakStart
    let cw := s.currentWinStreak + 1
    let maxWin :=
      if cw > s.maxWin.length then
        { length := cw, start := start, end_ := some (m.year, m.week) }
      else s.maxWin
    { currentWinStreak := cw, currentLossStreak := 0
      maxWin := maxWin, maxLoss := s.maxLoss, streakStart := start }
  else
    let start := if s.currentLossStreak = 0 then some (m.year, m.week) else s.streakStart
    let cl := s.currentLossStreak + 1
    let maxLoss :=
      if cl > s.maxLoss.length then
        { length := cl, start := start, end_ := some (m.year, m.week) }
      else s.maxLoss
    { currentWinStreak := 0, currentLossStreak := cl
      maxWin := s.maxWin, maxLoss := maxLoss, streakStart := start }

/-- The streak scan: one chronological walk over a team's matches. -/
def streakScan (ms : List TeamMatch) : ScanState :=
  ms.foldl streakStep initScan

/-- One output row of `calculateStreaks`. -/
structure StreakOut where
  teamId : Nat
  teamName : String
  length : Nat
  start : Option (Nat × Nat)
  end_ : Option (Nat × Nat)
deriving DecidableEq, Repr

/-- Translation of `calculateStreaks`: per team (map order), matches are
sorted by year then week and scanned once; teams with a positive best
streak contribute a row; both row lists are sorted by length descending. -/
def calculateStreaks (nameOf : Nat → String) (ms : List AggMatchup) :
    List StreakOut × List StreakOut :=
  let collected :=
    (teamMatchups ms).foldl
      (fun acc p =>
        let sorted := p.2.mergeSort matchSortLe
        let st := streakScan sorted
        let wins :=
          if st.maxWin.length > 0 then
            acc.1 ++ [{ teamId := p.1, teamName := nameOf p.1
                        length := st.maxWin.length, start := st.maxWin.start
                        end_ := st.maxWin.end_ }]
          else acc.1
        let losses :=
          if st.maxLoss.length > 0 then
            acc.2 ++ [{ teamId := p.1, teamName := nameOf p.1
                        length := st.maxLoss.length, start := st.maxLoss.start
                        end_ := st.maxLoss.end_ }]
          else acc.2
        (wins, losses))
      ([], [])
  (collected.1.mergeSort (fun a b => decide (b.length ≤ a.length)),
   collected.2.mergeSort (fun a b => decide (b.length ≤ a.length)))

end StatsEngine

/-! ### Helper lemmas and concrete test instances -/

/-- Folding a function that ignores elements failing `p` is folding over the
filtered list. -/
theorem foldl_skip {α β : Type} (f : β → α → β) (p : α → Bool)
    (h : ∀ b a, p a = false → f b a = b) :
    ∀ (l : List α) (b : β), l.foldl f b = (l.filter p).foldl f b := by
  intro l
  induction l with
  | nil => intro b; rfl
  | cons e t ih =>
    intro b
    by_cases hp : p e = true
    · simp [List.foldl_cons, List.filter_cons, hp, ih]
    · have hp' : p e = false := by
        cases he : p e
        · rfl
        · exact absurd he hp
      simp [List.foldl_cons, List.filter_cons, hp', h b e hp', ih]

/-- The accumulate-unless-skipped loop of the metric result builders is a
`filter` followed by a `map`. -/
theorem foldl_collect {α β : Type} (c : α → Bool) (f : α → β) :
    ∀ (l : List α) (acc : List β),
      l.foldl (fun acc2 p => if c p then acc2 else acc2 ++ [f p]) acc =
        acc ++ (l.filter (fun p => !c p)).map f := by
  intro l
  induction l with
  | nil => intro acc; simp
  | cons e t ih =>
    intro acc
    by_cases hc : c e = true
    · simp [List.foldl_cons, List.filter_cons, hc, ih]
    · have hc' : c e = false := by
        cases he : c e
        · rfl
        · exact absurd he hc
      simp [List.foldl_cons, List.filter_cons, hc', ih]

namespace AdvancedAnalytics

/-- Completeness of an entry decides parsing. -/
theorem parseEntry_eq_none_of_incomplete (year : Nat) (e : ScheduleEntry)
    (h : entryComplete e = false) : parseEntry year e = none := by
  unfold entryComplete at h
  cases hh : e.home with
  | none => simp [parseEntry, hh]
  | some hs =>
    cases ha : e.away with
    | none => simp [parseEntry, hh, ha]
    | some as =>
      rw [hh, ha] at h
      cases hhp : hs.totalPoints with
      | none => simp [parseEntry, hh, ha, hhp]
      | some hp =>
        cases hap : as.totalPoints with
        | none => simp [parseEntry, hh, ha, hhp, hap]
        | some ap =>
          simp only [hhp, hap] at h
          simp at h

/-- A parsed matchup comes from a complete entry. -/
theorem entryComplete_of_parseEntry (year : Nat) (e : ScheduleEntry) (m : Matchup)
    (h : parseEntry year e = some m) : entryComplete e = true := by
  cases hc : entryComplete e
  · rw [parseEntry_eq_none_of_incomplete year e hc] at h
    exact absurd h (by simp)
  · rfl

/-- Two-team one-season payload used by the concrete evaluations: teams 1
and 2 with owners O1 and O2. -/
def onePayload (sched : List ScheduleEntry) : SeasonPayload :=
  { error := false
    teams := [{ id := 1, name := "T1", abbrev_ := "", owners := ["O1"] },
              { id := 2, name := "T2", abbrev_ := "", owners := ["O2"] }]
    schedule := sched
    members := [{ id := "O1", firstName := "alice", lastName := "smith" },
                { id := "O2", firstName := "bob", lastName := "jones" }] }

/-- One-season analytics instance over the two-team payload. -/
def oneSeason (year : Nat) (sched : List ScheduleEntry) : Analytics :=
  { raw := { seasons := [(year, onePayload sched)] }
    minYear := 2011
    coOwnerMappings := []
    coOwnerDisplayName := [] }

/-- Regular-season schedule entry: team 1 at home against team 2. -/
def game (w : Nat) (hp ap : ℚ) : ScheduleEntry :=
  { matchupPeriodId := w
    playoffTierType := none
    home := some { teamId := 1, totalPoints := some hp }
    away := some { teamId := 2, totalPoints := some ap } }

end AdvancedAnalytics

namespace AdvancedAnalytics

/-- The weekly-score fold step ignores incomplete entries. -/
theorem weekScores_step_skip (w : Nat) (b : List (Nat × ℚ)) (e : ScheduleEntry)
    (h : entryComplete e = false) :
    (fun (acc : List (Nat × ℚ)) (e : ScheduleEntry) =>
      match e.home, e.away with
      | some hs, some as =>
        match hs.totalPoints, as.totalPoints with
        | some hp, some ap =>
          if e.matchupPeriodId = w then
            upsertNum (upsertNum acc hs.teamId hp) as.teamId ap
          else acc
        | _, _ => acc
      | _, _ => acc) b e = b := by
  unfold entryComplete at h
  cases hh : e.home with
  | none => simp [hh]
  | some hs =>
    cases ha : e.away with
    | none => simp [hh, ha]
    | some as =>
      rw [hh, ha] at h
      cases hhp : hs.totalPoints with
      | none => simp [hh, ha, hhp]
      | some hp =>
        cases hap : as.totalPoints with
        | none => simp [hh, ha, hhp, hap]
        | some ap =>
          simp only [hhp, hap] at h
          simp at h

/-- C10: during season parsing a scheduled matchup contributes to the parsed
structures (matchup list, weekly scores, week sets) only when both sides are
present with defined scores; an entry failing the guard is silently ignored
by every one of them, and each parsed matchup arises from a complete
entry. -/
theorem parse_silently_drops_incomplete_matchups :
    ∀ (year : Nat) (sched : List ScheduleEntry) (w : Nat),
      seasonMatchups year sched = seasonMatchups year (sched.filter entryComplete) ∧
      weekScores sched w = weekScores (sched.filter entryComplete) w ∧
      scoreWeeks sched = scoreWeeks (sched.filter entryComplete) ∧
      regularWeeks sched = regularWeeks (sched.filter entryComplete) ∧
      (∀ m : Matchup, m ∈ seasonMatchups year sched ↔
        ∃ e ∈ sched, entryComplete e = true ∧ parseEntry year e = some m) := by
  intro year sched w
  refine ⟨?_, ?_, ?_, ?_, ?_⟩
  · induction sched with
    | nil => rfl
    | cons e t ih =>
      cases hc : entryComplete e with
      | true =>
        simp only [seasonMatchups, List.filter_cons, hc, if_pos rfl] at ih ⊢
        cases hpe : parseEntry year e <;> simp [List.filterMap_cons, hpe, ih]
      | false =>
        simp only [seasonMatchups, List.filter_cons, hc, List.filterMap_cons,
          parseEntry_eq_none_of_incomplete year e hc] at ih ⊢
        simpa using ih
  · exact foldl_skip _ entryComplete (weekScores_step_skip w) sched []
  · have hff : (sched.filter entryComplete).filter entryComplete =
        sched.filter entryComplete := by
      rw [List.filter_filter]
      apply List.filter_congr
      intro e _
      exact Bool.and_self _
    simp [scoreWeeks, hff]
  · have hff : (sched.filter entryComplete).filter
        (fun e => entryComplete e && !entryIsPlayoff e) =
        sched.filter (fun e => entryComplete e && !entryIsPlayoff e) := by
      rw [List.filter_filter]
      apply List.filter_congr
      intro e _
      cases hce : entryComplete e <;> simp [hce]
    simp [regularWeeks, hff]
  · intro m
    constructor
    · intro hm
      rcases List.mem_filterMap.mp hm with ⟨e, he, hpe⟩
      exact ⟨e, he, entryComplete_of_parseEntry year e m hpe, hpe⟩
    · rintro ⟨e, he, _, hpe⟩
      exact List.mem_filterMap.mpr ⟨e, he, hpe⟩

end AdvancedAnalytics

namespace AdvancedAnalytics

/-- One-matchup analytics instance whose only game is a 100–100 tie in week
1 of season 2022 (home team 1, away team 2). -/
def tieAnalytics : Analytics := oneSeason 2022 [game 1 100 100]

/-- C1: on a tied matchup the parser assigns `winnerId` to the away side and
`loserId` to the home side, so the tied game is counted as a close win of
the away team (and a close loss of the home team) by the clutch metric and
as an actual win of the away team by the all-play record, contradicting the
required no-winner treatment. -/
theorem tie_matchup_credited_to_away_side :
    (allMatchups tieAnalytics).map (fun m => (m.winnerId, m.loserId)) = [(2, 1)] ∧
    ((calculateCloseGamePerformance tieAnalytics 5 30 (some 2022)).map
      (fun e => (e.key, e.closeWins, e.closeLosses))) =
      [(JSKey.num 2, 1, 0), (JSKey.num 1, 0, 1)] ∧
    ((calculateAllPlayRecord tieAnalytics (some 2022)).map
      (fun p => (p.1, p.2.actualWins))) = [(JSKey.num 1, 0), (JSKey.num 2, 1)] := by
  refine ⟨?_, ?_, ?_⟩ <;>
    norm_num [tieAnalytics, oneSeason, onePayload, game, allMatchups, includedSeasons,
      seasonMatchups, parseEntry, entryIsPlayoff, entryComplete,
      calculateCloseGamePerformance, metricMatchups, cgStep, upsertWith, setInsert,
      freshCG, freshAP, metricKey, mkCGEntry, displayNameForKey, getTeamName, teamRegistry,
      rawTeamName, jsOrS, memberNameIn, formatOwnerName, capitalizeJS, primaryOwnerOf,
      toFixedQ, calculateAllPlayRecord, apAddWeek, scoreWeeks, weekScores, regularWeeks,
      upsertNum, List.mergeSort, List.merge, List.lookup, getOwnerId, teamOwnerIn,
      getCanonicalOwnerId, round_eq, List.filterMap_cons, List.filterMap_nil,
      BEq.beq, instBEqProd, instBEqOfDecidableEq]

end AdvancedAnalytics

namespace AdvancedAnalytics

/-- C9: clutch classification is inclusive at the close threshold and
exclusive at the blowout threshold.  The general part: processing one
matchup from an empty map credits the winner with a close win exactly when
`margin ≤ closeThreshold` and with a blowout win exactly when
`margin > blowoutThreshold` (loser symmetric).  The concrete part checks the
default thresholds 5/30 end-to-end: margins 3 and 5 are close, margin 31 is
a blowout, margin 30 is not. -/
theorem clutch_boundary_classification :
    (∀ (a : Analytics) (yOpt : Option Nat) (ct bt : ℚ) (m : Matchup),
      metricKey a yOpt m.winnerId m.year ≠ metricKey a yOpt m.loserId m.year →
      (cgStep a yOpt ct bt [] m).lookup (metricKey a yOpt m.winnerId m.year) =
        some { freshCG with
          closeWins := if m.margin ≤ ct then 1 else 0
          totalCloseGames := if m.margin ≤ ct then 1 else 0
          blowoutWins := if bt < m.margin then 1 else 0
          avgMarginInWins := [m.margin]
          years := [m.year] } ∧
      (cgStep a yOpt ct bt [] m).lookup (metricKey a yOpt m.loserId m.year) =
        some { freshCG with
          closeLosses := if m.margin ≤ ct then 1 else 0
          totalCloseGames := if m.margin ≤ ct then 1 else 0
          blowoutLosses := if bt < m.margin then 1 else 0
          avgMarginInLosses := [m.margin]
          years := [m.year] }) ∧
    ((calculateCloseGamePerformance (oneSeason 2022 [game 1 103 100]) 5 30 (some 2022)).map
      (fun e => (e.key, e.closeWins, e.blowoutWins, e.closeLosses, e.blowoutLosses))) =
      [(JSKey.num 1, 1, 0, 0, 0), (JSKey.num 2, 0, 0, 1, 0)] ∧
    ((calculateCloseGamePerformance (oneSeason 2022 [game 1 105 100]) 5 30 (some 2022)).map
      (fun e => (e.key, e.closeWins, e.blowoutWins, e.closeLosses, e.blowoutLosses))) =
      [(JSKey.num 1, 1, 0, 0, 0), (JSKey.num 2, 0, 0, 1, 0)] ∧
    ((calculateCloseGamePerformance (oneSeason 2022 [game 1 131 100]) 5 30 (some 2022)).map
      (fun e => (e.key, e.closeWins, e.blowoutWins, e.closeLosses, e.blowoutLosses))) =
      [(JSKey.num 2, 0, 0, 0, 1), (JSKey.num 1, 0, 1, 0, 0)] ∧
    ((calculateCloseGamePerformance (oneSeason 2022 [game 1 130 100]) 5 30 (some 2022)).map
      (fun e => (e.key, e.closeWins, e.blowoutWins, e.closeLosses, e.blowoutLosses))) =
      [(JSKey.num 1, 0, 0, 0, 0), (JSKey.num 2, 0, 0, 0, 0)] := by
  constructor
  · intro a yOpt ct bt m hne
    have hne' : (metricKey a yOpt m.winnerId m.year ==
        metricKey a yOpt m.loserId m.year) = false := by
      simp [hne]
    have hne'' : (metricKey a yOpt m.loserId m.year ==
        metricKey a yOpt m.winnerId m.year) = false := by
      simp [Ne.symm hne]
    by_cases h1 : m.margin ≤ ct <;> by_cases h2 : bt < m.margin <;>
      simp [cgStep, upsertWith, setInsert, freshCG, List.lookup, hne', hne'', h1, h2,
        not_lt.mp, le_of_not_le]
  · refine ⟨?_, ?_, ?_, ?_⟩ <;>
      norm_num [oneSeason, onePayload, game, allMatchups, includedSeasons,
        seasonMatchups, parseEntry, entryIsPlayoff, entryComplete,
        calculateCloseGamePerformance, metricMatchups, cgStep, upsertWith, setInsert,
        freshCG, metricKey, mkCGEntry, displayNameForKey, getTeamName, teamRegistry,
        rawTeamName, jsOrS, memberNameIn, formatOwnerName, capitalizeJS, primaryOwnerOf,
        toFixedQ, upsertNum, List.mergeSort, List.merge, List.lookup,
        round_eq, List.filterMap_cons, List.filterMap_nil,
        BEq.beq, instBEqProd, instBEqOfDecidableEq]

end AdvancedAnalytics

namespace AdvancedAnalytics

/-- Concrete matchup instantiating the general part of the clutch-boundary
theorem: a 103–100 home win (margin 3). -/
def margin3Matchup : Matchup :=
  { year := 2022, week := 1, isPlayoff := false, homeTeamId := 1, awayTeamId := 2
    homeScore := 103, awayScore := 100, margin := 3, winnerId := 1, loserId := 2 }

/-- Witness for the hypothesis of the clutch-boundary theorem: the winner
and loser keys of the concrete matchup differ, and the theorem applies. -/
theorem clutch_boundary_classification_witness :
    metricKey (oneSeason 2022 [game 1 103 100]) (some 2022) margin3Matchup.winnerId
        margin3Matchup.year ≠
      metricKey (oneSeason 2022 [game 1 103 100]) (some 2022) margin3Matchup.loserId
        margin3Matchup.year ∧
    (cgStep (oneSeason 2022 [game 1 103 100]) (some 2022) 5 30 [] margin3Matchup).lookup
        (metricKey (oneSeason 2022 [game 1 103 100]) (some 2022) margin3Matchup.winnerId
          margin3Matchup.year) =
      some { freshCG with
        closeWins := if margin3Matchup.margin ≤ 5 then 1 else 0
        totalCloseGames := if margin3Matchup.margin ≤ 5 then 1 else 0
        blowoutWins := if 30 < margin3Matchup.margin then 1 else 0
        avgMarginInWins := [margin3Matchup.margin]
        years := [margin3Matchup.year] } :=
  ⟨by decide,
   (clutch_boundary_classification.1 (oneSeason 2022 [game 1 103 100]) (some 2022) 5 30
      margin3Matchup (by decide)).1⟩

end AdvancedAnalytics

namespace StatsEngine

/-- Career record with the given team id and win count (one career loss, so
the team has played at least one game and qualifies for every list). -/
def mkCareer (tid wins : Nat) : CareerRecord :=
  { teamId := tid, teamName := "", wins := wins, losses := 1, ties := 0
    pointsFor := 0, pointsAgainst := 0, championships := 0
    championshipAppearances := 0, playoffAppearances := 0, seasonsPlayed := 1 }

/-- Thirteen career records with distinct win counts 13 down to 1. -/
def thirteenRecords : List CareerRecord :=
  [mkCareer 1 13, mkCareer 2 12, mkCareer 3 11, mkCareer 4 10, mkCareer 5 9,
   mkCareer 6 8, mkCareer 7 7, mkCareer 8 6, mkCareer 9 5, mkCareer 10 4,
   mkCareer 11 3, mkCareer 12 2, mkCareer 13 1]

/-- Counterexample to C7 as stated: with thirteen career records the
`mostWins` leaderboard holds only twelve entries, and the qualifying
thirteenth team (one win, two games played) is dropped purely by the
`slice(0, 12)` truncation. -/
theorem career_leaderboard_drops_thirteenth_team :
    (calculateCareerLeaders thirteenRecords).mostWins.length = 12 ∧
    thirteenRecords.length = 13 ∧
    (((calculateCareerLeaders thirteenRecords).mostWins.map
      (fun e => e.record.teamId)).contains 13) = false ∧
    (mkCareer 13 1).wins + (mkCareer 13 1).losses ≠ 0 := by
  refine ⟨?_, by decide, ?_, by decide⟩ <;>
    norm_num [calculateCareerLeaders, thirteenRecords, mkCareer, mkWinsEntry,
      mkPPGEntry, List.mergeSort, List.merge]

end StatsEngine

namespace StatsEngine

/-- Comparator of the `mostWins` leaderboard. -/
theorem winsLe_trans :
    ∀ (a b c : WinsEntry),
      decide (b.record.wins ≤ a.record.wins) = true →
      decide (c.record.wins ≤ b.record.wins) = true →
      decide (c.record.wins ≤ a.record.wins) = true := by
  intro a b c h1 h2
  simp only [decide_eq_true_eq] at h1 h2 ⊢
  exact le_trans h2 h1

/-- Totality of the `mostWins` comparator. -/
theorem winsLe_total :
    ∀ (a b : WinsEntry),
      (decide (b.record.wins ≤ a.record.wins) ||
        decide (a.record.wins ≤ b.record.wins)) = true := by
  intro a b
  rcases Nat.le_total b.record.wins a.record.wins with h | h <;> simp [h]

/-- A key-descending mergeSort followed by a take yields the top slice:
its length is the truncated population size, it is sorted by the key
descending, it is drawn from the population, and every omitted population
element has a key no larger than any listed one. -/
theorem take_sortByKey {E α : Type} [LinearOrder α] (key : E → α) (k : Nat) (l : List E) :
    ((l.mergeSort (fun a b => decide (key b ≤ key a))).take k).length = min k l.length ∧
    ((l.mergeSort (fun a b => decide (key b ≤ key a))).take k).Pairwise
      (fun a b => key b ≤ key a) ∧
    (∀ e ∈ (l.mergeSort (fun a b => decide (key b ≤ key a))).take k, e ∈ l) ∧
    (∀ x ∈ l, x ∉ (l.mergeSort (fun a b => decide (key b ≤ key a))).take k →
      ∀ e ∈ (l.mergeSort (fun a b => decide (key b ≤ key a))).take k, key x ≤ key e) := by
  have htrans : ∀ (a b c : E),
      (fun a b => decide (key b ≤ key a)) a b = true →
      (fun a b => decide (key b ≤ key a)) b c = true →
      (fun a b => decide (key b ≤ key a)) a c = true := by
    intro a b c h1 h2
    simp only [decide_eq_true_eq] at h1 h2 ⊢
    exact le_trans h2 h1
  have htotal : ∀ (a b : E),
      ((fun a b => decide (key b ≤ key a)) a b ||
        (fun a b => decide (key b ≤ key a)) b a) = true := by
    intro a b
    rcases le_total (key b) (key a) with h | h <;> simp [h]
  have hsorted := List.sorted_mergeSort htrans htotal l
  have hperm := List.mergeSort_perm l (fun a b => decide (key b ≤ key a))
  refine ⟨?_, ?_, ?_, ?_⟩
  · simp [List.length_take, List.length_mergeSort]
  · have hsub := hsorted.sublist (List.take_sublist k _)
    refine List.Pairwise.imp ?_ hsub
    intro a b h
    simpa using h
  · intro e he
    exact hperm.mem_iff.mp (List.mem_of_mem_take he)
  · intro x hx hnot e he
    have hmemsrt : x ∈ l.mergeSort (fun a b => decide (key b ≤ key a)) :=
      hperm.mem_iff.mpr hx
    have hsplit := (List.take_append_drop k (l.mergeSort
        (fun a b => decide (key b ≤ key a)))).symm
    have hmemdrop : x ∈ (l.mergeSort (fun a b => decide (key b ≤ key a))).drop k := by
      rcases List.mem_append.mp (hsplit ▸ hmemsrt) with h | h
      · exact absurd h hnot
      · exact h
    have hpw := hsorted
    rw [hsplit] at hpw
    rcases List.pairwise_append.mp hpw with ⟨hpw1, hpw2, hcross⟩
    have hc := hcross e he _ hmemdrop
    simpa using hc

/-- C7 amended: every career leaderboard is the full population sorted by
its key and then truncated to the top 12 (wins, championships, championship
appearances, playoff appearances) or top 10 (points-for, average points per
game); the average-points list additionally requires at least ten decided
career games.  For each of the six lists: its length is the truncated
population size, it is sorted descending by its key, every listed entry
comes from the population, and every omitted population record has a key no
larger than any listed entry's. -/
theorem career_leaderboards_sorted_truncated (records : List CareerRecord) :
    ((calculateCareerLeaders records).mostWins.length = min 12 records.length ∧
     (calculateCareerLeaders records).mostWins.Pairwise
       (fun a b => b.record.wins ≤ a.record.wins) ∧
     (∀ e ∈ (calculateCareerLeaders records).mostWins, e.record ∈ records) ∧
     (∀ r ∈ records, mkWinsEntry r ∉ (calculateCareerLeaders records).mostWins →
       ∀ e ∈ (calculateCareerLeaders records).mostWins, r.wins ≤ e.record.wins)) ∧
    ((calculateCareerLeaders records).mostChampionships.length = min 12 records.length ∧
     (calculateCareerLeaders records).mostChampionships.Pairwise
       (fun a b => b.championships ≤ a.championships) ∧
     (∀ e ∈ (calculateCareerLeaders records).mostChampionships, e ∈ records) ∧
     (∀ r ∈ records, r ∉ (calculateCareerLeaders records).mostChampionships →
       ∀ e ∈ (calculateCareerLeaders records).mostChampionships,
         r.championships ≤ e.championships)) ∧
    ((calculateCareerLeaders records).mostChampionshipAppearances.length =
       min 12 records.length ∧
     (calculateCareerLeaders records).mostChampionshipAppearances.Pairwise
       (fun a b => b.championshipAppearances ≤ a.championshipAppearances) ∧
     (∀ e ∈ (calculateCareerLeaders records).mostChampionshipAppearances, e ∈ records) ∧
     (∀ r ∈ records, r ∉ (calculateCareerLeaders records).mostChampionshipAppearances →
       ∀ e ∈ (calculateCareerLeaders records).mostChampionshipAppearances,
         r.championshipAppearances ≤ e.championshipAppearances)) ∧
    ((calculateCareerLeaders records).mostPlayoffs.length = min 12 records.length ∧
     (calculateCareerLeaders records).mostPlayoffs.Pairwise
       (fun a b => b.playoffAppearances ≤ a.playoffAppearances) ∧
     (∀ e ∈ (calculateCareerLeaders records).mostPlayoffs, e ∈ records) ∧
     (∀ r ∈ records, r ∉ (calculateCareerLeaders records).mostPlayoffs →
       ∀ e ∈ (calculateCareerLeaders records).mostPlayoffs,
         r.playoffAppearances ≤ e.playoffAppearances)) ∧
    ((calculateCareerLeaders records).mostPointsFor.length = min 10 records.length ∧
     (calculateCareerLeaders records).mostPointsFor.Pairwise
       (fun a b => b.pointsFor ≤ a.pointsFor) ∧
     (∀ e ∈ (calculateCareerLeaders records).mostPointsFor, e ∈ records) ∧
     (∀ r ∈ records, r ∉ (calculateCareerLeaders records).mostPointsFor →
       ∀ e ∈ (calculateCareerLeaders records).mostPointsFor,
         r.pointsFor ≤ e.pointsFor)) ∧
    ((calculateCareerLeaders records).avgPointsPerGame.length =
       min 10 (records.filter (fun r => decide (10 ≤ r.wins + r.losses))).length ∧
     (calculateCareerLeaders records).avgPointsPerGame.Pairwise
       (fun a b => b.avgPPG ≤ a.avgPPG) ∧
     (∀ e ∈ (calculateCareerLeaders records).avgPointsPerGame,
       e.record ∈ records ∧ 10 ≤ e.record.wins + e.record.losses) ∧
     (∀ r ∈ records, 10 ≤ r.wins + r.losses →
       mkPPGEntry r ∉ (calculateCareerLeaders records).avgPointsPerGame →
       ∀ e ∈ (calculateCareerLeaders records).avgPointsPerGame,
         (mkPPGEntry r).avgPPG ≤ e.avgPPG)) := by
  have hW := take_sortByKey (fun e : WinsEntry => e.record.wins) 12
    (records.map mkWinsEntry)
  have hC := take_sortByKey (fun r : CareerRecord => r.championships) 12 records
  have hA := take_sortByKey (fun r : CareerRecord => r.championshipAppearances) 12 records
  have hP := take_sortByKey (fun r : CareerRecord => r.playoffAppearances) 12 records
  have hF := take_sortByKey (fun r : CareerRecord => r.pointsFor) 10 records
  have hG := take_sortByKey (fun e : PPGEntry => e.avgPPG) 10
    ((records.filter (fun r => decide (10 ≤ r.wins + r.losses))).map mkPPGEntry)
  refine ⟨⟨?_, hW.2.1, ?_, ?_⟩, ⟨?_, hC.2.1, hC.2.2.1, hC.2.2.2⟩,
    ⟨?_, hA.2.1, hA.2.2.1, hA.2.2.2⟩, ⟨?_, hP.2.1, hP.2.2.1, hP.2.2.2⟩,
    ⟨?_, hF.2.1, hF.2.2.1, hF.2.2.2⟩, ⟨?_, hG.2.1, ?_, ?_⟩⟩
  · have h := hW.1
    simp only [List.length_map] at h
    exact h
  · intro e he
    rcases List.mem_map.mp (hW.2.2.1 e he) with ⟨r, hr, rfl⟩
    simpa [mkWinsEntry] using hr
  · intro r hr hnot e he
    have hx := hW.2.2.2 (mkWinsEntry r) (List.mem_map_of_mem mkWinsEntry hr) hnot e he
    simpa [mkWinsEntry] using hx
  · exact hC.1
  · exact hA.1
  · exact hP.1
  · exact hF.1
  · have h := hG.1
    simp only [List.length_map] at h
    exact h
  · intro e he
    rcases List.mem_map.mp (hG.2.2.1 e he) with ⟨r, hr, rfl⟩
    rcases List.mem_filter.mp hr with ⟨hr1, hr2⟩
    exact ⟨by simpa [mkPPGEntry] using hr1, by simpa [mkPPGEntry] using hr2⟩
  · intro r hr hthr hnot e he
    exact hG.2.2.2 (mkPPGEntry r)
      (List.mem_map_of_mem mkPPGEntry (List.mem_filter.mpr ⟨hr, by simpa using hthr⟩))
      hnot e he

end StatsEngine

namespace StatsEngine

/-- Witness for the hypotheses of the leaderboard theorem at the concrete
thirteen-record population: the dropped record (1 win) is bounded by the
listed top record (13 wins). -/
theorem career_leaderboards_sorted_truncated_witness :
    (mkCareer 13 1) ∈ thirteenRecords ∧
    mkWinsEntry (mkCareer 13 1) ∉ (calculateCareerLeaders thirteenRecords).mostWins ∧
    mkWinsEntry (mkCareer 1 13) ∈ (calculateCareerLeaders thirteenRecords).mostWins ∧
    (mkCareer 13 1).wins ≤ (mkWinsEntry (mkCareer 1 13)).record.wins := by
  have h1 : (mkCareer 13 1) ∈ thirteenRecords := by simp [thirteenRecords]
  have h2 : mkWinsEntry (mkCareer 13 1) ∉ (calculateCareerLeaders thirteenRecords).mostWins := by
    norm_num [calculateCareerLeaders, thirteenRecords, mkCareer, mkWinsEntry,
      List.mergeSort, List.merge]
  have h3 : mkWinsEntry (mkCareer 1 13) ∈ (calculateCareerLeaders thirteenRecords).mostWins := by
    norm_num [calculateCareerLeaders, thirteenRecords, mkCareer, mkWinsEntry,
      List.mergeSort, List.merge]
  exact ⟨h1, h2, h3,
    (career_leaderboards_sorted_truncated thirteenRecords).1.2.2.2
      (mkCareer 13 1) h1 h2 (mkWinsEntry (mkCareer 1 13)) h3⟩

end StatsEngine

namespace StatsEngine

/-- Team with a playoff seed and record but no final-rank field. -/
def seededTeam (tid seed wins losses : Nat) : ETeam :=
  { id := tid, name := "", rankCalculatedFinal := 0, playoffSeed := seed
    wins := wins, losses := losses, ties := 0, pointsFor := 0, pointsAgainst := 0 }

/-- Counterexample to C5 as stated: with no rank-1 team and no playoff
matchups, the fallback champion is the team with the better (lower) playoff
seed — team 2, seed 1, record 5–8 — although team 1 (seed 2, record 10–3)
has the strictly best wins-minus-losses record.  Seed is the primary
criterion of the fallback comparator, not a tie-break. -/
theorem champion_fallback_prefers_seed_over_record :
    (processSeasonData 2022 [seededTeam 1 2 10 3, seededTeam 2 1 5 8] []
      { regularSeasonMatchupPeriods := 14, playoffTeamCount := 6 }).champion = some 2 ∧
    ((10 : ℤ) - 3 > (5 : ℤ) - 8) ∧ (2 : ℕ) ≠ 1 := by
  refine ⟨?_, by decide, by decide⟩
  norm_num [processSeasonData, regularSeasonWeekCount, regularMatchupsOf,
    playoffMatchupsOf, champByRank, championshipGame, championshipGames,
    lastBracketWeek, fallbackLe, tierTruthy, seededTeam, List.mergeSort, List.merge]

/-- C5 amended: champion resolution is the three-step fallback evaluated in
order with the first success winning — (1) the first team with final rank 1;
(2) otherwise the winners-bracket final's winner, left undetermined on equal
scores; (3) otherwise the head of the teams sorted by the fallback
comparator, which orders by playoff seed ascending whenever both teams carry
a nonzero seed (seed is primary, not a tie-break) and by wins-minus-losses
descending otherwise. -/
theorem champion_three_step_fallback (year : Nat) (teams : List ETeam)
    (matchups : List EMatchup) (settings : ESettings) :
    (∀ t, teams.find? (fun t => t.rankCalculatedFinal = 1) = some t →
      (processSeasonData year teams matchups settings).champion = some t.id) ∧
    (teams.find? (fun t => t.rankCalculatedFinal = 1) = none →
      ∀ g, championshipGame
          (playoffMatchupsOf matchups (regularSeasonWeekCount year settings)) = some g →
      g.homeScore ≠ g.awayScore →
      (processSeasonData year teams matchups settings).champion =
        some (if g.homeScore > g.awayScore then g.homeTeamId else g.awayTeamId)) ∧
    (teams.find? (fun t => t.rankCalculatedFinal = 1) = none →
      (championshipGame
          (playoffMatchupsOf matchups (regularSeasonWeekCount year settings)) = none ∨
        ∃ g, championshipGame
            (playoffMatchupsOf matchups (regularSeasonWeekCount year settings)) = some g ∧
          g.homeScore = g.awayScore) →
      (processSeasonData year teams matchups settings).champion =
        ((teams.mergeSort fallbackLe).head?).map (fun t => t.id)) ∧
    (∀ a b : ETeam, a.playoffSeed ≠ 0 → b.playoffSeed ≠ 0 →
      fallbackLe a b = decide (a.playoffSeed ≤ b.playoffSeed)) := by
  refine ⟨?_, ?_, ?_, ?_⟩
  · intro t ht
    simp [processSeasonData, champByRank, ht]
  · intro hnone g hg hne
    simp [processSeasonData, champByRank, hnone, hg, hne]
  · intro hnone hcase
    rcases hcase with hnog | ⟨g, hg, heq⟩
    · simp [processSeasonData, champByRank, hnone, hnog]
    · simp [processSeasonData, champByRank, hnone, hg, heq]
  · intro a b ha hb
    simp [fallbackLe, ha, hb]

/-- Rank-1 team exercising step 1 of the champion fallback. -/
def rank1Team : ETeam :=
  { id := 7, name := "", rankCalculatedFinal := 1, playoffSeed := 3
    wins := 4, losses := 9, ties := 0, pointsFor := 0, pointsAgainst := 0 }

/-- Winners-bracket final exercising step 2 of the champion fallback. -/
def bracketFinal : EMatchup :=
  { matchupPeriodId := 16, playoffTierType := some "WINNERS_BRACKET"
    homeTeamId := 1, awayTeamId := 2, homeScore := 120, awayScore := 110 }

/-- Settings used by the concrete champion seasons. -/
def plainSettings : ESettings :=
  { regularSeasonMatchupPeriods := 14, playoffTeamCount := 6 }

/-- Witness for the three-step champion theorem: each step exercised on a
concrete season.  Step 1 on a rank-1 team, step 2 on a 120–110
winners-bracket final, step 3 on the seeded two-team season. -/
theorem champion_three_step_fallback_witness :
    (processSeasonData 2022 [rank1Team] [] plainSettings).champion = some 7 ∧
    (processSeasonData 2022 [seededTeam 1 2 10 3, seededTeam 2 1 5 8]
      [bracketFinal] plainSettings).champion =
      some (if bracketFinal.homeScore > bracketFinal.awayScore then
        bracketFinal.homeTeamId else bracketFinal.awayTeamId) ∧
    (processSeasonData 2022 [seededTeam 1 2 10 3, seededTeam 2 1 5 8] []
      plainSettings).champion =
      ((([seededTeam 1 2 10 3, seededTeam 2 1 5 8]).mergeSort fallbackLe).head?).map
        (fun t => t.id) := by
  refine ⟨?_, ?_, ?_⟩
  · exact (champion_three_step_fallback 2022 [rank1Team] [] plainSettings).1 rank1Team
      (by decide)
  · exact (champion_three_step_fallback 2022 [seededTeam 1 2 10 3, seededTeam 2 1 5 8]
      [bracketFinal] plainSettings).2.1 (by decide) bracketFinal (by decide) (by decide)
  · exact (champion_three_step_fallback 2022 [seededTeam 1 2 10 3, seededTeam 2 1 5 8]
      [] plainSettings).2.2.1 (by decide) (Or.inl (by decide))

end StatsEngine

namespace AdvancedAnalytics

/-- Owner-eligibility guard of the highest-single-game computation: the team
has a nonempty owner id that is a current owner. -/
def eligibleOwnerGuard (a : Analytics) (yr : Nat) (q : Nat × ℚ) : Bool :=
  match getOwnerId a q.1 yr with
  | some oid => !(decide (oid = "")) && isCurrentOwner a oid
  | none => false

/-- Modelled from the spec (§4.4 record eligibility applied to the analytics
highest-single-game computation) for the claim-C6 comparison: the scores the
source's `getHighestSingleGameScore` loop does not skip — regular-season
weeks, weeks at most 12 for seasons up to 2017, current owners only. -/
def eligibleScores (a : Analytics) : List ℚ :=
  (includedSeasons a).flatMap (fun p =>
    ((scoreWeeks p.2.schedule).filter (fun w =>
        (regularWeeks p.2.schedule).contains w &&
        !(decide (p.1 ≤ 2017) && decide (12 < w)))).flatMap (fun w =>
      ((weekScores p.2.schedule w).filter (eligibleOwnerGuard a p.1)).map
        (fun q => q.2)))

/-- The inner score loop of `getHighestSingleGameScore` keeps the running
maximum over the eligible scores of one week. -/
theorem high_fold_scores (a : Analytics) (yr w : Nat) (scores : List (Nat × ℚ)) :
    ∀ h : HighestGame,
      (scores.foldl (highScoreScoreStep a yr w) h).score =
      ((scores.filter (eligibleOwnerGuard a yr)).map (fun q => q.2)).foldl
        max h.score := by
  induction scores with
  | nil => intro h; rfl
  | cons q t ih =>
    intro h
    rw [List.foldl_cons, List.filter_cons]
    cases hown : getOwnerId a q.1 yr with
    | none =>
      have hstep : highScoreScoreStep a yr w h q = h := by
        unfold highScoreScoreStep
        rw [hown]
      have hguard : eligibleOwnerGuard a yr q = false := by
        unfold eligibleOwnerGuard
        rw [hown]
      rw [hstep, hguard]
      simpa using ih h
    | some oid =>
      by_cases hemp : oid = ""
      · have hstep : highScoreScoreStep a yr w h q = h := by
          unfold highScoreScoreStep
          rw [hown]
          simp [hemp]
        have hguard : eligibleOwnerGuard a yr q = false := by
          unfold eligibleOwnerGuard
          rw [hown]
          simp [hemp]
        rw [hstep, hguard]
        simpa using ih h
      · by_cases hcur : isCurrentOwner a oid = true
        · have hguard : eligibleOwnerGuard a yr q = true := by
            unfold eligibleOwnerGuard
            rw [hown]
            simp [hemp, hcur]
          rw [hguard]
          by_cases hgt : q.2 > h.score
          · have hstep : highScoreScoreStep a yr w h q =
                { score := q.2, displayName := getOwnerNameById a oid
                  year := some yr, week := some w } := by
              unfold highScoreScoreStep
              rw [hown]
              simp [hemp, hcur, hgt]
            rw [hstep, if_pos rfl, List.map_cons, List.foldl_cons, ih]
            congr 1
            simpa using (max_eq_right (le_of_lt hgt)).symm
          · have hstep : highScoreScoreStep a yr w h q = h := by
              unfold highScoreScoreStep
              rw [hown]
              simp [hemp, hcur, hgt]
            rw [hstep, if_pos rfl, List.map_cons, List.foldl_cons, ih]
            congr 1
            simpa using (max_eq_left (le_of_not_lt hgt)).symm
        · have hcur2 : isCurrentOwner a oid = false := by
            cases hcc : isCurrentOwner a oid
            · rfl
            · exact absurd hcc hcur
          have hstep : highScoreScoreStep a yr w h q = h := by
            unfold highScoreScoreStep
            rw [hown]
            simp [hemp, hcur2]
          have hguard : eligibleOwnerGuard a yr q = false := by
            unfold eligibleOwnerGuard
            rw [hown]
            simp [hcur2]
          rw [hstep, hguard]
          simpa using ih h

end AdvancedAnalytics

namespace AdvancedAnalytics

/-- The week loop of `getHighestSingleGameScore` keeps the running maximum
over the eligible scores of the retained weeks. -/
theorem high_fold_weeks (a : Analytics) (yr : Nat) (sched : List ScheduleEntry) :
    ∀ (ws : List Nat) (h : HighestGame),
      (ws.foldl (highScoreWeekStep a yr sched) h).score =
      ((ws.filter (fun w =>
          (regularWeeks sched).contains w &&
          !(decide (yr ≤ 2017) && decide (12 < w)))).flatMap (fun w =>
        ((weekScores sched w).filter (eligibleOwnerGuard a yr)).map
          (fun q => q.2))).foldl max h.score := by
  intro ws
  induction ws with
  | nil => intro h; rfl
  | cons w t ih =>
    intro h
    rw [List.foldl_cons, List.filter_cons]
    by_cases hreg : (regularWeeks sched).contains w = true
    · by_cases hcut : (decide (yr ≤ 2017) && decide (12 < w)) = true
      · have hstep : highScoreWeekStep a yr sched h w = h := by
          unfold highScoreWeekStep
          rw [hreg, hcut]
          simp
        have hcond : ((regularWeeks sched).contains w &&
            !(decide (yr ≤ 2017) && decide (12 < w))) = false := by
          rw [hreg, hcut]
          simp
        rw [hstep, hcond]
        simpa using ih h
      · have hcut2 : (decide (yr ≤ 2017) && decide (12 < w)) = false := by
          cases hc : (decide (yr ≤ 2017) && decide (12 < w))
          · rfl
          · exact absurd hc hcut
        have hstep : highScoreWeekStep a yr sched h w =
            (weekScores sched w).foldl (highScoreScoreStep a yr w) h := by
          unfold highScoreWeekStep
          rw [hreg, hcut2]
          simp
        have hcond : ((regularWeeks sched).contains w &&
            !(decide (yr ≤ 2017) && decide (12 < w))) = true := by
          rw [hreg, hcut2]
          simp
        rw [hstep, hcond, if_pos rfl]
        rw [List.flatMap_cons, List.foldl_append, ih]
        congr 1
        exact high_fold_scores a yr w (weekScores sched w) h
    · have hreg2 : (regularWeeks sched).contains w = false := by
        cases hc : (regularWeeks sched).contains w
        · rfl
        · exact absurd hc hreg
      have hstep : highScoreWeekStep a yr sched h w = h := by
        unfold highScoreWeekStep
        rw [hreg2]
        simp
      have hcond : ((regularWeeks sched).contains w &&
          !(decide (yr ≤ 2017) && decide (12 < w))) = false := by
        rw [hreg2]
        simp
      rw [hstep, hcond]
      simpa using ih h

/-- The season loop of `getHighestSingleGameScore` keeps the running maximum
over the eligible scores of the processed seasons. -/
theorem high_fold_seasons (a : Analytics) :
    ∀ (ps : List (Nat × SeasonPayload)) (h : HighestGame),
      (ps.foldl
        (fun highest p =>
          (scoreWeeks p.2.schedule).foldl (highScoreWeekStep a p.1 p.2.schedule)
            highest)
        h).score =
      (ps.flatMap (fun p =>
        ((scoreWeeks p.2.schedule).filter (fun w =>
            (regularWeeks p.2.schedule).contains w &&
            !(decide (p.1 ≤ 2017) && decide (12 < w)))).flatMap (fun w =>
          ((weekScores p.2.schedule w).filter (eligibleOwnerGuard a p.1)).map
            (fun q => q.2)))).foldl max h.score := by
  intro ps
  induction ps with
  | nil => intro h; rfl
  | cons p t ih =>
    intro h
    rw [List.foldl_cons, List.flatMap_cons, List.foldl_append, ih]
    congr 1
    exact high_fold_weeks a p.1 p.2.schedule (scoreWeeks p.2.schedule) h

end AdvancedAnalytics

/-- Matchup between teams 1 and 2 consumed by the stats engine. -/
def StatsEngine.em (w : Nat) (hs as : ℚ) : StatsEngine.EMatchup :=
  { matchupPeriodId := w, playoffTierType := none
    homeTeamId := 1, awayTeamId := 2, homeScore := hs, awayScore := as }

/-- Counterexample to C6 as stated: a week-13 game of season 2016 scoring
200 is part of the record-book high-score list (record-book cutoff 2015: any
week of a season after 2015 counts), yet the analytics highest-single-game
computation over the same games returns only 150 because its different
cutoff (2017) drops weeks beyond 12 of every season up to 2017.  No single
cutoff governs both computations. -/
theorem single_game_cutoffs_differ :
    (AdvancedAnalytics.getHighestSingleGameScore
      (AdvancedAnalytics.oneSeason 2016
        [AdvancedAnalytics.game 1 150 90, AdvancedAnalytics.game 13 200 80])).score =
      150 ∧
    (150 : ℚ) ≠ 200 ∧
    ((StatsEngine.recordBookHighestScore
      (StatsEngine.highScores (fun _ => "")
        [StatsEngine.processSeasonData 2016
          [StatsEngine.seededTeam 1 1 0 0, StatsEngine.seededTeam 2 2 0 0]
          [StatsEngine.em 1 150 90, StatsEngine.em 13 200 80]
          { regularSeasonMatchupPeriods := 0, playoffTeamCount := 0 }])).head?.map
      (fun e => (e.score, e.year, e.week))) = some (200, 2016, 13) := by
  refine ⟨?_, by decide, ?_⟩
  · simp [AdvancedAnalytics.getHighestSingleGameScore,
      AdvancedAnalytics.highScoreWeekStep, AdvancedAnalytics.highScoreScoreStep,
      AdvancedAnalytics.oneSeason, AdvancedAnalytics.onePayload,
      AdvancedAnalytics.game, AdvancedAnalytics.includedSeasons,
      AdvancedAnalytics.scoreWeeks, AdvancedAnalytics.weekScores,
      AdvancedAnalytics.regularWeeks, AdvancedAnalytics.entryComplete,
      AdvancedAnalytics.entryIsPlayoff, AdvancedAnalytics.getOwnerId,
      AdvancedAnalytics.teamOwnerIn, AdvancedAnalytics.primaryOwnerOf,
      AdvancedAnalytics.getCanonicalOwnerId, AdvancedAnalytics.isCurrentOwner,
      AdvancedAnalytics.currentOwnerIds, upsertNum, setInsert,
      List.mergeSort, List.merge, List.lookup]
    norm_num
  · norm_num [StatsEngine.recordBookHighestScore, StatsEngine.filteredHighScores,
      StatsEngine.recordBookEligible, StatsEngine.highScores,
      StatsEngine.seasonHighScores, StatsEngine.seasonMergedMatchups,
      StatsEngine.processSeasonData, StatsEngine.regularSeasonWeekCount,
      StatsEngine.regularMatchupsOf, StatsEngine.playoffMatchupsOf,
      StatsEngine.tierTruthy, StatsEngine.champByRank, StatsEngine.championshipGame,
      StatsEngine.championshipGames, StatsEngine.lastBracketWeek,
      StatsEngine.seededTeam, StatsEngine.em, List.mergeSort, List.merge]

/-- C6 amended: the record-book high/low single-game lists include a game
iff its season is after 2015 or its week is at most 12 (cutoff 2015), while
the analytics highest-single-game computation maximizes over games eligible
under its own, different cutoff 2017 (weeks at most 12 up to and including
2017), further restricted to regular-season weeks and current owners; the
two computations do not share a single cutoff. -/
theorem record_book_cutoff_2015_analytics_cutoff_2017
    (l : List StatsEngine.HighScoreEntry) (a : AdvancedAnalytics.Analytics) :
    (∀ s, s ∈ StatsEngine.filteredHighScores l ↔
      s ∈ l ∧ (s.year ≤ 2015 → s.week ≤ 12)) ∧
    (∀ s, s ∈ StatsEngine.recordBookHighestScore l →
      s ∈ l ∧ (s.year ≤ 2015 → s.week ≤ 12)) ∧
    (∀ s, s ∈ StatsEngine.recordBookLowestScore l →
      s ∈ l ∧ (s.year ≤ 2015 → s.week ≤ 12)) ∧
    (AdvancedAnalytics.getHighestSingleGameScore a).score =
      (AdvancedAnalytics.eligibleScores a).foldl max 0 := by
  have hmemiff : ∀ s, s ∈ StatsEngine.filteredHighScores l ↔
      s ∈ l ∧ (s.year ≤ 2015 → s.week ≤ 12) := by
    intro s
    rw [StatsEngine.filteredHighScores, List.mem_filter]
    constructor
    · rintro ⟨h1, h2⟩
      refine ⟨h1, ?_⟩
      intro hy
      unfold StatsEngine.recordBookEligible at h2
      rw [if_pos hy] at h2
      simpa using h2
    · rintro ⟨h1, h2⟩
      refine ⟨h1, ?_⟩
      unfold StatsEngine.recordBookEligible
      by_cases hy : s.year ≤ 2015
      · rw [if_pos hy]
        simpa using h2 hy
      · rw [if_neg hy]
  refine ⟨hmemiff, ?_, ?_, ?_⟩
  · intro s hs
    have h1 : s ∈ StatsEngine.filteredHighScores l := by
      have := List.mem_of_mem_take (by simpa [StatsEngine.recordBookHighestScore] using hs)
      exact (List.mergeSort_perm _ _).mem_iff.mp this
    exact (hmemiff s).mp h1
  · intro s hs
    have h1 : s ∈ StatsEngine.filteredHighScores l := by
      have := List.mem_of_mem_take (by simpa [StatsEngine.recordBookLowestScore] using hs)
      exact (List.mergeSort_perm _ _).mem_iff.mp this
    exact (hmemiff s).mp h1
  · exact AdvancedAnalytics.high_fold_seasons a
      (AdvancedAnalytics.includedSeasons a)
      { score := 0, displayName := "", year := none, week := none }

/-- Witness for the record-book cutoff theorem: the concrete week-13 game of
2016 is in the filtered list and the top-ten list, and the analytics maximum
equals the eligible-score fold on the concrete 2016 instance. -/
theorem record_book_cutoff_witness :
    (StatsEngine.highScores (fun _ => "")
      [StatsEngine.processSeasonData 2016
        [StatsEngine.seededTeam 1 1 0 0, StatsEngine.seededTeam 2 2 0 0]
        [StatsEngine.em 1 150 90, StatsEngine.em 13 200 80]
        { regularSeasonMatchupPeriods := 0, playoffTeamCount := 0 }]).length = 4 ∧
    (∀ s, s ∈ StatsEngine.filteredHighScores
      (StatsEngine.highScores (fun _ => "")
        [StatsEngine.processSeasonData 2016
          [StatsEngine.seededTeam 1 1 0 0, StatsEngine.seededTeam 2 2 0 0]
          [StatsEngine.em 1 150 90, StatsEngine.em 13 200 80]
          { regularSeasonMatchupPeriods := 0, playoffTeamCount := 0 }]) ↔
      s ∈ StatsEngine.highScores (fun _ => "")
        [StatsEngine.processSeasonData 2016
          [StatsEngine.seededTeam 1 1 0 0, StatsEngine.seededTeam 2 2 0 0]
          [StatsEngine.em 1 150 90, StatsEngine.em 13 200 80]
          { regularSeasonMatchupPeriods := 0, playoffTeamCount := 0 }] ∧
        (s.year ≤ 2015 → s.week ≤ 12)) ∧
    (AdvancedAnalytics.getHighestSingleGameScore
      (AdvancedAnalytics.oneSeason 2016
        [AdvancedAnalytics.game 1 150 90, AdvancedAnalytics.game 13 200 80])).score =
      (AdvancedAnalytics.eligibleScores
        (AdvancedAnalytics.oneSeason 2016
          [AdvancedAnalytics.game 1 150 90, AdvancedAnalytics.game 13 200 80])).foldl
        max 0 := by
  refine ⟨?_, ?_, ?_⟩
  · norm_num [StatsEngine.highScores, StatsEngine.seasonHighScores,
      StatsEngine.seasonMergedMatchups, StatsEngine.processSeasonData,
      StatsEngine.regularSeasonWeekCount, StatsEngine.regularMatchupsOf,
      StatsEngine.playoffMatchupsOf, StatsEngine.tierTruthy, StatsEngine.seededTeam,
      StatsEngine.em, List.mergeSort, List.merge]
  · exact (record_book_cutoff_2015_analytics_cutoff_2017 _ 
      (AdvancedAnalytics.oneSeason 2016
        [AdvancedAnalytics.game 1 150 90, AdvancedAnalytics.game 13 200 80])).1
  · exact (record_book_cutoff_2015_analytics_cutoff_2017 [] _).2.2.2

/-- Membership after an upsert: an entry is an untouched old entry or the
freshly written value at the upserted key. -/
theorem mem_upsertWith {κ α : Type} [BEq κ] [LawfulBEq κ]
    (k : κ) (f : Option α → α) :
    ∀ (m : List (κ × α)) (kr : κ × α), kr ∈ upsertWith m k f →
      kr ∈ m ∨ kr = (k, f (m.lookup k)) := by
  intro m
  induction m with
  | nil =>
    intro kr hkr
    simp only [upsertWith, List.mem_singleton] at hkr
    right
    simpa using hkr
  | cons e t ih =>
    intro kr hkr
    by_cases hek : (k == e.1) = true
    · have hek2 : e.1 = k := (beq_iff_eq.mp hek).symm
      simp only [upsertWith] at hkr
      rw [if_pos hek] at hkr
      rcases List.mem_cons.mp hkr with h1 | h1
      · right
        rw [h1, List.lookup, hek2]
        simp
      · left
        exact List.mem_cons_of_mem e h1
    · have hek2 : (k == e.1) = false := by
        cases hc : (k == e.1)
        · rfl
        · exact absurd hc hek
      simp only [upsertWith] at hkr
      rw [if_neg (by simp [hek2])] at hkr
      rcases List.mem_cons.mp hkr with h1 | h1
      · left
        exact h1 ▸ List.mem_cons_self e t
      · rcases ih kr h1 with h2 | h2
        · left
          exact List.mem_cons_of_mem e h2
        · right
          rw [h2, List.lookup, hek2]
  
/-- A successful association-list lookup is a member. -/
theorem lookup_mem {κ α : Type} [BEq κ] [LawfulBEq κ] (k : κ) (b : α) :
    ∀ (m : List (κ × α)), m.lookup k = some b → (k, b) ∈ m := by
  intro m
  induction m with
  | nil => intro h; simp [List.lookup] at h
  | cons e t ih =>
    intro h
    rw [List.lookup] at h
    by_cases hek : (k == e.1) = true
    · rw [hek] at h
      have hb : e.2 = b := by simpa using h
      have hk : e.1 = k := (beq_iff_eq.mp hek).symm
      have he : (k, b) = e := by rw [← hk, ← hb]
      rw [← he] at *
      exact List.mem_cons_self (k, b) t
    · have hek2 : (k == e.1) = false := by
        cases hc : (k == e.1)
        · rfl
        · exact absurd hc hek
      rw [hek2] at h
      exact List.mem_cons_of_mem e (ih h)

namespace StatsEngine

/-- Origin of one worked matchup: it belongs to one of the processed
seasons, tagged with that season's year. -/
def H2HOrigin (seasons : List SeasonStats) (q : Nat × (EMatchup × Bool)) : Prop :=
  ∃ ss ∈ seasons, q.1 = ss.year ∧ q.2 ∈ seasonMergedMatchups ss

/-- Invariant of one head-to-head bucket: it was created by a processed
matchup whose unordered pair it canonicalizes, its win/tie counters sum to
its stored matchup count, and its win counters sum to its stored non-tie
count. -/
def H2HEntryInv (seasons : List SeasonStats) (kr : String × H2HRecord) : Prop :=
  (∃ mp : EMatchup × Bool,
    (∃ ss ∈ seasons, mp ∈ seasonMergedMatchups ss) ∧
    kr.1 = h2hKey mp.1.homeTeamId mp.1.awayTeamId ∧
    kr.2.team1 = min mp.1.homeTeamId mp.1.awayTeamId ∧
    kr.2.team2 = max mp.1.homeTeamId mp.1.awayTeamId) ∧
  kr.2.team1Wins + kr.2.team2Wins + kr.2.ties = kr.2.matchups.length ∧
  kr.2.team1Wins + kr.2.team2Wins =
    (kr.2.matchups.filter (fun g => decide (g.team1Score ≠ g.team2Score))).length

/-- The stored scores of a normalized head-to-head game tie exactly when the
matchup's scores tie, provided the bucket's two canonical ids are the
matchup's two (distinct) ids. -/
theorem h2h_game_scores (h a : Nat) (hne : h ≠ a) (t1 t2 : Nat)
    (ht1 : t1 = min h a) (ht2 : t2 = max h a) (hs as : ℚ) :
    ((if h = t1 then hs else as) = (if h = t2 then hs else as)) ↔ hs = as := by
  rcases lt_or_gt_of_ne hne with hlt | hgt
  · have e1 : t1 = h := by rw [ht1]; exact min_eq_left (le_of_lt hlt)
    have e2 : t2 = a := by rw [ht2]; exact max_eq_right (le_of_lt hlt)
    rw [if_pos e1.symm, if_neg (by rw [e2]; exact hne)]
  · have e1 : t1 = a := by rw [ht1]; exact min_eq_right (le_of_lt hgt)
    have e2 : t2 = h := by rw [ht2]; exact max_eq_left (le_of_lt hgt)
    rw [if_neg (by rw [e1]; exact hne), if_pos e2.symm]
    exact eq_comm

end StatsEngine

namespace StatsEngine

/-- One bucket update preserves the head-to-head counting invariants and
the canonical pair, for a matchup whose two ids are the bucket's pair. -/
theorem h2hUpdate_inv (y : Nat) (mp : EMatchup × Bool) (r : H2HRecord)
    (hne : mp.1.homeTeamId ≠ mp.1.awayTeamId)
    (ht1 : r.team1 = min mp.1.homeTeamId mp.1.awayTeamId)
    (ht2 : r.team2 = max mp.1.homeTeamId mp.1.awayTeamId)
    (hc1 : r.team1Wins + r.team2Wins + r.ties = r.matchups.length)
    (hc2 : r.team1Wins + r.team2Wins =
      (r.matchups.filter (fun g => decide (g.team1Score ≠ g.team2Score))).length) :
    (h2hUpdate y mp r).team1 = r.team1 ∧
    (h2hUpdate y mp r).team2 = r.team2 ∧
    (h2hUpdate y mp r).team1Wins + (h2hUpdate y mp r).team2Wins +
        (h2hUpdate y mp r).ties = (h2hUpdate y mp r).matchups.length ∧
    (h2hUpdate y mp r).team1Wins + (h2hUpdate y mp r).team2Wins =
      ((h2hUpdate y mp r).matchups.filter
        (fun g => decide (g.team1Score ≠ g.team2Score))).length := by
  have hc2x : r.team1Wins + r.team2Wins =
      (r.matchups.filter (fun g => !decide (g.team1Score = g.team2Score))).length := by
    simpa using hc2
  by_cases htie : mp.1.homeScore = mp.1.awayScore
  · have hg : (!decide ((if mp.1.homeTeamId = r.team1 then mp.1.homeScore
        else mp.1.awayScore) = (if mp.1.homeTeamId = r.team2 then mp.1.homeScore
        else mp.1.awayScore))) = false := by
      simp only [Bool.not_eq_false', decide_eq_true_eq]
      exact (h2h_game_scores mp.1.homeTeamId mp.1.awayTeamId hne r.team1 r.team2
        ht1 ht2 mp.1.homeScore mp.1.awayScore).mpr htie
    refine ⟨?_, ?_, ?_, ?_⟩ <;>
      simp [h2hUpdate, htie, List.filter_append, hg, hc1, hc2x] <;> omega
  · have hg : (!decide ((if mp.1.homeTeamId = r.team1 then mp.1.homeScore
        else mp.1.awayScore) = (if mp.1.homeTeamId = r.team2 then mp.1.homeScore
        else mp.1.awayScore))) = true := by
      simp only [Bool.not_eq_true', decide_eq_false_iff_not]
      intro hcon
      exact htie ((h2h_game_scores mp.1.homeTeamId mp.1.awayTeamId hne r.team1 r.team2
        ht1 ht2 mp.1.homeScore mp.1.awayScore).mp hcon)
    by_cases hw : (if mp.1.homeScore > mp.1.awayScore then mp.1.homeTeamId
        else mp.1.awayTeamId) = r.team1
    · refine ⟨?_, ?_, ?_, ?_⟩ <;>
        simp [h2hUpdate, htie, hw, List.filter_append, hg, hc1, hc2x] <;> omega
    · refine ⟨?_, ?_, ?_, ?_⟩ <;>
        simp [h2hUpdate, htie, hw, List.filter_append, hg, hc1, hc2x] <;> omega

end StatsEngine

namespace StatsEngine

/-- Key-collision hypothesis: distinct unordered id pairs never share a
head-to-head key within the processed matchups (this holds for decimal ids
joined with a dash; it is carried as an explicit hypothesis). -/
def H2HKeysOk (seasons : List SeasonStats) : Prop :=
  ∀ ss ∈ seasons, ∀ mp ∈ seasonMergedMatchups ss,
    ∀ ss2 ∈ seasons, ∀ mp2 ∈ seasonMergedMatchups ss2,
      h2hKey (mp : EMatchup × Bool).1.homeTeamId mp.1.awayTeamId =
        h2hKey (mp2 : EMatchup × Bool).1.homeTeamId mp2.1.awayTeamId →
      min mp.1.homeTeamId mp.1.awayTeamId = min mp2.1.homeTeamId mp2.1.awayTeamId ∧
      max mp.1.homeTeamId mp.1.awayTeamId = max mp2.1.homeTeamId mp2.1.awayTeamId

/-- Distinct-sides hypothesis: every processed matchup pairs two different
team ids. -/
def H2HSidesOk (seasons : List SeasonStats) : Prop :=
  ∀ ss ∈ seasons, ∀ mp ∈ seasonMergedMatchups ss,
    (mp : EMatchup × Bool).1.homeTeamId ≠ mp.1.awayTeamId

/-- One head-to-head step preserves the bucket invariant. -/
theorem h2hStep_inv (seasons : List SeasonStats)
    (hkeys : H2HKeysOk seasons) (hsides : H2HSidesOk seasons)
    (y : Nat) (mp : EMatchup × Bool)
    (horig : ∃ ss ∈ seasons, y = ss.year ∧ mp ∈ seasonMergedMatchups ss)
    (acc : List (String × H2HRecord))
    (hacc : ∀ kr ∈ acc, H2HEntryInv seasons kr) :
    ∀ kr ∈ h2hStep y acc mp, H2HEntryInv seasons kr := by
  intro kr hkr
  rcases horig with ⟨ss, hss, hy, hmps⟩
  have hne : mp.1.homeTeamId ≠ mp.1.awayTeamId := hsides ss hss mp hmps
  rcases mem_upsertWith (h2hKey mp.1.homeTeamId mp.1.awayTeamId)
      (fun old => h2hUpdate y mp (old.getD (h2hFresh mp.1))) acc kr hkr with hold | hnew
  · exact hacc kr hold
  · cases hlk : acc.lookup (h2hKey mp.1.homeTeamId mp.1.awayTeamId) with
    | none =>
      rw [hlk] at hnew
      have hrt1 : (h2hFresh mp.1).team1 = min mp.1.homeTeamId mp.1.awayTeamId := rfl
      have hrt2 : (h2hFresh mp.1).team2 = max mp.1.homeTeamId mp.1.awayTeamId := rfl
      have hupd := h2hUpdate_inv y mp (h2hFresh mp.1) hne hrt1 hrt2 (by rfl) (by rfl)
      refine hnew ▸ ⟨⟨mp, ⟨ss, hss, hmps⟩, rfl, ?_, ?_⟩, hupd.2.2.1, hupd.2.2.2⟩
      · simpa [Option.getD] using hupd.1
      · simpa [Option.getD] using hupd.2.1
    | some b =>
      rw [hlk] at hnew
      have hbmem : (h2hKey mp.1.homeTeamId mp.1.awayTeamId, b) ∈ acc :=
        lookup_mem _ b acc hlk
      rcases hacc _ hbmem with ⟨⟨mp2, ⟨ss2, hss2, hmps2⟩, hkeyeq, hbt1, hbt2⟩, hbc1, hbc2⟩
      have hmm := hkeys ss2 hss2 mp2 hmps2 ss hss mp hmps hkeyeq.symm
      have hbt1' : b.team1 = min mp.1.homeTeamId mp.1.awayTeamId := by
        rw [hbt1, hmm.1]
      have hbt2' : b.team2 = max mp.1.homeTeamId mp.1.awayTeamId := by
        rw [hbt2, hmm.2]
      have hupd := h2hUpdate_inv y mp b hne hbt1' hbt2' hbc1 hbc2
      refine hnew ▸ ⟨⟨mp, ⟨ss, hss, hmps⟩, rfl, ?_, ?_⟩, hupd.2.2.1, hupd.2.2.2⟩
      · simpa [Option.getD, hbt1'] using hupd.1
      · simpa [Option.getD, hbt2'] using hupd.2.1

/-- The whole head-to-head fold preserves the bucket invariant. -/
theorem h2h_fold_inv (seasons : List SeasonStats)
    (hkeys : H2HKeysOk seasons) (hsides : H2HSidesOk seasons) :
    ∀ (work : List SeasonStats), (∀ ss ∈ work, ss ∈ seasons) →
    ∀ (acc : List (String × H2HRecord)), (∀ kr ∈ acc, H2HEntryInv seasons kr) →
    ∀ kr ∈ work.foldl
      (fun acc2 ss => (seasonMergedMatchups ss).foldl (h2hStep ss.year) acc2) acc,
      H2HEntryInv seasons kr := by
  intro work
  induction work with
  | nil => intro _ acc hacc kr hkr; exact hacc kr hkr
  | cons ss t ih =>
    intro hwork acc hacc
    rw [List.foldl_cons]
    refine ih (fun u hu => hwork u (List.mem_cons_of_mem ss hu)) _ ?_
    have hssin : ss ∈ seasons := hwork ss (List.mem_cons_self ss t)
    have hinner : ∀ (ms : List (EMatchup × Bool)), (∀ mp ∈ ms, mp ∈ seasonMergedMatchups ss) →
        ∀ (acc2 : List (String × H2HRecord)), (∀ kr ∈ acc2, H2HEntryInv seasons kr) →
        ∀ kr ∈ ms.foldl (h2hStep ss.year) acc2, H2HEntryInv seasons kr := by
      intro ms
      induction ms with
      | nil => intro _ acc2 hacc2 kr hkr; exact hacc2 kr hkr
      | cons mp tms ihm =>
        intro hms acc2 hacc2
        rw [List.foldl_cons]
        refine ihm (fun u hu => hms u (List.mem_cons_of_mem mp hu)) _ ?_
        exact h2hStep_inv seasons hkeys hsides ss.year mp
          ⟨ss, hssin, rfl, hms mp (List.mem_cons_self mp tms)⟩ acc2 hacc2
    exact hinner (seasonMergedMatchups ss) (fun _ h => h) acc hacc

/-- C8: after aggregating any seasons whose matchups pair distinct team ids
(and whose keys collide only on equal unordered pairs, as decimal string
keys do), every head-to-head bucket satisfies
`team1Wins + team2Wins + ties = matchups.length` and
`team1Wins + team2Wins = count of non-tie stored matchups`. -/
theorem h2h_record_invariant (seasons : List SeasonStats)
    (hkeys : H2HKeysOk seasons) (hsides : H2HSidesOk seasons) :
    ∀ k r, (k, r) ∈ h2hRecords seasons →
      r.team1Wins + r.team2Wins + r.ties = r.matchups.length ∧
      r.team1Wins + r.team2Wins =
        (r.matchups.filter (fun g => decide (g.team1Score ≠ g.team2Score))).length := by
  intro k r hkr
  have := h2h_fold_inv seasons hkeys hsides seasons (fun _ h => h) []
    (by intro kr hkr2; simp at hkr2) (k, r) (by simpa [h2hRecords] using hkr)
  exact ⟨this.2.1, this.2.2⟩

end StatsEngine

namespace StatsEngine

/-- Concrete season for the head-to-head witness: teams 1 and 2 meet twice,
a 100–90 home win and a 100–100 tie. -/
def h2hWitnessSeason : SeasonStats :=
  processSeasonData 2022 [seededTeam 1 1 0 0, seededTeam 2 2 0 0]
    [em 1 100 90, em 2 100 100] plainSettings

/-- Expected head-to-head bucket of the witness season. -/
def h2hWitnessRecord : H2HRecord :=
  { team1 := 1, team2 := 2, team1Wins := 1, team2Wins := 0, ties := 1
    matchups :=
      [{ year := 2022, week := 1, team1Score := 100, team2Score := 90, isPlayoff := false },
       { year := 2022, week := 2, team1Score := 100, team2Score := 100, isPlayoff := false }] }

/-- Witness for the head-to-head invariant theorem on the concrete
two-matchup season: 1 win + 0 wins + 1 tie = 2 stored matchups, and
1 + 0 = 1 non-tie matchup. -/
theorem h2h_record_invariant_witness :
    H2HKeysOk [h2hWitnessSeason] ∧ H2HSidesOk [h2hWitnessSeason] ∧
    ("1-2", h2hWitnessRecord) ∈ h2hRecords [h2hWitnessSeason] ∧
    h2hWitnessRecord.team1Wins + h2hWitnessRecord.team2Wins + h2hWitnessRecord.ties =
      h2hWitnessRecord.matchups.length ∧
    h2hWitnessRecord.team1Wins + h2hWitnessRecord.team2Wins =
      (h2hWitnessRecord.matchups.filter
        (fun g => decide (g.team1Score ≠ g.team2Score))).length := by
  have hk : H2HKeysOk [h2hWitnessSeason] := by
    unfold H2HKeysOk
    decide
  have hs : H2HSidesOk [h2hWitnessSeason] := by
    unfold H2HSidesOk
    decide
  have hm : ("1-2", h2hWitnessRecord) ∈ h2hRecords [h2hWitnessSeason] := by decide
  exact ⟨hk, hs, hm,
    (h2h_record_invariant [h2hWitnessSeason] hk hs "1-2" h2hWitnessRecord hm).1,
    (h2h_record_invariant [h2hWitnessSeason] hk hs "1-2" h2hWitnessRecord hm).2⟩

end StatsEngine

/-- The accumulate-unless-skipped loop with a propositional skip condition
is a filter followed by a map. -/
theorem foldl_collectP {α β : Type} (c : α → Prop) [DecidablePred c] (f : α → β) :
    ∀ (l : List α) (acc : List β),
      l.foldl (fun acc2 p => if c p then acc2 else acc2 ++ [f p]) acc =
        acc ++ (l.filter (fun p => !(decide (c p)))).map f := by
  intro l
  induction l with
  | nil => intro acc; simp
  | cons e t ih =>
    intro acc
    by_cases hc : c e
    · simp [List.foldl_cons, List.filter_cons, hc, ih]
    · simp [List.foldl_cons, List.filter_cons, hc, ih]

/-- Membership in a sorted skip-collect loop: exactly the images of the
non-skipped records. -/
theorem mem_collect_sort {A E : Type} (c : A → Prop) [DecidablePred c] (mk : A → E)
    (le : E → E → Bool) (records : List A) (e : E) :
    (e ∈ (records.foldl (fun acc p => if c p then acc else acc ++ [mk p]) []).mergeSort le) ↔
    ∃ p ∈ records, ¬ c p ∧ e = mk p := by
  rw [List.mem_mergeSort, foldl_collectP]
  simp only [List.nil_append, List.mem_map, List.mem_filter]
  constructor
  · rintro ⟨p, ⟨hp, hc⟩, rfl⟩
    exact ⟨p, hp, by simpa using hc, rfl⟩
  · rintro ⟨p, hp, hc, rfl⟩
    exact ⟨p, ⟨hp, by simpa using hc⟩, rfl⟩

/-- Collapsing a nested skip into a disjunction. -/
theorem nested_ite_collect {A E : Type} (c1 c2 : A → Prop) [DecidablePred c1]
    [DecidablePred c2] (mk : A → E) :
    (fun (acc : List E) (p : A) =>
      if c1 p then acc else if c2 p then acc else acc ++ [mk p]) =
    (fun acc p => if (c1 p ∨ c2 p) then acc else acc ++ [mk p]) := by
  funext acc p
  by_cases h1 : c1 p
  · simp [h1]
  · by_cases h2 : c2 p <;> simp [h1, h2]

namespace AdvancedAnalytics

/-- C3: each of the four advanced metrics aggregates over every historical
identity and filters to current owners only on the returned all-time result
list, while a per-year invocation applies no current-owner filter; a current
identity's all-time row is exactly its row of the unfiltered full-population
computation. -/
theorem alltime_filters_after_aggregation :
    (∀ (a : Analytics) (y : Nat),
      calculateLuckScores a (some y) = calculateLuckScoresUnfiltered a (some y)) ∧
    (∀ (a : Analytics) (e : LuckEntry),
      e ∈ calculateLuckScores a none ↔
        e ∈ calculateLuckScoresUnfiltered a none ∧ isCurrentOwnerKey a e.key = true) ∧
    (∀ (a : Analytics) (ct bt : ℚ) (y : Nat),
      calculateCloseGamePerformance a ct bt (some y) =
        calculateCloseGamePerformanceUnfiltered a ct bt (some y)) ∧
    (∀ (a : Analytics) (ct bt : ℚ) (e : CGEntry),
      e ∈ calculateCloseGamePerformance a ct bt none ↔
        e ∈ calculateCloseGamePerformanceUnfiltered a ct bt none ∧
          isCurrentOwnerKey a e.key = true) ∧
    (∀ (fsqrt : ℚ → ℚ) (a : Analytics) (y : Nat),
      calculateConsistencyMetrics fsqrt a (some y) =
        calculateConsistencyMetricsUnfiltered fsqrt a (some y)) ∧
    (∀ (fsqrt : ℚ → ℚ) (a : Analytics) (e : ConsEntry),
      e ∈ calculateConsistencyMetrics fsqrt a none ↔
        e ∈ calculateConsistencyMetricsUnfiltered fsqrt a none ∧
          isCurrentOwnerKey a e.key = true) ∧
    (∀ (a : Analytics) (y : Nat),
      calculateStrengthOfSchedule a (some y) =
        calculateStrengthOfScheduleUnfiltered a (some y)) ∧
    (∀ (a : Analytics) (e : SOSEntry),
      e ∈ calculateStrengthOfSchedule a none ↔
        e ∈ calculateStrengthOfScheduleUnfiltered a none ∧
          isCurrentOwnerKey a e.key = true) := by
  refine ⟨?_, ?_, ?_, ?_, ?_, ?_, ?_, ?_⟩
  · intro a y
    simp only [calculateLuckScores, calculateLuckScoresUnfiltered]
    rw [foldl_collectP
      (fun p : JSKey × APRecord =>
        ((some y : Option Nat).isNone && !isCurrentOwnerKey a p.1) = true)
      (fun p => mkLuckEntry a (some y) p.1 p.2)]
    simp
  · intro a e
    simp only [calculateLuckScores, calculateLuckScoresUnfiltered]
    rw [mem_collect_sort
      (fun p : JSKey × APRecord =>
        ((none : Option Nat).isNone && !isCurrentOwnerKey a p.1) = true)
      (fun p => mkLuckEntry a none p.1 p.2),
      List.mem_mergeSort, List.mem_map]
    constructor
    · rintro ⟨p, hp, hc, rfl⟩
      refine ⟨⟨p, hp, rfl⟩, ?_⟩
      simp only [Option.isNone_none, Bool.true_and, Bool.not_eq_true',
        Bool.not_eq_false'] at hc
      simpa [mkLuckEntry] using hc
    · rintro ⟨⟨p, hp, rfl⟩, hcur⟩
      refine ⟨p, hp, ?_, rfl⟩
      simp only [Option.isNone_none, Bool.true_and, Bool.not_eq_true',
        Bool.not_eq_false']
      simpa [mkLuckEntry] using hcur
  · intro a ct bt y
    simp only [calculateCloseGamePerformance, calculateCloseGamePerformanceUnfiltered]
    rw [foldl_collectP
      (fun p : JSKey × CGRecord =>
        ((some y : Option Nat).isNone && !isCurrentOwnerKey a p.1) = true)
      (fun p => mkCGEntry a (some y) p.1 p.2)]
    simp
  · intro a ct bt e
    simp only [calculateCloseGamePerformance, calculateCloseGamePerformanceUnfiltered]
    rw [mem_collect_sort
      (fun p : JSKey × CGRecord =>
        ((none : Option Nat).isNone && !isCurrentOwnerKey a p.1) = true)
      (fun p => mkCGEntry a none p.1 p.2),
      List.mem_mergeSort, List.mem_map]
    constructor
    · rintro ⟨p, hp, hc, rfl⟩
      refine ⟨⟨p, hp, rfl⟩, ?_⟩
      simp only [Option.isNone_none, Bool.true_and, Bool.not_eq_true',
        Bool.not_eq_false'] at hc
      simpa [mkCGEntry] using hc
    · rintro ⟨⟨p, hp, rfl⟩, hcur⟩
      refine ⟨p, hp, ?_, rfl⟩
      simp only [Option.isNone_none, Bool.true_and, Bool.not_eq_true',
        Bool.not_eq_false']
      simpa [mkCGEntry] using hcur
  · intro fsqrt a y
    simp only [calculateConsistencyMetrics, calculateConsistencyMetricsUnfiltered]
    rw [nested_ite_collect
      (fun p : JSKey × ConsRecord =>
        ((some y : Option Nat).isNone && !isCurrentOwnerKey a p.1) = true)
      (fun p => p.2.scores.length < 3)
      (fun p => mkConsEntry fsqrt a (some y) p.1 p.2)]
    rw [foldl_collectP
      (fun p : JSKey × ConsRecord =>
        (((some y : Option Nat).isNone && !isCurrentOwnerKey a p.1) = true) ∨
          p.2.scores.length < 3)
      (fun p => mkConsEntry fsqrt a (some y) p.1 p.2)]
    rw [foldl_collectP
      (fun p : JSKey × ConsRecord => p.2.scores.length < 3)
      (fun p => mkConsEntry fsqrt a (some y) p.1 p.2)]
    simp
  · intro fsqrt a e
    simp only [calculateConsistencyMetrics, calculateConsistencyMetricsUnfiltered]
    rw [nested_ite_collect
      (fun p : JSKey × ConsRecord =>
        ((none : Option Nat).isNone && !isCurrentOwnerKey a p.1) = true)
      (fun p => p.2.scores.length < 3)
      (fun p => mkConsEntry fsqrt a none p.1 p.2)]
    rw [mem_collect_sort
      (fun p : JSKey × ConsRecord =>
        (((none : Option Nat).isNone && !isCurrentOwnerKey a p.1) = true) ∨
          p.2.scores.length < 3)
      (fun p => mkConsEntry fsqrt a none p.1 p.2)]
    rw [mem_collect_sort
      (fun p : JSKey × ConsRecord => p.2.scores.length < 3)
      (fun p => mkConsEntry fsqrt a none p.1 p.2)]
    constructor
    · rintro ⟨p, hp, hc, rfl⟩
      rw [not_or] at hc
      refine ⟨⟨p, hp, hc.2, rfl⟩, ?_⟩
      have := hc.1
      simp only [Option.isNone_none, Bool.true_and, Bool.not_eq_true',
        Bool.not_eq_false'] at this
      simpa [mkConsEntry] using this
    · rintro ⟨⟨p, hp, hshort, rfl⟩, hcur⟩
      refine ⟨p, hp, ?_, rfl⟩
      rw [not_or]
      refine ⟨?_, hshort⟩
      simp only [Option.isNone_none, Bool.true_and, Bool.not_eq_true',
        Bool.not_eq_false']
      simpa [mkConsEntry] using hcur
  · intro a y
    simp only [calculateStrengthOfSchedule, calculateStrengthOfScheduleUnfiltered]
    rw [foldl_collectP
      (fun p : JSKey × SOSOpp =>
        ((some y : Option Nat).isNone && !isCurrentOwnerKey a p.1) = true)
      (fun p => mkSOSEntry a (some y) (sosPhase1 a (some y)).2
        (((sosPhase1 a (some y)).1.map (fun q => q.2.scores)).flatten.sum /
          ((((sosPhase1 a (some y)).1.map (fun q => q.2.scores)).flatten.length : ℚ)))
        p.1 p.2)]
    simp
  · intro a e
    simp only [calculateStrengthOfSchedule, calculateStrengthOfScheduleUnfiltered]
    rw [mem_collect_sort
      (fun p : JSKey × SOSOpp =>
        ((none : Option Nat).isNone && !isCurrentOwnerKey a p.1) = true)
      (fun p => mkSOSEntry a none (sosPhase1 a none).2
        (((sosPhase1 a none).1.map (fun q => q.2.scores)).flatten.sum /
          ((((sosPhase1 a none).1.map (fun q => q.2.scores)).flatten.length : ℚ)))
        p.1 p.2),
      List.mem_mergeSort, List.mem_map]
    constructor
    · rintro ⟨p, hp, hc, rfl⟩
      refine ⟨⟨p, hp, rfl⟩, ?_⟩
      simp only [Option.isNone_none, Bool.true_and, Bool.not_eq_true',
        Bool.not_eq_false'] at hc
      simpa [mkSOSEntry] using hc
    · rintro ⟨⟨p, hp, rfl⟩, hcur⟩
      refine ⟨p, hp, ?_, rfl⟩
      simp only [Option.isNone_none, Bool.true_and, Bool.not_eq_true',
        Bool.not_eq_false']
      simpa [mkSOSEntry] using hcur

end AdvancedAnalytics

namespace AdvancedAnalytics

/-- Witness instantiating the display-filter theorem on a concrete season:
the per-year luck and strength-of-schedule outputs equal their unfiltered
counterparts. -/
theorem alltime_filters_after_aggregation_witness :
    calculateLuckScores (oneSeason 2022 [game 1 103 100]) (some 2022) =
      calculateLuckScoresUnfiltered (oneSeason 2022 [game 1 103 100]) (some 2022) ∧
    calculateStrengthOfSchedule (oneSeason 2022 [game 1 103 100]) (some 2022) =
      calculateStrengthOfScheduleUnfiltered (oneSeason 2022 [game 1 103 100]) (some 2022) :=
  ⟨alltime_filters_after_aggregation.1 (oneSeason 2022 [game 1 103 100]) 2022,
   alltime_filters_after_aggregation.2.2.2.2.2.2.1 (oneSeason 2022 [game 1 103 100]) 2022⟩

end AdvancedAnalytics

namespace StatsEngine

/-- Reference run tracker for one streak type: current run length of
matches with outcome `b`, и the best run length so far. -/
def runStep (b : Bool) (p : Nat × Nat) (e : TeamMatch) : Nat × Nat :=
  (if e.won = b then p.1 + 1 else 0,
   max p.2 (if e.won = b then p.1 + 1 else 0))

/-- Run tracker over a whole match list. -/
def runState (b : Bool) (l : List TeamMatch) : Nat × Nat :=
  l.foldl (runStep b) (0, 0)

/-- The best-run component never decreases along the fold. -/
theorem runFold_mono (b : Bool) :
    ∀ (l : List TeamMatch) (s : Nat × Nat), s.2 ≤ (l.foldl (runStep b) s).2 := by
  intro l
  induction l with
  | nil => intro s; exact le_refl _
  | cons e t ih =>
    intro s
    rw [List.foldl_cons]
    exact le_trans (le_max_left _ _) (ih (runStep b s e))

/-- Folding the run tracker through a nonempty all-`b` segment yields the
extended run and records it in the best component. -/
theorem runFold_all (b : Bool) :
    ∀ (seg : List TeamMatch), seg ≠ [] → (∀ e ∈ seg, e.won = b) →
      ∀ s : Nat × Nat, seg.foldl (runStep b) s =
        (s.1 + seg.length, max s.2 (s.1 + seg.length)) := by
  intro seg
  induction seg with
  | nil => intro h; exact absurd rfl h
  | cons e t ih =>
    intro _ hall s
    rw [List.foldl_cons]
    have he : e.won = b := hall e (List.mem_cons_self e t)
    by_cases ht : t = []
    · subst ht
      simp [runStep, he]
    · have hallt : ∀ x ∈ t, x.won = b := fun x hx => hall x (List.mem_cons_of_mem e hx)
      rw [ih ht hallt]
      have hstep : (runStep b s e) = (s.1 + 1, max s.2 (s.1 + 1)) := by
        simp [runStep, he]
      rw [hstep]
      have hle : s.1 + 1 ≤ s.1 + 1 + t.length := Nat.le_add_right _ _
      simp only [Prod.mk.injEq, List.length_cons]
      refine ⟨by omega, ?_⟩
      rw [max_assoc, max_eq_right hle]
      congr 1
      omega

/-- Any all-`b` segment of a list is bounded by the tracked best run. -/
theorem runState_ge_segment (b : Bool) (pre seg suf : List TeamMatch)
    (hall : ∀ e ∈ seg, e.won = b) :
    seg.length ≤ (runState b (pre ++ seg ++ suf)).2 := by
  by_cases hseg : seg = []
  · subst hseg
    simp
  · unfold runState
    rw [List.foldl_append, List.foldl_append, runFold_all b seg hseg hall]
    refine le_trans ?_ (runFold_mono b suf _)
    exact le_trans (le_trans (Nat.le_add_left _ _) (le_max_right _ _)) (le_refl _)

end StatsEngine

namespace StatsEngine

/-- Invariant of the streak scan after processing the prefix `hist`: the
current counters track the maximal one-outcome suffix, the stored maxima
track the best run so far, and every positive length is realized by an
explicit contiguous segment whose first and last games are the recorded
start and end. -/
def ScanInv (hist : List TeamMatch) (s : ScanState) : Prop :=
  s.currentWinStreak = (runState true hist).1 ∧
  s.currentLossStreak = (runState false hist).1 ∧
  s.maxWin.length = (runState true hist).2 ∧
  s.maxLoss.length = (runState false hist).2 ∧
  (0 < s.maxWin.length → ∃ pre seg suf : List TeamMatch, ∃ h z : TeamMatch,
    hist = pre ++ seg ++ suf ∧ seg.head? = some h ∧ seg.getLast? = some z ∧
    (∀ e ∈ seg, e.won = true) ∧ seg.length = s.maxWin.length ∧
    s.maxWin.start = some (h.year, h.week) ∧ s.maxWin.end_ = some (z.year, z.week)) ∧
  (0 < s.maxLoss.length → ∃ pre seg suf : List TeamMatch, ∃ h z : TeamMatch,
    hist = pre ++ seg ++ suf ∧ seg.head? = some h ∧ seg.getLast? = some z ∧
    (∀ e ∈ seg, e.won = false) ∧ seg.length = s.maxLoss.length ∧
    s.maxLoss.start = some (h.year, h.week) ∧ s.maxLoss.end_ = some (z.year, z.week)) ∧
  (0 < s.currentWinStreak → ∃ pre seg : List TeamMatch, ∃ h : TeamMatch,
    hist = pre ++ seg ∧ seg.head? = some h ∧ (∀ e ∈ seg, e.won = true) ∧
    seg.length = s.currentWinStreak ∧ s.streakStart = some (h.year, h.week)) ∧
  (0 < s.currentLossStreak → ∃ pre seg : List TeamMatch, ∃ h : TeamMatch,
    hist = pre ++ seg ∧ seg.head? = some h ∧ (∀ e ∈ seg, e.won = false) ∧
    seg.length = s.currentLossStreak ∧ s.streakStart = some (h.year, h.week))

/-- One scan step preserves the invariant. -/
theorem scanInv_step (hist : List TeamMatch) (s : ScanState) (e : TeamMatch)
    (h : ScanInv hist s) : ScanInv (hist ++ [e]) (streakStep s e) := by
  obtain ⟨h1, h2, h3, h4, h5, h6, h7, h8⟩ := h
  have hrw : runState true (hist ++ [e]) = runStep true (runState true hist) e := by
    unfold runState
    rw [List.foldl_append]
    rfl
  have hrl : runState false (hist ++ [e]) = runStep false (runState false hist) e := by
    unfold runState
    rw [List.foldl_append]
    rfl
  cases hwon : e.won with
  | true =>
    have hstep : streakStep s e =
        { currentWinStreak := s.currentWinStreak + 1
          currentLossStreak := 0
          maxWin :=
            if s.currentWinStreak + 1 > s.maxWin.length then
              { length := s.currentWinStreak + 1
                start := if s.currentWinStreak = 0 then some (e.year, e.week)
                  else s.streakStart
                end_ := some (e.year, e.week) }
            else s.maxWin
          maxLoss := s.maxLoss
          streakStart := if s.currentWinStreak = 0 then some (e.year, e.week)
            else s.streakStart } := by
      unfold streakStep
      rw [hwon]
      simp
    have hcurseg : ∃ pre seg : List TeamMatch, ∃ h0 : TeamMatch,
        hist ++ [e] = pre ++ seg ∧ seg.head? = some h0 ∧
        (∀ x ∈ seg, x.won = true) ∧ seg.length = s.currentWinStreak + 1 ∧
        seg.getLast? = some e ∧
        (if s.currentWinStreak = 0 then some (e.year, e.week) else s.streakStart) =
          some (h0.year, h0.week) := by
      by_cases hz : s.currentWinStreak = 0
      · refine ⟨hist, [e], e, rfl, rfl, ?_, by simp [hz], rfl, by simp [hz]⟩
        intro x hx
        rw [List.mem_singleton.mp hx]
        exact hwon
      · rcases h7 (Nat.pos_of_ne_zero hz) with ⟨pre0, seg0, h0, hh, hhead, hall, hlen, hst⟩
        have hne : seg0 ≠ [] := by
          intro hcon
          rw [hcon] at hlen
          exact hz (by simpa using hlen.symm)
        refine ⟨pre0, seg0 ++ [e], h0, ?_, ?_, ?_, ?_, List.getLast?_concat seg0, ?_⟩
        · rw [hh, List.append_assoc]
        · rw [List.head?_append_of_ne_nil seg0 hne, hhead]
        · intro x hx
          rcases List.mem_append.mp hx with hx1 | hx1
          · exact hall x hx1
          · rw [List.mem_singleton.mp hx1]
            exact hwon
        · simp [hlen]
        · rw [if_neg hz, hst]
    rw [hstep]
    refine ⟨?_, ?_, ?_, ?_, ?_, ?_, ?_, ?_⟩
    · rw [hrw]
      simp [runStep, hwon, h1]
    · rw [hrl]
      simp [runStep, hwon]
    · rw [hrw]
      by_cases hgt : s.currentWinStreak + 1 > s.maxWin.length
      · simp only [if_pos hgt]
        simp [runStep, hwon]
        rw [← h1, ← h3]
        omega
      · simp only [if_neg hgt]
        simp [runStep, hwon]
        rw [← h1, ← h3]
        omega
    · rw [hrl]
      simp only [runStep, hwon]
      rw [← h4]
      simp
    · by_cases hgt : s.currentWinStreak + 1 > s.maxWin.length
      · rw [if_pos hgt]
        intro _
        rcases hcurseg with ⟨pre, seg, h0, hh, hhead, hall, hlen, hlast, hstart⟩
        exact ⟨pre, seg, [], h0, e, by rw [List.append_nil]; exact hh, hhead, hlast,
          hall, hlen, hstart.symm ▸ rfl, rfl⟩
      · rw [if_neg hgt]
        intro hpos
        rcases h5 hpos with ⟨pre, seg, suf, h0, z0, hh, hhead, hlast, hall, hlen, hst, hen⟩
        exact ⟨pre, seg, suf ++ [e], h0, z0, by rw [hh, List.append_assoc,
          List.append_assoc], hhead, hlast, hall, hlen, hst, hen⟩
    · intro hpos
      rcases h6 hpos with ⟨pre, seg, suf, h0, z0, hh, hhead, hlast, hall, hlen, hst, hen⟩
      exact ⟨pre, seg, suf ++ [e], h0, z0, by rw [hh, List.append_assoc,
        List.append_assoc], hhead, hlast, hall, hlen, hst, hen⟩
    · intro _
      rcases hcurseg with ⟨pre, seg, h0, hh, hhead, hall, hlen, _, hstart⟩
      exact ⟨pre, seg, h0, hh, hhead, hall, hlen, hstart⟩
    · intro hcon
      exact absurd hcon (by simp)
  | false =>
    have hstep : streakStep s e =
        { currentWinStreak := 0
          currentLossStreak := s.currentLossStreak + 1
          maxWin := s.maxWin
          maxLoss :=
            if s.currentLossStreak + 1 > s.maxLoss.length then
              { length := s.currentLossStreak + 1
                start := if s.currentLossStreak = 0 then some (e.year, e.week)
                  else s.streakStart
                end_ := some (e.year, e.week) }
            else s.maxLoss
          streakStart := if s.currentLossStreak = 0 then some (e.year, e.week)
            else s.streakStart } := by
      unfold streakStep
      rw [hwon]
      simp
    have hcurseg : ∃ pre seg : List TeamMatch, ∃ h0 : TeamMatch,
        hist ++ [e] = pre ++ seg ∧ seg.head? = some h0 ∧
        (∀ x ∈ seg, x.won = false) ∧ seg.length = s.currentLossStreak + 1 ∧
        seg.getLast? = some e ∧
        (if s.currentLossStreak = 0 then some (e.year, e.week) else s.streakStart) =
          some (h0.year, h0.week) := by
      by_cases hz : s.currentLossStreak = 0
      · refine ⟨hist, [e], e, rfl, rfl, ?_, by simp [hz], rfl, by simp [hz]⟩
        intro x hx
        rw [List.mem_singleton.mp hx]
        exact hwon
      · rcases h8 (Nat.pos_of_ne_zero hz) with ⟨pre0, seg0, h0, hh, hhead, hall, hlen, hst⟩
        have hne : seg0 ≠ [] := by
          intro hcon
          rw [hcon] at hlen
          exact hz (by simpa using hlen.symm)
        refine ⟨pre0, seg0 ++ [e], h0, ?_, ?_, ?_, ?_, List.getLast?_concat seg0, ?_⟩
        · rw [hh, List.append_assoc]
        · rw [List.head?_append_of_ne_nil seg0 hne, hhead]
        · intro x hx
          rcases List.mem_append.mp hx with hx1 | hx1
          · exact hall x hx1
          · rw [List.mem_singleton.mp hx1]
            exact hwon
        · simp [hlen]
        · rw [if_neg hz, hst]
    rw [hstep]
    refine ⟨?_, ?_, ?_, ?_, ?_, ?_, ?_, ?_⟩
    · rw [hrw]
      simp [runStep, hwon]
    · rw [hrl]
      simp [runStep, hwon, h2]
    · rw [hrw]
      simp only [runStep, hwon]
      rw [← h3]
      simp
    · rw [hrl]
      by_cases hgt : s.currentLossStreak + 1 > s.maxLoss.length
      · simp only [if_pos hgt]
        simp [runStep, hwon]
        rw [← h2, ← h4]
        omega
      · simp only [if_neg hgt]
        simp [runStep, hwon]
        rw [← h2, ← h4]
        omega
    · intro hpos
      rcases h5 hpos with ⟨pre, seg, suf, h0, z0, hh, hhead, hlast, hall, hlen, hst, hen⟩
      exact ⟨pre, seg, suf ++ [e], h0, z0, by rw [hh, List.append_assoc,
        List.append_assoc], hhead, hlast, hall, hlen, hst, hen⟩
    · by_cases hgt : s.currentLossStreak + 1 > s.maxLoss.length
      · rw [if_pos hgt]
        intro _
        rcases hcurseg with ⟨pre, seg, h0, hh, hhead, hall, hlen, hlast, hstart⟩
        exact ⟨pre, seg, [], h0, e, by rw [List.append_nil]; exact hh, hhead, hlast,
          hall, hlen, hstart.symm ▸ rfl, rfl⟩
      · rw [if_neg hgt]
        intro hpos
        rcases h6 hpos with ⟨pre, seg, suf, h0, z0, hh, hhead, hlast, hall, hlen, hst, hen⟩
        exact ⟨pre, seg, suf ++ [e], h0, z0, by rw [hh, List.append_assoc,
          List.append_assoc], hhead, hlast, hall, hlen, hst, hen⟩
    · intro hcon
      exact absurd hcon (by simp)
    · intro _
      rcases hcurseg with ⟨pre, seg, h0, hh, hhead, hall, hlen, _, hstart⟩
      exact ⟨pre, seg, h0, hh, hhead, hall, hlen, hstart⟩

end StatsEngine

namespace StatsEngine

/-- The empty history satisfies the scan invariant at the initial state. -/
theorem scanInv_nil : ScanInv [] initScan := by
  refine ⟨rfl, rfl, rfl, rfl, ?_, ?_, ?_, ?_⟩ <;>
    · intro h
      exact absurd h (by simp [initScan])

/-- Folding the scan over any suffix preserves the invariant. -/
theorem scanInv_fold (ms : List TeamMatch) : ∀ (hist : List TeamMatch) (s : ScanState),
    ScanInv hist s → ScanInv (hist ++ ms) (ms.foldl streakStep s) := by
  induction ms with
  | nil =>
    intro hist s h
    simpa using h
  | cons e rest ih =>
    intro hist s h
    have hnext := ih (hist ++ [e]) (streakStep s e) (scanInv_step hist s e h)
    simpa [List.append_assoc] using hnext

/-- The full streak scan satisfies the invariant over its input list. -/
theorem scanInv_scan (ms : List TeamMatch) : ScanInv ms (streakScan ms) := by
  have h := scanInv_fold ms [] initScan scanInv_nil
  simpa [streakScan] using h

/-- Two matchups of teams 1 and 2: week 1 is a home win, week 2 a tie. -/
def tieStreakMs : List AggMatchup :=
  [⟨2022, 1, 1, 2, 100, 90⟩, ⟨2022, 2, 1, 2, 100, 100⟩]

/-- C2: counterexample. After a week-1 home win and a week-2 tie, the
streak output gives team 2 a loss streak of length 2 ending at the tied
week and gives team 1 a loss streak of length 1 consisting of the tied
week alone: the tied matchup is recorded as a loss on both sides and
extends team 2's running loss streak rather than resetting it, contrary
to the claim that a tie extends neither counter. -/
theorem tie_extends_loss_streak :
    (calculateStreaks (fun _ => "") tieStreakMs).2 =
      [⟨2, "", 2, some (2022, 1), some (2022, 2)⟩,
       ⟨1, "", 1, some (2022, 2), some (2022, 2)⟩] ∧
    (calculateStreaks (fun _ => "") tieStreakMs).1 =
      [⟨1, "", 1, some (2022, 1), some (2022, 1)⟩] := by
  norm_num [calculateStreaks, tieStreakMs, teamMatchups, teamMatchEntry, upsertWith,
    matchSortLe, streakScan, streakStep, initScan, List.mergeSort, List.merge]

/-- C2: amended. A tied matchup is classified as a non-win for both
sides; a non-win game resets the current win streak to zero and extends
the current loss streak by one (so a tie extends a running loss streak
instead of breaking it), while a won game does the symmetric thing. The
scan does record the longest run of each type: no all-win (all-loss)
contiguous segment is longer than the recorded maximum, and a positive
recorded maximum is realized by a contiguous segment whose first and
last games carry exactly the recorded start and end year/week stamps. -/
theorem streak_tie_and_longest_runs :
    (∀ (m : AggMatchup) (tid : Nat), m.homeScore = m.awayScore →
      (teamMatchEntry m tid).won = false) ∧
    (∀ (s : ScanState) (e : TeamMatch), e.won = false →
      (streakStep s e).currentWinStreak = 0 ∧
      (streakStep s e).currentLossStreak = s.currentLossStreak + 1) ∧
    (∀ (s : ScanState) (e : TeamMatch), e.won = true →
      (streakStep s e).currentLossStreak = 0 ∧
      (streakStep s e).currentWinStreak = s.currentWinStreak + 1) ∧
    (∀ pre seg suf : List TeamMatch, (∀ e ∈ seg, e.won = true) →
      seg.length ≤ (streakScan (pre ++ seg ++ suf)).maxWin.length) ∧
    (∀ pre seg suf : List TeamMatch, (∀ e ∈ seg, e.won = false) →
      seg.length ≤ (streakScan (pre ++ seg ++ suf)).maxLoss.length) ∧
    (∀ ms : List TeamMatch, 0 < (streakScan ms).maxWin.length →
      ∃ pre seg suf : List TeamMatch, ∃ h z : TeamMatch,
        ms = pre ++ seg ++ suf ∧ seg.head? = some h ∧ seg.getLast? = some z ∧
        (∀ e ∈ seg, e.won = true) ∧ seg.length = (streakScan ms).maxWin.length ∧
        (streakScan ms).maxWin.start = some (h.year, h.week) ∧
        (streakScan ms).maxWin.end_ = some (z.year, z.week)) ∧
    (∀ ms : List TeamMatch, 0 < (streakScan ms).maxLoss.length →
      ∃ pre seg suf : List TeamMatch, ∃ h z : TeamMatch,
        ms = pre ++ seg ++ suf ∧ seg.head? = some h ∧ seg.getLast? = some z ∧
        (∀ e ∈ seg, e.won = false) ∧ seg.length = (streakScan ms).maxLoss.length ∧
        (streakScan ms).maxLoss.start = some (h.year, h.week) ∧
        (streakScan ms).maxLoss.end_ = some (z.year, z.week)) := by
  refine ⟨?_, ?_, ?_, ?_, ?_, ?_, ?_⟩
  · intro m tid h
    simp [teamMatchEntry, h]
  · intro s e he
    unfold streakStep
    rw [he]
    simp
  · intro s e he
    unfold streakStep
    rw [he]
    simp
  · intro pre seg suf hall
    have hinv := scanInv_scan (pre ++ seg ++ suf)
    rw [hinv.2.2.1]
    exact runState_ge_segment true pre seg suf hall
  · intro pre seg suf hall
    have hinv := scanInv_scan (pre ++ seg ++ suf)
    rw [hinv.2.2.2.1]
    exact runState_ge_segment false pre seg suf hall
  · intro ms h
    exact (scanInv_scan ms).2.2.2.2.1 h
  · intro ms h
    exact (scanInv_scan ms).2.2.2.2.2.1 h

/-- Concrete instantiation of the amended streak theorem: the week-2 tie
entry is a non-win for the home side, a non-win step resets the win
counter and bumps the loss counter, a won step does the converse, and a
one-game all-win (all-loss) segment bounds and realizes the recorded
maxima. -/
theorem streak_tie_and_longest_runs_witness :
    (teamMatchEntry ⟨2022, 2, 1, 2, 100, 100⟩ 1).won = false ∧
    ((streakStep initScan ⟨2022, 2, false, 100, 100⟩).currentWinStreak = 0 ∧
      (streakStep initScan ⟨2022, 2, false, 100, 100⟩).currentLossStreak =
        initScan.currentLossStreak + 1) ∧
    ((streakStep initScan ⟨2022, 1, true, 100, 90⟩).currentLossStreak = 0 ∧
      (streakStep initScan ⟨2022, 1, true, 100, 90⟩).currentWinStreak =
        initScan.currentWinStreak + 1) ∧
    ([(⟨2022, 1, true, 100, 90⟩ : TeamMatch)].length ≤
      (streakScan ([] ++ [⟨2022, 1, true, 100, 90⟩] ++ [])).maxWin.length) ∧
    ([(⟨2022, 2, false, 100, 100⟩ : TeamMatch)].length ≤
      (streakScan ([] ++ [⟨2022, 2, false, 100, 100⟩] ++ [])).maxLoss.length) ∧
    (∃ pre seg suf : List TeamMatch, ∃ h z : TeamMatch,
      [(⟨2022, 1, true, 100, 90⟩ : TeamMatch)] = pre ++ seg ++ suf ∧
      seg.head? = some h ∧ seg.getLast? = some z ∧
      (∀ e ∈ seg, e.won = true) ∧
      seg.length = (streakScan [⟨2022, 1, true, 100, 90⟩]).maxWin.length ∧
      (streakScan [⟨2022, 1, true, 100, 90⟩]).maxWin.start = some (h.year, h.week) ∧
      (streakScan [⟨2022, 1, true, 100, 90⟩]).maxWin.end_ = some (z.year, z.week)) ∧
    (∃ pre seg suf : List TeamMatch, ∃ h z : TeamMatch,
      [(⟨2022, 2, false, 100, 100⟩ : TeamMatch)] = pre ++ seg ++ suf ∧
      seg.head? = some h ∧ seg.getLast? = some z ∧
      (∀ e ∈ seg, e.won = false) ∧
      seg.length = (streakScan [⟨2022, 2, false, 100, 100⟩]).maxLoss.length ∧
      (streakScan [⟨2022, 2, false, 100, 100⟩]).maxLoss.start = some (h.year, h.week) ∧
      (streakScan [⟨2022, 2, false, 100, 100⟩]).maxLoss.end_ = some (z.year, z.week)) :=
  ⟨streak_tie_and_longest_runs.1 ⟨2022, 2, 1, 2, 100, 100⟩ 1 rfl,
   streak_tie_and_longest_runs.2.1 initScan ⟨2022, 2, false, 100, 100⟩ rfl,
   streak_tie_and_longest_runs.2.2.1 initScan ⟨2022, 1, true, 100, 90⟩ rfl,
   streak_tie_and_longest_runs.2.2.2.1 [] [⟨2022, 1, true, 100, 90⟩] []
     (fun e he => by rw [List.mem_singleton.mp he]),
   streak_tie_and_longest_runs.2.2.2.2.1 [] [⟨2022, 2, false, 100, 100⟩] []
     (fun e he => by rw [List.mem_singleton.mp he]),
   streak_tie_and_longest_runs.2.2.2.2.2.1 [⟨2022, 1, true, 100, 90⟩] (by decide),
   streak_tie_and_longest_runs.2.2.2.2.2.2 [⟨2022, 2, false, 100, 100⟩] (by decide)⟩

end StatsEngine

/-! ### Zero-sum machinery for the all-play record (claim C4) -/

/-- Sum of a pointwise Nat addition splits. -/
theorem sum_map_add {A : Type} (l : List A) (f g : A → ℕ) :
    (l.map (fun x => f x + g x)).sum = (l.map f).sum + (l.map g).sum := by
  induction l with
  | nil => simp
  | cons x t ih =>
    simp only [List.map_cons, List.sum_cons, ih]
    omega

/-- Sum of an indicator is the filtered length. -/
theorem sum_map_ite_one {A : Type} (l : List A) (c : A → Prop) [DecidablePred c] :
    (l.map (fun x => if c x then 1 else 0)).sum = (l.filter (fun x => decide (c x))).length := by
  induction l with
  | nil => simp
  | cons x t ih =>
    by_cases h : c x <;> simp [List.filter_cons, h, ih] <;> omega

/-- Division by a constant distributes over a mapped sum. -/
theorem sum_map_div {A : Type} (l : List A) (f : A → ℚ) (c : ℚ) :
    (l.map (fun x => f x / c)).sum = (l.map f).sum / c := by
  induction l with
  | nil => simp
  | cons x t ih =>
    simp only [List.map_cons, List.sum_cons, ih, add_div]

/-- With x ∈ L and L duplicate-free, exactly one member equals x. -/
theorem filter_eq_singleton_length (L : List ℕ) (x : ℕ) (hnd : L.Nodup) (hx : x ∈ L) :
    (L.filter (fun w => decide (x = w))).length = 1 := by
  induction L with
  | nil => cases hx
  | cons a t ih =>
    rcases List.mem_cons.mp hx with rfl | hmem
    · have hout : t.filter (fun w => decide (x = w)) = [] := by
        rw [List.filter_eq_nil_iff]
        intro w hw
        simp only [decide_eq_true_eq]
        rintro rfl
        exact (List.nodup_cons.mp hnd).1 hw
      simp [List.filter_cons, hout]
    · have hne : ¬ (x = a) := by
        rintro rfl
        exact (List.nodup_cons.mp hnd).1 hmem
      simp [List.filter_cons, hne, ih (List.nodup_cons.mp hnd).2 hmem]

/-- Trichotomy count: when no element's score equals s, the below-s and
above-s filters partition the list. -/
theorem filter_lt_gt_length (t : List (ℕ × ℚ)) (s : ℚ) (h : ∀ q ∈ t, q.2 ≠ s) :
    (t.filter (fun q => decide (q.2 < s))).length +
      (t.filter (fun q => decide (s < q.2))).length = t.length := by
  induction t with
  | nil => simp
  | cons q t ih =>
    have hq := h q (List.mem_cons_self q t)
    have iht := ih (fun p hp => h p (List.mem_cons_of_mem q hp))
    rcases lt_or_gt_of_ne hq with hlt | hgt
    · simp only [List.filter_cons, decide_eq_true_eq, if_pos hlt,
        if_neg (not_lt.mpr (le_of_lt hlt)), List.length_cons]
      omega
    · simp only [List.filter_cons, decide_eq_true_eq, if_pos hgt,
        if_neg (not_lt.mpr (le_of_lt hgt)), List.length_cons]
      omega

/-- Moving two leading elements of the right part to the front. -/
theorem perm_shift2 {A : Type} (l r : List A) (x y : A) :
    (l ++ x :: y :: r).Perm ((y :: x :: l) ++ r) :=
  List.perm_middle.trans
    ((List.Perm.cons x List.perm_middle).trans
      (List.Perm.swap y x (l ++ r)))

/-- Upserting a fresh numeric key is, up to permutation, a cons. -/
theorem upsertNum_perm_fresh {α : Type} (acc : List (ℕ × α)) (k : ℕ) (v : α)
    (h : ∀ p ∈ acc, p.1 ≠ k) : (upsertNum acc k v).Perm ((k, v) :: acc) := by
  induction acc with
  | nil => exact List.Perm.refl _
  | cons hd t ih =>
    obtain ⟨ka, va⟩ := hd
    simp only [upsertNum]
    by_cases hlt : k < ka
    · simp only [if_pos hlt]
      exact List.Perm.refl _
    · have hne : k ≠ ka := fun hcon =>
        h (ka, va) (List.mem_cons_self _ t) (by simpa using hcon.symm)
      simp only [if_neg hlt, if_neg hne]
      have hperm := ih (fun p hp => h p (List.mem_cons_of_mem (ka, va) hp))
      exact (List.Perm.cons (ka, va) hperm).trans (List.Perm.swap (k, v) (ka, va) t)

/-- A lookup succeeds exactly on the stored keys. -/
theorem lookup_isSome_iff_mem_fst {κ α : Type} [BEq κ] [LawfulBEq κ] (k : κ) :
    ∀ l : List (κ × α), (l.lookup k).isSome ↔ k ∈ l.map Prod.fst := by
  intro l
  induction l with
  | nil => simp [List.lookup]
  | cons hd t ih =>
    obtain ⟨a, b⟩ := hd
    by_cases h : (k == a) = true
    · simp [List.lookup, h, beq_iff_eq.mp h]
    · have hne : k ≠ a := by simpa using h
      simp [List.lookup, h, hne, ih]

/-- Key list of an upsert: unchanged when the key is stored, extended
by the key otherwise. -/
theorem fst_upsertWith {κ α : Type} [BEq κ] [LawfulBEq κ] (k : κ) (f : Option α → α) :
    ∀ l : List (κ × α), (upsertWith l k f).map Prod.fst =
      if k ∈ l.map Prod.fst then l.map Prod.fst else l.map Prod.fst ++ [k] := by
  intro l
  induction l with
  | nil => simp [upsertWith]
  | cons hd t ih =>
    obtain ⟨a, b⟩ := hd
    simp only [upsertWith]
    by_cases h : (k == a) = true
    · have hka : k = a := beq_iff_eq.mp h
      rw [if_pos h]
      simp [hka]
    · have hne : k ≠ a := by simpa using h
      rw [if_neg h]
      simp only [List.map_cons, ih]
      by_cases hmem : k ∈ t.map Prod.fst
      · simp [hmem, hne]
      · simp [hmem, hne]

/-- The upserted key is stored afterwards. -/
theorem mem_fst_upsertWith_self {κ α : Type} [BEq κ] [LawfulBEq κ] (l : List (κ × α))
    (k : κ) (f : Option α → α) : k ∈ (upsertWith l k f).map Prod.fst := by
  rw [fst_upsertWith]
  by_cases hmem : k ∈ l.map Prod.fst
  · simpa [hmem] using hmem
  · simp [hmem]

/-- Stored keys survive an upsert. -/
theorem mem_fst_upsertWith_mono {κ α : Type} [BEq κ] [LawfulBEq κ] (l : List (κ × α))
    (k k' : κ) (f : Option α → α) (h : k' ∈ l.map Prod.fst) :
    k' ∈ (upsertWith l k f).map Prod.fst := by
  rw [fst_upsertWith]
  by_cases hmem : k ∈ l.map Prod.fst
  · simpa [hmem] using h
  · simp [hmem, List.mem_append, h]

namespace AdvancedAnalytics

/-- Total expected wins stored in an all-play result map. -/
def sumExpAP (res : List (JSKey × APRecord)) : ℚ :=
  (res.map (fun p => p.2.expectedWins)).sum

/-- Total actual wins stored in an all-play result map, as a rational. -/
def sumActAP (res : List (JSKey × APRecord)) : ℚ :=
  (res.map (fun p => (p.2.actualWins : ℚ))).sum

/-- The luck total of a result map is its actual-wins total minus its
expected-wins total. -/
theorem sumAP_split (res : List (JSKey × APRecord)) :
    (res.map (fun p => (p.2.actualWins : ℚ) - p.2.expectedWins)).sum =
      sumActAP res - sumExpAP res := by
  induction res with
  | nil => simp [sumActAP, sumExpAP]
  | cons p t ih =>
    simp only [List.map_cons, List.sum_cons, ih, sumActAP, sumExpAP]
    ring

/-- An upsert whose update adds δ to the expected wins (and starts a fresh
record at 0) shifts the expected-wins total by δ. -/
theorem sumExpAP_upsertWith (res : List (JSKey × APRecord)) (k : JSKey)
    (f : Option APRecord → APRecord) (δ : ℚ)
    (hf : ∀ o, (f o).expectedWins = (o.getD freshAP).expectedWins + δ) :
    sumExpAP (upsertWith res k f) = sumExpAP res + δ := by
  induction res with
  | nil => simp [upsertWith, sumExpAP, hf none, freshAP]
  | cons hd t ih =>
    obtain ⟨a, b⟩ := hd
    simp only [upsertWith]
    by_cases hk : (k == a) = true
    · simp only [if_pos hk, sumExpAP, List.map_cons, List.sum_cons, hf (some b)]
      simp [Option.getD]
      ring
    · simp only [if_neg hk, sumExpAP, List.map_cons, List.sum_cons]
      have h2 := ih
      simp only [sumExpAP] at h2
      rw [h2]
      ring

/-- An upsert whose update adds d to the actual wins shifts the actual-wins
total by d. -/
theorem sumActAP_upsertWith (res : List (JSKey × APRecord)) (k : JSKey)
    (f : Option APRecord → APRecord) (d : Nat)
    (hf : ∀ o, (f o).actualWins = (o.getD freshAP).actualWins + d) :
    sumActAP (upsertWith res k f) = sumActAP res + d := by
  induction res with
  | nil => simp [upsertWith, sumActAP, hf none, freshAP]
  | cons hd t ih =>
    obtain ⟨a, b⟩ := hd
    simp only [upsertWith]
    by_cases hk : (k == a) = true
    · simp only [if_pos hk, sumActAP, List.map_cons, List.sum_cons, hf (some b)]
      simp [Option.getD]
      push_cast
      ring
    · simp only [if_neg hk, sumActAP, List.map_cons, List.sum_cons]
      have h2 := ih
      simp only [sumActAP] at h2
      rw [h2]
      ring

end AdvancedAnalytics

namespace AdvancedAnalytics

/-- Per-week all-play win count of one score row: opponents of the same
week it outscored (`winsThisWeek`). -/
def apWins (scores : List (Nat × ℚ)) (p : Nat × ℚ) : Nat :=
  (scores.filter (fun q => decide (q.1 ≠ p.1 ∧ p.2 > q.2))).length

/-- Per-week expected wins of one score row (`winsThisWeek / (numTeams - 1)`). -/
def apExp (scores : List (Nat × ℚ)) (p : Nat × ℚ) : ℚ :=
  (apWins scores p : ℚ) / ((scores.length : ℚ) - 1)

/-- The per-row step of `apAddWeek`, named for the fold lemmas (the body is
the inner lambda of the source fold, unchanged). -/
def apStep (a : Analytics) (yo : Option Nat) (yr : Nat) (scores : List (Nat × ℚ))
    (acc : List (JSKey × APRecord)) (p : Nat × ℚ) : List (JSKey × APRecord) :=
  let tid := p.1
  let myScore := p.2
  let winsThisWeek := (scores.filter (fun q => decide (q.1 ≠ tid ∧ myScore > q.2))).length
  let expectedThisWeek : ℚ := (winsThisWeek : ℚ) / ((scores.length : ℚ) - 1)
  let key := metricKey a yo tid yr
  upsertWith acc key
    (fun old =>
      let r := old.getD freshAP
      { r with
        expectedWins := r.expectedWins + expectedThisWeek
        allPlayWins := r.allPlayWins + winsThisWeek
        allPlayLosses := r.allPlayLosses + (scores.length - 1 - winsThisWeek)
        totalWeeks := r.totalWeeks + 1
        seasons := setInsert r.seasons yr
        teamIds := setInsert r.teamIds tid
        years := setInsert r.years yr })

/-- A week's processing is the guarded fold of its per-row steps. -/
theorem apAddWeek_eq (a : Analytics) (yo : Option Nat) (yr : Nat)
    (scores : List (Nat × ℚ)) (res : List (JSKey × APRecord)) :
    apAddWeek a yo yr scores res =
      if scores.length < 2 then res
      else scores.foldl (apStep a yo yr scores) res := rfl

/-- The week guard of the base fold of `calculateAllPlayRecord`, named. -/
def weekStep (a : Analytics) (yo : Option Nat) (yr : Nat) (sched : List ScheduleEntry)
    (res2 : List (JSKey × APRecord)) (w : Nat) : List (JSKey × APRecord) :=
  if (regularWeeks sched).contains w then
    apAddWeek a yo yr (weekScores sched w) res2
  else res2

/-- The matchup step of `calculateAllPlayRecord`, named (the body is the
final fold's lambda of the source, unchanged). -/
def actStep (a : Analytics) (yo : Option Nat) (res : List (JSKey × APRecord))
    (m : Matchup) : List (JSKey × APRecord) :=
  let key := metricKey a yo m.winnerId m.year
  if (res.lookup key).isSome then
    upsertWith res key
      (fun old =>
        let r := old.getD freshAP
        { r with actualWins := r.actualWins + 1 })
  else res

/-- Per-year invocation of `calculateAllPlayRecord` as the two named folds. -/
theorem calculateAllPlayRecord_some_eq (a : Analytics) (y : Nat) :
    calculateAllPlayRecord a (some y) =
      ((allMatchups a).filter (fun m => decide (m.year = y) && !m.isPlayoff)).foldl
        (actStep a (some y))
        ([y].foldl
          (fun res yr =>
            match (includedSeasons a).lookup yr with
            | none => res
            | some sd =>
              (scoreWeeks sd.schedule).foldl (weekStep a (some y) yr sd.schedule) res)
          []) := rfl

/-- Folding the per-row steps adds each row's expected wins to the total. -/
theorem sumExpAP_apStep_fold (a : Analytics) (yo : Option Nat) (yr : Nat)
    (scores : List (Nat × ℚ)) : ∀ (l : List (Nat × ℚ)) (res : List (JSKey × APRecord)),
    sumExpAP (l.foldl (apStep a yo yr scores) res) =
      sumExpAP res + (l.map (apExp scores)).sum := by
  intro l
  induction l with
  | nil =>
    intro res
    simp
  | cons p t ih =>
    intro res
    simp only [List.foldl_cons, List.map_cons, List.sum_cons, ih]
    have hstep : sumExpAP (apStep a yo yr scores res p) = sumExpAP res + apExp scores p :=
      sumExpAP_upsertWith res _ _ (apExp scores p) (fun o => rfl)
    rw [hstep]
    ring

/-- Folding the per-row steps never touches the actual-wins total. -/
theorem sumActAP_apStep_fold (a : Analytics) (yo : Option Nat) (yr : Nat)
    (scores : List (Nat × ℚ)) : ∀ (l : List (Nat × ℚ)) (res : List (JSKey × APRecord)),
    sumActAP (l.foldl (apStep a yo yr scores) res) = sumActAP res := by
  intro l
  induction l with
  | nil =>
    intro res
    simp
  | cons p t ih =>
    intro res
    simp only [List.foldl_cons, ih]
    have hstep : sumActAP (apStep a yo yr scores res p) = sumActAP res + (0 : Nat) :=
      sumActAP_upsertWith res _ _ 0 (fun o => (add_zero _).symm)
    rw [hstep]
    simp

/-- Stored keys survive the per-row fold. -/
theorem mem_fst_apStep_fold_mono (a : Analytics) (yo : Option Nat) (yr : Nat)
    (scores : List (Nat × ℚ)) (k : JSKey) : ∀ (l : List (Nat × ℚ))
    (res : List (JSKey × APRecord)), k ∈ res.map Prod.fst →
    k ∈ (l.foldl (apStep a yo yr scores) res).map Prod.fst := by
  intro l
  induction l with
  | nil =>
    intro res h
    simpa using h
  | cons p t ih =>
    intro res h
    simp only [List.foldl_cons]
    exact ih _ (mem_fst_upsertWith_mono res _ k _ h)

/-- Every processed row's key is stored after the per-row fold. -/
theorem mem_fst_apStep_fold_mem (a : Analytics) (yo : Option Nat) (yr : Nat)
    (scores : List (Nat × ℚ)) : ∀ (l : List (Nat × ℚ))
    (res : List (JSKey × APRecord)), ∀ p ∈ l,
    metricKey a yo p.1 yr ∈ (l.foldl (apStep a yo yr scores) res).map Prod.fst := by
  intro l
  induction l with
  | nil =>
    intro res p hp
    cases hp
  | cons q t ih =>
    intro res p hp
    rcases List.mem_cons.mp hp with rfl | hmem
    · simp only [List.foldl_cons]
      exact mem_fst_apStep_fold_mono a yo yr scores _ t _
        (mem_fst_upsertWith_self res _ _)
    · simp only [List.foldl_cons]
      exact ih _ p hmem

/-- Expected-wins total added by one processed week. -/
theorem sumExpAP_apAddWeek (a : Analytics) (yo : Option Nat) (yr : Nat)
    (scores : List (Nat × ℚ)) (res : List (JSKey × APRecord)) :
    sumExpAP (apAddWeek a yo yr scores res) =
      sumExpAP res +
        (if scores.length < 2 then 0 else (scores.map (apExp scores)).sum) := by
  rw [apAddWeek_eq]
  by_cases hn : scores.length < 2
  · simp [hn]
  · simp only [if_neg hn]
    exact sumExpAP_apStep_fold a yo yr scores scores res

/-- A processed week never touches the actual-wins total. -/
theorem sumActAP_apAddWeek (a : Analytics) (yo : Option Nat) (yr : Nat)
    (scores : List (Nat × ℚ)) (res : List (JSKey × APRecord)) :
    sumActAP (apAddWeek a yo yr scores res) = sumActAP res := by
  rw [apAddWeek_eq]
  by_cases hn : scores.length < 2
  · simp [hn]
  · simp only [if_neg hn]
    exact sumActAP_apStep_fold a yo yr scores scores res

/-- Stored keys survive a processed week. -/
theorem mem_fst_apAddWeek_mono (a : Analytics) (yo : Option Nat) (yr : Nat)
    (scores : List (Nat × ℚ)) (res : List (JSKey × APRecord)) (k : JSKey)
    (h : k ∈ res.map Prod.fst) : k ∈ (apAddWeek a yo yr scores res).map Prod.fst := by
  rw [apAddWeek_eq]
  by_cases hn : scores.length < 2
  · simpa [hn] using h
  · simp only [if_neg hn]
    exact mem_fst_apStep_fold_mono a yo yr scores k scores res h

/-- Every scored team's key is stored after its week is processed. -/
theorem mem_fst_apAddWeek_mem (a : Analytics) (yo : Option Nat) (yr : Nat)
    (scores : List (Nat × ℚ)) (res : List (JSKey × APRecord)) (tid : Nat)
    (hn : ¬ scores.length < 2) (htid : tid ∈ scores.map Prod.fst) :
    metricKey a yo tid yr ∈ (apAddWeek a yo yr scores res).map Prod.fst := by
  rw [apAddWeek_eq, if_neg hn]
  rcases List.mem_map.mp htid with ⟨p, hp, rfl⟩
  exact mem_fst_apStep_fold_mem a yo yr scores scores res p hp

end AdvancedAnalytics

namespace AdvancedAnalytics

/-- Expected-wins total added by the base fold over a week list. -/
theorem sumExpAP_weekFold (a : Analytics) (yo : Option Nat) (yr : Nat)
    (sched : List ScheduleEntry) : ∀ (L : List Nat) (res : List (JSKey × APRecord)),
    sumExpAP (L.foldl (weekStep a yo yr sched) res) =
      sumExpAP res +
        (L.map (fun w =>
          if (regularWeeks sched).contains w then
            (if (weekScores sched w).length < 2 then 0
             else ((weekScores sched w).map (apExp (weekScores sched w))).sum)
          else 0)).sum := by
  intro L
  induction L with
  | nil =>
    intro res
    simp
  | cons w t ih =>
    intro res
    simp only [List.foldl_cons, List.map_cons, List.sum_cons, ih]
    unfold weekStep
    by_cases hw : (regularWeeks sched).contains w
    · simp only [if_pos hw, sumExpAP_apAddWeek]
      ring
    · simp only [if_neg hw]
      ring

/-- The base fold never touches the actual-wins total. -/
theorem sumActAP_weekFold (a : Analytics) (yo : Option Nat) (yr : Nat)
    (sched : List ScheduleEntry) : ∀ (L : List Nat) (res : List (JSKey × APRecord)),
    sumActAP (L.foldl (weekStep a yo yr sched) res) = sumActAP res := by
  intro L
  induction L with
  | nil =>
    intro res
    rfl
  | cons w t ih =>
    intro res
    simp only [List.foldl_cons, ih]
    unfold weekStep
    by_cases hw : (regularWeeks sched).contains w
    · simp only [if_pos hw, sumActAP_apAddWeek]
    · simp only [if_neg hw]

/-- Stored keys survive the base fold. -/
theorem mem_fst_weekFold_mono (a : Analytics) (yo : Option Nat) (yr : Nat)
    (sched : List ScheduleEntry) (k : JSKey) : ∀ (L : List Nat)
    (res : List (JSKey × APRecord)), k ∈ res.map Prod.fst →
    k ∈ (L.foldl (weekStep a yo yr sched) res).map Prod.fst := by
  intro L
  induction L with
  | nil =>
    intro res h
    simpa using h
  | cons w t ih =>
    intro res h
    simp only [List.foldl_cons]
    refine ih _ ?_
    unfold weekStep
    by_cases hw : (regularWeeks sched).contains w
    · simp only [if_pos hw]
      exact mem_fst_apAddWeek_mono a yo yr _ res k h
    · rw [if_neg hw]
      exact h

/-- Every team scored in a processed regular week of the list is stored
after the base fold. -/
theorem mem_fst_weekFold_mem (a : Analytics) (yo : Option Nat) (yr : Nat)
    (sched : List ScheduleEntry) (w tid : Nat)
    (hr : (regularWeeks sched).contains w = true)
    (hn : ¬ (weekScores sched w).length < 2)
    (htid : tid ∈ (weekScores sched w).map Prod.fst) :
    ∀ (L : List Nat) (res : List (JSKey × APRecord)), w ∈ L →
    metricKey a yo tid yr ∈ (L.foldl (weekStep a yo yr sched) res).map Prod.fst := by
  intro L
  induction L with
  | nil =>
    intro res h
    cases h
  | cons v t ih =>
    intro res hmem
    rcases List.mem_cons.mp hmem with rfl | hmem2
    · simp only [List.foldl_cons]
      refine mem_fst_weekFold_mono a yo yr sched _ t _ ?_
      unfold weekStep
      rw [if_pos hr]
      exact mem_fst_apAddWeek_mem a yo yr _ res tid hn htid
    · simp only [List.foldl_cons]
      exact ih _ hmem2

/-- With distinct ids and distinct scores, the total all-play win count of a
week is the number of unordered pairs. -/
theorem pairSum (l : List (Nat × ℚ)) (h1 : (l.map Prod.fst).Nodup)
    (h2 : (l.map Prod.snd).Nodup) :
    (l.map (apWins l)).sum = l.length.choose 2 := by
  induction l with
  | nil => simp
  | cons x t ih =>
    have hx1 : x.1 ∉ t.map Prod.fst := (List.nodup_cons.mp (by simpa using h1)).1
    have hx2 : x.2 ∉ t.map Prod.snd := (List.nodup_cons.mp (by simpa using h2)).1
    have ht1 : (t.map Prod.fst).Nodup := (List.nodup_cons.mp (by simpa using h1)).2
    have ht2 : (t.map Prod.snd).Nodup := (List.nodup_cons.mp (by simpa using h2)).2
    have hxx : apWins (x :: t) x = (t.filter (fun q => decide (q.2 < x.2))).length := by
      unfold apWins
      rw [List.filter_cons, if_neg (by simp)]
      congr 1
      apply List.filter_congr
      intro q hq
      have hne : q.1 ≠ x.1 := by
        intro hcon
        exact hx1 (hcon ▸ List.mem_map_of_mem Prod.fst hq)
      simp [hne]
    have hcross : ∀ p ∈ t, apWins (x :: t) p = (if x.2 < p.2 then 1 else 0) + apWins t p := by
      intro p hp
      have hne : x.1 ≠ p.1 := by
        intro hcon
        exact hx1 (hcon ▸ List.mem_map_of_mem Prod.fst hp)
      unfold apWins
      rw [List.filter_cons]
      by_cases hgt : x.2 < p.2
      · rw [if_pos (by simp [hne, hgt]), if_pos hgt]
        simp only [List.length_cons]
        omega
      · rw [if_neg (by simp [hgt]), if_neg hgt]
        simp
    have hmap : (t.map (apWins (x :: t))).sum =
        (t.filter (fun q => decide (x.2 < q.2))).length + (t.map (apWins t)).sum := by
      rw [List.map_congr_left hcross, sum_map_add]
      congr 1
      exact sum_map_ite_one t (fun p => x.2 < p.2)
    have hne2 : ∀ q ∈ t, q.2 ≠ x.2 := by
      intro q hq hcon
      exact hx2 (hcon ▸ List.mem_map_of_mem Prod.snd hq)
    calc ((x :: t).map (apWins (x :: t))).sum
        = apWins (x :: t) x + (t.map (apWins (x :: t))).sum := by simp
      _ = (t.filter (fun q => decide (q.2 < x.2))).length +
          ((t.filter (fun q => decide (x.2 < q.2))).length + (t.map (apWins t)).sum) := by
          rw [hxx, hmap]
      _ = t.length + t.length.choose 2 := by
          rw [ih ht1 ht2, ← add_assoc, filter_lt_gt_length t x.2 hne2]
      _ = (t.length + 1).choose 2 := by
          rw [Nat.choose_succ_succ, Nat.choose_one_right]
      _ = ((x :: t).length).choose 2 := by simp

end AdvancedAnalytics

namespace AdvancedAnalytics

/-- Stored keys survive a matchup step. -/
theorem mem_fst_actStep_mono (a : Analytics) (yo : Option Nat)
    (res : List (JSKey × APRecord)) (m : Matchup) (k : JSKey)
    (h : k ∈ res.map Prod.fst) : k ∈ (actStep a yo res m).map Prod.fst := by
  unfold actStep
  by_cases hl : ((res.lookup (metricKey a yo m.winnerId m.year)).isSome : Bool)
  · rw [if_pos hl]
    exact mem_fst_upsertWith_mono res _ k _ h
  · rw [if_neg hl]
    exact h

/-- When every processed matchup's winner key is already stored, the
matchup fold adds exactly one actual win per matchup and never touches
the expected-wins total. -/
theorem actFold_sums (a : Analytics) (yo : Option Nat) :
    ∀ (ms : List Matchup) (res : List (JSKey × APRecord)),
    (∀ m ∈ ms, metricKey a yo m.winnerId m.year ∈ res.map Prod.fst) →
    sumActAP (ms.foldl (actStep a yo) res) = sumActAP res + ms.length ∧
    sumExpAP (ms.foldl (actStep a yo) res) = sumExpAP res := by
  intro ms
  induction ms with
  | nil =>
    intro res h
    simp
  | cons m t ih =>
    intro res h
    have hkey : metricKey a yo m.winnerId m.year ∈ res.map Prod.fst :=
      h m (List.mem_cons_self m t)
    have hl : ((res.lookup (metricKey a yo m.winnerId m.year)).isSome : Bool) = true :=
      (lookup_isSome_iff_mem_fst _ res).mpr hkey
    have hstep : actStep a yo res m =
        upsertWith res (metricKey a yo m.winnerId m.year)
          (fun old =>
            let r := old.getD freshAP
            { r with actualWins := r.actualWins + 1 }) := by
      unfold actStep
      rw [if_pos hl]
    have hnext : ∀ m2 ∈ t, metricKey a yo m2.winnerId m2.year ∈
        (actStep a yo res m).map Prod.fst := by
      intro m2 hm2
      exact mem_fst_actStep_mono a yo res m _ (h m2 (List.mem_cons_of_mem m hm2))
    have hih := ih (actStep a yo res m) hnext
    constructor
    · rw [List.foldl_cons, hih.1, hstep,
        sumActAP_upsertWith res _ _ 1 (fun o => rfl)]
      simp only [List.length_cons]
      push_cast
      ring
    · rw [List.foldl_cons, hih.2, hstep,
        sumExpAP_upsertWith res _
          (fun old =>
            let r := old.getD freshAP
            { r with actualWins := r.actualWins + 1 })
          0 (fun o => (add_zero _).symm), add_zero]

/-- One played game of an input season: week, the two team ids, the two
scores. -/
structure Game where
  week : Nat
  homeId : Nat
  awayId : Nat
  homeScore : ℚ
  awayScore : ℚ
deriving DecidableEq, Repr

/-- The complete, non-playoff schedule entry of one game. -/
def gameEntry (g : Game) : ScheduleEntry :=
  { matchupPeriodId := g.week
    playoffTierType := none
    home := some { teamId := g.homeId, totalPoints := some g.homeScore }
    away := some { teamId := g.awayId, totalPoints := some g.awayScore } }

/-- A season payload holding exactly the given games. -/
def gamesPayload (gs : List Game) : SeasonPayload :=
  { error := false, teams := [], schedule := gs.map gameEntry, members := [] }

/-- An analytics instance over one season of the given games. -/
def seasonOfGames (y : Nat) (gs : List Game) : Analytics :=
  { raw := { seasons := [(y, gamesPayload gs)] }
    minYear := 0
    coOwnerMappings := []
    coOwnerDisplayName := [] }

/-- Games of one week. -/
def weekGames (gs : List Game) (w : Nat) : List Game :=
  gs.filter (fun g => g.week = w)

/-- Team ids fielded in one week, home then away per game. -/
def weekIds (gs : List Game) (w : Nat) : List Nat :=
  (weekGames gs w).flatMap (fun g => [g.homeId, g.awayId])

/-- Scores posted in one week, home then away per game. -/
def weekVals (gs : List Game) (w : Nat) : List ℚ :=
  (weekGames gs w).flatMap (fun g => [g.homeScore, g.awayScore])

/-- Id/score pairs of one week, home then away per game. -/
def weekPairs (gs : List Game) (w : Nat) : List (Nat × ℚ) :=
  (weekGames gs w).flatMap (fun g => [(g.homeId, g.homeScore), (g.awayId, g.awayScore)])

/-- The week-scores fold of `weekScores`, restated over games. -/
def gamesWeekFold (w : Nat) (gs : List Game) (acc : List (Nat × ℚ)) : List (Nat × ℚ) :=
  gs.foldl
    (fun acc2 g =>
      if g.week = w then
        upsertNum (upsertNum acc2 g.homeId g.homeScore) g.awayId g.awayScore
      else acc2)
    acc

/-- The parsed matchup of one game (its entry passes every guard; on equal
scores the away side is the winner, as in `parseEntry`). -/
def gameMatchup (y : Nat) (g : Game) : Matchup :=
  { year := y
    week := g.week
    isPlayoff := false
    homeTeamId := g.homeId
    awayTeamId := g.awayId
    homeScore := g.homeScore
    awayScore := g.awayScore
    margin := |g.homeScore - g.awayScore|
    winnerId := if g.homeScore > g.awayScore then g.homeId else g.awayId
    loserId := if g.homeScore > g.awayScore then g.awayId else g.homeId }

/-- A game's entry parses to its matchup. -/
theorem parseEntry_gameEntry (y : Nat) (g : Game) :
    parseEntry y (gameEntry g) = some (gameMatchup y g) := rfl

/-- Week ids are the keys of the week pairs. -/
theorem weekPairs_map_fst (gs : List Game) (w : Nat) :
    (weekPairs gs w).map Prod.fst = weekIds gs w := by
  simp [weekPairs, weekIds, List.map_flatMap]

/-- Week scores are the values of the week pairs. -/
theorem weekPairs_map_snd (gs : List Game) (w : Nat) :
    (weekPairs gs w).map Prod.snd = weekVals gs w := by
  simp [weekPairs, weekVals, List.map_flatMap]

/-- With no duplicate ids in the week, the score fold builds a permutation
of the accumulator and the week's (id, score) pairs. -/
theorem gamesWeekFold_perm (w : Nat) : ∀ (gs : List Game) (acc : List (Nat × ℚ)),
    (acc.map Prod.fst ++ weekIds gs w).Nodup →
    (gamesWeekFold w gs acc).Perm (acc ++ weekPairs gs w) := by
  intro gs
  induction gs with
  | nil =>
    intro acc _
    simp [gamesWeekFold, weekPairs, weekGames]
  | cons g t ih =>
    intro acc h
    by_cases hw : g.week = w
    · have hids : weekIds (g :: t) w = g.homeId :: g.awayId :: weekIds t w := by
        simp [weekIds, weekGames, List.filter_cons, hw]
      have hprs : weekPairs (g :: t) w =
          (g.homeId, g.homeScore) :: (g.awayId, g.awayScore) :: weekPairs t w := by
        simp [weekPairs, weekGames, List.filter_cons, hw]
      rw [hids] at h
      have hdisj := (List.nodup_append.mp h).2.2
      have hr := (List.nodup_append.mp h).2.1
      have hhfresh : ∀ p ∈ acc, p.1 ≠ g.homeId := by
        intro p hp hcon
        exact hdisj (hcon ▸ List.mem_map_of_mem Prod.fst hp) (by simp)
      have hup1 : (upsertNum acc g.homeId g.homeScore).Perm
          ((g.homeId, g.homeScore) :: acc) := upsertNum_perm_fresh acc _ _ hhfresh
      have hah : g.homeId ≠ g.awayId := by
        intro hcon
        exact (List.nodup_cons.mp hr).1 (by simp [hcon])
      have hafresh : ∀ p ∈ upsertNum acc g.homeId g.homeScore, p.1 ≠ g.awayId := by
        intro p hp hcon
        rcases List.mem_cons.mp (hup1.mem_iff.mp hp) with rfl | hpa
        · exact hah (by simpa using hcon)
        · exact hdisj (hcon ▸ List.mem_map_of_mem Prod.fst hpa) (by simp)
      have hup2 : (upsertNum (upsertNum acc g.homeId g.homeScore) g.awayId
          g.awayScore).Perm
          ((g.awayId, g.awayScore) :: (g.homeId, g.homeScore) :: acc) :=
        (upsertNum_perm_fresh _ _ _ hafresh).trans (List.Perm.cons _ hup1)
      set up2 := upsertNum (upsertNum acc g.homeId g.homeScore) g.awayId g.awayScore
        with hup2def
      have hfold : gamesWeekFold w (g :: t) acc = gamesWeekFold w t up2 := by
        simp [gamesWeekFold, hw, hup2def]
      have hmapfst : (up2.map Prod.fst).Perm
          (g.awayId :: g.homeId :: acc.map Prod.fst) := by
        simpa using hup2.map Prod.fst
      have hnd2 : (up2.map Prod.fst ++ weekIds t w).Nodup := by
        have hrhs : ((g.awayId :: g.homeId :: acc.map Prod.fst) ++ weekIds t w).Nodup :=
          (perm_shift2 (acc.map Prod.fst) (weekIds t w) g.homeId g.awayId).nodup_iff.mp h
        exact ((hmapfst.append_right (weekIds t w)).nodup_iff).mpr hrhs
      have hmain := ih up2 hnd2
      rw [hfold, hprs]
      refine hmain.trans ?_
      refine (hup2.append_right (weekPairs t w)).trans ?_
      exact (perm_shift2 acc (weekPairs t w) (g.homeId, g.homeScore)
        (g.awayId, g.awayScore)).symm
    · have hids : weekIds (g :: t) w = weekIds t w := by
        simp [weekIds, weekGames, List.filter_cons, hw]
      have hprs : weekPairs (g :: t) w = weekPairs t w := by
        simp [weekPairs, weekGames, List.filter_cons, hw]
      have hfold : gamesWeekFold w (g :: t) acc = gamesWeekFold w t acc := by
        simp [gamesWeekFold, hw]
      rw [hfold, hprs]
      exact ih acc (hids ▸ h)

/-- Each game is counted in exactly one listed week. -/
theorem sum_week_counts (L : List ℕ) (hnd : L.Nodup) :
    ∀ gs : List Game, (∀ g ∈ gs, g.week ∈ L) →
    (L.map (fun w => (weekGames gs w).length)).sum = gs.length := by
  intro gs
  induction gs with
  | nil =>
    intro _
    simp [weekGames]
  | cons g t ih =>
    intro hmem
    have hsplit : ∀ w, (weekGames (g :: t) w).length =
        (if g.week = w then 1 else 0) + (weekGames t w).length := by
      intro w
      by_cases hw : g.week = w
      · simp [weekGames, List.filter_cons, hw]
        omega
      · simp [weekGames, List.filter_cons, hw]
    have hone : (L.map (fun w => if g.week = w then 1 else 0)).sum = 1 := by
      have hs := sum_map_ite_one L (fun w => g.week = w)
      rw [hs]
      exact filter_eq_singleton_length L g.week hnd (hmem g (List.mem_cons_self g t))
    calc (L.map (fun w => (weekGames (g :: t) w).length)).sum
        = (L.map (fun w => (if g.week = w then 1 else 0) + (weekGames t w).length)).sum := by
          rw [List.map_congr_left (fun w _ => hsplit w)]
      _ = (L.map (fun w => if g.week = w then 1 else 0)).sum +
          (L.map (fun w => (weekGames t w).length)).sum := sum_map_add L _ _
      _ = 1 + t.length := by
          rw [hone, ih (fun p hp => hmem p (List.mem_cons_of_mem g hp))]
      _ = (g :: t).length := by simp [Nat.add_comm]

end AdvancedAnalytics

namespace AdvancedAnalytics

/-- Game entries all pass the completeness guard. -/
theorem filter_complete_games (gs : List Game) :
    (gs.map gameEntry).filter entryComplete = gs.map gameEntry :=
  List.filter_eq_self.mpr (by
    intro e he
    rcases List.mem_map.mp he with ⟨g, _, rfl⟩
    rfl)

/-- Week keys of a game schedule are the games' weeks, deduplicated and
sorted ascending. -/
theorem scoreWeeks_games (gs : List Game) :
    scoreWeeks (gs.map gameEntry) =
      ((gs.map Game.week).dedup).mergeSort (fun x y => decide (x ≤ y)) := by
  unfold scoreWeeks
  rw [filter_complete_games, List.map_map]
  rfl

/-- Regular weeks of a game schedule are exactly the games' weeks. -/
theorem regularWeeks_games (gs : List Game) :
    regularWeeks (gs.map gameEntry) = gs.map Game.week := by
  unfold regularWeeks
  have h : (gs.map gameEntry).filter (fun e => entryComplete e && !entryIsPlayoff e) =
      gs.map gameEntry :=
    List.filter_eq_self.mpr (by
      intro e he
      rcases List.mem_map.mp he with ⟨g, _, rfl⟩
      rfl)
  rw [h, List.map_map]
  rfl

/-- The weekly score object of a game schedule is the games' week fold. -/
theorem weekScores_games (gs : List Game) (w : Nat) :
    weekScores (gs.map gameEntry) w = gamesWeekFold w gs [] := by
  unfold weekScores gamesWeekFold
  rw [List.foldl_map]
  rfl

/-- The one included season of a games instance. -/
theorem includedSeasons_games (y : Nat) (gs : List Game) :
    includedSeasons (seasonOfGames y gs) = [(y, gamesPayload gs)] := by
  simp [includedSeasons, seasonOfGames, gamesPayload]

/-- Parsing a game schedule yields each game's matchup. -/
theorem filterMap_games (y : Nat) (gs : List Game) :
    (gs.map gameEntry).filterMap (parseEntry y) = gs.map (gameMatchup y) := by
  induction gs with
  | nil => rfl
  | cons g t ih => simp [List.filterMap_cons, parseEntry_gameEntry, ih]

/-- All matchups of a games instance. -/
theorem allMatchups_games (y : Nat) (gs : List Game) :
    allMatchups (seasonOfGames y gs) = gs.map (gameMatchup y) := by
  rw [allMatchups, includedSeasons_games]
  simp only [List.flatMap_cons, List.flatMap_nil, List.append_nil]
  show (gs.map gameEntry).filterMap (parseEntry y) = _
  exact filterMap_games y gs

/-- A list of two-element blocks has twice the length. -/
theorem length_flatMap_two (l : List Game) :
    (l.flatMap (fun g => [((g.homeId : Nat), g.homeScore),
      (g.awayId, g.awayScore)])).length = 2 * l.length := by
  induction l with
  | nil => rfl
  | cons g t ih =>
    simp only [List.flatMap_cons, List.length_append, ih, List.length_cons,
      List.length_nil]
    omega

/-- The week pairs list carries two rows per game. -/
theorem length_weekPairs (gs : List Game) (w : Nat) :
    (weekPairs gs w).length = 2 * (weekGames gs w).length := by
  unfold weekPairs
  exact length_flatMap_two _

/-- Contribution of one populated week to the expected-wins total: with
distinct ids and distinct scores, exactly the number of matchups of that
week. -/
theorem week_contrib (gs : List Game) (w : Nat) (hw : w ∈ gs.map Game.week)
    (hids : (weekIds gs w).Nodup) (hvals : (weekVals gs w).Nodup) :
    (if (regularWeeks (gs.map gameEntry)).contains w then
      (if (weekScores (gs.map gameEntry) w).length < 2 then 0
       else ((weekScores (gs.map gameEntry) w).map
         (apExp (weekScores (gs.map gameEntry) w))).sum)
     else 0) = ((weekGames gs w).length : ℚ) := by
  have hcont : (regularWeeks (gs.map gameEntry)).contains w = true := by
    rw [regularWeeks_games]
    exact List.elem_iff.mpr hw
  have hperm : (weekScores (gs.map gameEntry) w).Perm (weekPairs gs w) := by
    rw [weekScores_games]
    simpa using gamesWeekFold_perm w gs [] (by simpa [weekIds] using hids)
  rcases List.mem_map.mp hw with ⟨g0, hg0, hg0w⟩
  have hg0mem : g0 ∈ weekGames gs w := List.mem_filter.mpr ⟨hg0, by simp [hg0w]⟩
  have hcnt : 0 < (weekGames gs w).length :=
    List.length_pos.mpr (List.ne_nil_of_mem hg0mem)
  have hlen : (weekScores (gs.map gameEntry) w).length = 2 * (weekGames gs w).length := by
    rw [hperm.length_eq, length_weekPairs]
  have hn2 : ¬ (weekScores (gs.map gameEntry) w).length < 2 := by
    rw [hlen]
    omega
  rw [if_pos hcont, if_neg hn2]
  have hwp1 : ((weekPairs gs w).map Prod.fst).Nodup := by
    rw [weekPairs_map_fst]
    exact hids
  have hwp2 : ((weekPairs gs w).map Prod.snd).Nodup := by
    rw [weekPairs_map_snd]
    exact hvals
  have hapw : ∀ p, apWins (weekScores (gs.map gameEntry) w) p =
      apWins (weekPairs gs w) p := by
    intro p
    unfold apWins
    exact (List.Perm.filter _ hperm).length_eq
  have hsum1 : ((weekScores (gs.map gameEntry) w).map
      (apWins (weekScores (gs.map gameEntry) w))).sum =
      ((weekPairs gs w).length).choose 2 := by
    rw [List.map_congr_left (fun p _ => hapw p)]
    rw [(hperm.map (apWins (weekPairs gs w))).sum_eq]
    exact pairSum _ hwp1 hwp2
  have hdiv : ((weekScores (gs.map gameEntry) w).map
      (apExp (weekScores (gs.map gameEntry) w))).sum =
      (((weekScores (gs.map gameEntry) w).map
        (apWins (weekScores (gs.map gameEntry) w))).sum : ℚ) /
        (((weekScores (gs.map gameEntry) w).length : ℚ) - 1) := by
    unfold apExp
    rw [sum_map_div]
    congr 1
    rw [Nat.cast_list_sum, List.map_map]
    rfl
  rw [hdiv, hsum1, hperm.length_eq, length_weekPairs]
  set c := (weekGames gs w).length with hc
  have h2c : ((2 * c : ℕ) : ℚ) = 2 * (c : ℚ) := by push_cast; ring
  have hne : (((2 * c : ℕ) : ℚ)) - 1 ≠ 0 := by
    rw [h2c]
    have hcq : (1 : ℚ) ≤ (c : ℚ) := by exact_mod_cast hcnt
    nlinarith
  rw [Nat.cast_choose_two, div_div, mul_div_mul_right _ _ hne, h2c]
  exact mul_div_cancel_left₀ _ two_ne_zero

end AdvancedAnalytics

namespace AdvancedAnalytics

/-- Per-year all-play record of a games instance as two explicit folds. -/
theorem calcAP_games_eq (y : Nat) (gs : List Game) :
    calculateAllPlayRecord (seasonOfGames y gs) (some y) =
      (gs.map (gameMatchup y)).foldl (actStep (seasonOfGames y gs) (some y))
        ((scoreWeeks (gs.map gameEntry)).foldl
          (weekStep (seasonOfGames y gs) (some y) y (gs.map gameEntry)) []) := by
  rw [calculateAllPlayRecord_some_eq]
  simp only [List.foldl_cons, List.foldl_nil]
  rw [includedSeasons_games]
  have hlk : List.lookup y [(y, gamesPayload gs)] = some (gamesPayload gs) := by
    simp [List.lookup]
  rw [hlk]
  have hms : (allMatchups (seasonOfGames y gs)).filter
      (fun m => decide (m.year = y) && !m.isPlayoff) = gs.map (gameMatchup y) := by
    rw [allMatchups_games]
    refine List.filter_eq_self.mpr ?_
    intro m hm
    rcases List.mem_map.mp hm with ⟨g, _, rfl⟩
    simp [gameMatchup]
  rw [hms]
  rfl

/-- C4: amended.  The zero-sum luck invariant holds for a single season of
complete non-playoff games provided no two teams of a week share an id and
no two scores of a week are equal (in particular, no tied matchup): summing
actual wins minus expected wins over every stored record of the per-year
all-play computation gives exactly zero.  A tied matchup breaks the
invariant, as the separate counterexample shows. -/
theorem allplay_luck_zero_sum_no_ties (y : Nat) (gs : List Game)
    (hids : ∀ w ∈ gs.map Game.week, (weekIds gs w).Nodup)
    (hvals : ∀ w ∈ gs.map Game.week, (weekVals gs w).Nodup) :
    ((calculateAllPlayRecord (seasonOfGames y gs) (some y)).map
      (fun p => (p.2.actualWins : ℚ) - p.2.expectedWins)).sum = 0 := by
  rw [sumAP_split, calcAP_games_eq]
  set a := seasonOfGames y gs with ha
  set L := scoreWeeks (gs.map gameEntry) with hL
  set base := L.foldl (weekStep a (some y) y (gs.map gameEntry)) [] with hbase
  have hLnd : L.Nodup := by
    rw [hL, scoreWeeks_games]
    exact (List.mergeSort_perm _ _).nodup_iff.mpr (List.nodup_dedup _)
  have hLmem : ∀ w, w ∈ gs.map Game.week ↔ w ∈ L := by
    intro w
    rw [hL, scoreWeeks_games]
    simp [List.mem_mergeSort, List.mem_dedup]
  have hbaseExp : sumExpAP base = (gs.length : ℚ) := by
    rw [hbase, sumExpAP_weekFold]
    have hptw : ∀ w ∈ L,
        (if (regularWeeks (gs.map gameEntry)).contains w then
          (if (weekScores (gs.map gameEntry) w).length < 2 then 0
           else ((weekScores (gs.map gameEntry) w).map
             (apExp (weekScores (gs.map gameEntry) w))).sum)
         else 0) = ((weekGames gs w).length : ℚ) := by
      intro w hwL
      exact week_contrib gs w ((hLmem w).mpr hwL)
        (hids w ((hLmem w).mpr hwL)) (hvals w ((hLmem w).mpr hwL))
    rw [List.map_congr_left hptw]
    have hcast : (L.map (fun w => ((weekGames gs w).length : ℚ))).sum =
        ((L.map (fun w => (weekGames gs w).length)).sum : ℚ) := by
      rw [Nat.cast_list_sum, List.map_map]
      rfl
    rw [hcast, sum_week_counts L hLnd gs
      (fun g hg => (hLmem g.week).mp (List.mem_map_of_mem Game.week hg))]
    simp [sumExpAP]
  have hbaseAct : sumActAP base = 0 := by
    rw [hbase, sumActAP_weekFold]
    simp [sumActAP]
  have hpres : ∀ m ∈ gs.map (gameMatchup y),
      metricKey a (some y) m.winnerId m.year ∈ base.map Prod.fst := by
    intro m hm
    rcases List.mem_map.mp hm with ⟨g, hg, rfl⟩
    have hwmem : g.week ∈ gs.map Game.week := List.mem_map_of_mem Game.week hg
    have hwL : g.week ∈ L := (hLmem g.week).mp hwmem
    have hcont : (regularWeeks (gs.map gameEntry)).contains g.week = true := by
      rw [regularWeeks_games]
      exact List.elem_iff.mpr hwmem
    have hperm : (weekScores (gs.map gameEntry) g.week).Perm (weekPairs gs g.week) := by
      rw [weekScores_games]
      simpa using gamesWeekFold_perm g.week gs []
        (by simpa [weekIds] using hids g.week hwmem)
    have hgmem : g ∈ weekGames gs g.week := List.mem_filter.mpr ⟨hg, by simp⟩
    have hn2 : ¬ (weekScores (gs.map gameEntry) g.week).length < 2 := by
      rw [hperm.length_eq, length_weekPairs]
      have hp := List.length_pos.mpr (List.ne_nil_of_mem hgmem)
      omega
    have htid : (gameMatchup y g).winnerId ∈
        (weekScores (gs.map gameEntry) g.week).map Prod.fst := by
      have hin : (gameMatchup y g).winnerId ∈ weekIds gs g.week := by
        unfold weekIds
        refine List.mem_flatMap.mpr ⟨g, hgmem, ?_⟩
        show (if g.homeScore > g.awayScore then g.homeId else g.awayId) ∈ _
        by_cases hgt : g.homeScore > g.awayScore
        · simp [hgt]
        · simp [hgt]
      have hmp : ((weekScores (gs.map gameEntry) g.week).map Prod.fst).Perm
          (weekIds gs g.week) := by
        rw [← weekPairs_map_fst]
        exact hperm.map Prod.fst
      exact hmp.mem_iff.mpr hin
    exact mem_fst_weekFold_mem a (some y) y (gs.map gameEntry) g.week
      (gameMatchup y g).winnerId hcont hn2 htid L [] hwL
  have hfin := actFold_sums a (some y) (gs.map (gameMatchup y)) base hpres
  rw [hfin.1, hfin.2, hbaseAct, hbaseExp]
  simp

end AdvancedAnalytics

namespace AdvancedAnalytics

/-- C4: counterexample.  On the one-game 2022 season whose single matchup
is a 100–100 tie, both sides' expected wins are zero for the week (neither
outscored the other), yet the parser's strict comparison makes the away
side the winner and the matchup fold credits it with an actual win, so the
season's luck total is 1, not 0: a tie breaks the zero-sum invariant the
claim states for any input payload. -/
theorem tie_breaks_luck_zero_sum :
    ((calculateAllPlayRecord tieAnalytics (some 2022)).map
      (fun p => (p.2.actualWins : ℚ) - p.2.expectedWins)).sum = 1 := by
  norm_num [tieAnalytics, oneSeason, onePayload, game, allMatchups, includedSeasons,
    seasonMatchups, parseEntry, entryIsPlayoff, entryComplete, freshAP, metricKey,
    calculateAllPlayRecord, apAddWeek, scoreWeeks, weekScores, regularWeeks,
    upsertWith, upsertNum, setInsert, List.mergeSort, List.merge, List.lookup,
    List.filterMap_cons, List.filterMap_nil, BEq.beq, instBEqOfDecidableEq]

/-- Instantiation of the amended zero-sum theorem at a single decided game
(103–100 in week 1): the per-week distinctness hypotheses hold and the luck
total of the resulting all-play record is zero. -/
theorem allplay_luck_zero_sum_no_ties_witness :
    (∀ w ∈ ([⟨1, 1, 2, 103, 100⟩] : List Game).map Game.week,
      (weekIds [⟨1, 1, 2, 103, 100⟩] w).Nodup) ∧
    (∀ w ∈ ([⟨1, 1, 2, 103, 100⟩] : List Game).map Game.week,
      (weekVals [⟨1, 1, 2, 103, 100⟩] w).Nodup) ∧
    ((calculateAllPlayRecord (seasonOfGames 2022 [⟨1, 1, 2, 103, 100⟩])
      (some 2022)).map
      (fun p => (p.2.actualWins : ℚ) - p.2.expectedWins)).sum = 0 :=
  ⟨by decide, by decide,
   allplay_luck_zero_sum_no_ties 2022 [⟨1, 1, 2, 103, 100⟩] (by decide) (by decide)⟩

end AdvancedAnalytics
